import Mathlib

/-!
# The seth client

A shallow embedding of the Go sources of seth.  From `gas_adjuster.go`: the congestion
metrics and their block window, the congestion classification, the per-priority
adjustment factors, the historical percentile selection and the EIP-1559 and legacy
fee suggestions.  From `client.go` and `config.go`: the validation of the
configuration, the gas estimations, the transaction options and their overrides, the
transfer between keys, the decoding of a transaction and the deployment of a contract.
From `block_stats.go`: the block statistics.  From `cmd/seth.go`: the command `trace`.

Numbers.  `big.Int` values are `ℤ`.  A `float64` is modelled by `F64`: NaN, an
infinity, or a finite dyadic `m * 2 ^ e`; every arithmetic operation computes
the exact rational result and rounds it to the nearest double, ties to even,
with gradual underflow and overflow to infinity, as IEEE 754 prescribes.  The
sign of a zero is not tracked: a zero behaves as `+0`, which is the only zero
the modelled computations produce.  A `big.Float` is a dyadic with a precision;
its product is rounded to that precision, ties to even.  A decimal literal of
the source denotes the double nearest to it, as the Go compiler converts it.

Effects.  The results of the JSON-RPC calls, of the library functions whose values the
sources do not fix, and of the functions of seth that are not among the sources are
explicit arguments; `m.Errors` is a field of the client state; a Go panic is the
outcome `Res.panic` of a fee suggestion and the outcome `Outcome.panic` elsewhere.
-/

namespace Seth

/-! ## Integer helpers -/

/-- Worker of `bitLen`: counts the binary digits of `n`, `fuel` bounding the recursion. -/
def bitLenAux : ℕ → ℕ → ℕ
  | 0, _ => 0
  | fuel + 1, n => if n = 0 then 0 else bitLenAux fuel (n / 2) + 1

/-- Number of binary digits of `n` (`(*big.Int).BitLen`, `bits.Len`); `bitLen 0 = 0`. -/
def bitLen (n : ℕ) : ℕ := bitLenAux n n

/-- Quotient `n / d` rounded to the nearest integer, ties to the even one (`d > 0`). -/
def roundQuot (n : ℤ) (d : ℕ) : ℤ :=
  let f := n / (d : ℤ)
  let r := n % (d : ℤ)
  if 2 * r < d then f
  else if (d : ℤ) < 2 * r then f + 1
  else if f % 2 = 0 then f else f + 1

/-- Binary exponent `E` of the positive rational `n / d`: `2 ^ (E - 1) ≤ n / d < 2 ^ E`. -/
def binExp (n d : ℕ) : ℤ :=
  let k : ℤ := (bitLen n : ℤ) - (bitLen d : ℤ)
  if n * 2 ^ (-k).toNat < d * 2 ^ k.toNat then k else k + 1

/-- Integer part of the dyadic `m * 2 ^ e`, rounding toward zero. -/
def truncDyadic (m e : ℤ) : ℤ :=
  if 0 ≤ e then m * 2 ^ e.toNat else Int.tdiv m (2 ^ (-e).toNat)

/-- Conversion `int64(u)` of a `uint64` bit pattern `u % 2 ^ 64` (two's complement). -/
def wrapInt64 (u : ℤ) : ℤ :=
  let w := u % 2 ^ 64
  if w < 2 ^ 63 then w else w - 2 ^ 64

/-- Method `(*big.Int).Int64`: the low 64 bits of `|x|` as an `int64`, negated when
`x < 0`, as `math/big` computes it; its documentation leaves the result undefined when
`x` does not fit an `int64`. -/
def bigInt64 (x : ℤ) : ℤ :=
  let v := wrapInt64 (x.natAbs : ℤ)
  if x < 0 then wrapInt64 (-v) else v

/-! ## float64 -/

/-- A `float64` value: NaN, a signed infinity, or the finite value `m * 2 ^ e`. -/
inductive F64 where
  | nan : F64
  | inf (neg : Bool) : F64
  | fin (m : ℤ) (e : ℤ) : F64
  deriving DecidableEq, Repr

namespace F64

/-- The double nearest to the rational `n / d` (ties to even); subnormal below
`2 ^ (-1022)`, infinite from `2 ^ 1024` on (`d > 0`).  A finite result is in canonical
form: zero is `fin 0 0`, any other has 53 significant bits or the exponent `-1074`. -/
def round (n : ℤ) (d : ℕ) : F64 :=
  if n = 0 then .fin 0 0
  else if d = 0 then .nan
  else
    let E := binExp n.natAbs d
    let qe := max (E - 53) (-1074)
    let mant := roundQuot (n * 2 ^ (-qe).toNat) (d * 2 ^ qe.toNat)
    let mant1 := if mant.natAbs = 2 ^ 53 then mant / 2 else mant
    let qe1 := if mant.natAbs = 2 ^ 53 then qe + 1 else qe
    if 971 < qe1 then .inf (decide (n < 0)) else .fin mant1 qe1

/-- The double nearest to the dyadic `m * 2 ^ e`. -/
def ofDyadic (m e : ℤ) : F64 := round (m * 2 ^ e.toNat) (2 ^ (-e).toNat)

/-- Conversions `float64(n)` of an `int`, `int64` or `uint64`. -/
def ofInt (n : ℤ) : F64 := round n 1

/-- The value `0.0`. -/
def zero : F64 := .fin 0 0

/-- Product `x * y` of two doubles. -/
def mul : F64 → F64 → F64
  | .nan, _ => .nan
  | _, .nan => .nan
  | .inf s, .inf t => .inf (s != t)
  | .inf s, .fin m _ => if m = 0 then .nan else .inf (s != decide (m < 0))
  | .fin m _, .inf s => if m = 0 then .nan else .inf (s != decide (m < 0))
  | .fin m1 e1, .fin m2 e2 => ofDyadic (m1 * m2) (e1 + e2)

/-- Quotient `x / y` of two doubles; a zero divisor counts as `+0`. -/
def div : F64 → F64 → F64
  | .nan, _ => .nan
  | _, .nan => .nan
  | .inf _, .inf _ => .nan
  | .inf s, .fin m _ => .inf (s != decide (m < 0))
  | .fin _ _, .inf _ => zero
  | .fin m1 e1, .fin m2 e2 =>
    if m2 = 0 then (if m1 = 0 then .nan else .inf (decide (m1 < 0)))
    else round (m2.sign * m1 * 2 ^ (e1 - e2).toNat) (m2.natAbs * 2 ^ (e2 - e1).toNat)

/-- Sum `x + y` of two doubles. -/
def add : F64 → F64 → F64
  | .nan, _ => .nan
  | _, .nan => .nan
  | .inf s, .inf t => if s = t then .inf s else .nan
  | .inf s, .fin _ _ => .inf s
  | .fin _ _, .inf s => .inf s
  | .fin m1 e1, .fin m2 e2 =>
    ofDyadic (m1 * 2 ^ (e1 - min e1 e2).toNat + m2 * 2 ^ (e2 - min e1 e2).toNat) (min e1 e2)

/-- Comparison `x < y` of two doubles; false as soon as one of them is NaN. -/
def lt : F64 → F64 → Bool
  | .nan, _ => false
  | _, .nan => false
  | .inf s, .inf t => s && !t
  | .inf s, .fin _ _ => s
  | .fin _ _, .inf t => !t
  | .fin m1 e1, .fin m2 e2 =>
    decide (m1 * 2 ^ (e1 - min e1 e2).toNat < m2 * 2 ^ (e2 - min e1 e2).toNat)

/-- Comparison `x <= y` of two doubles; false as soon as one of them is NaN. -/
def le : F64 → F64 → Bool
  | .nan, _ => false
  | _, .nan => false
  | .inf s, .inf t => s || !t
  | .inf s, .fin _ _ => s
  | .fin _ _, .inf t => !t
  | .fin m1 e1, .fin m2 e2 =>
    decide (m1 * 2 ^ (e1 - min e1 e2).toNat ≤ m2 * 2 ^ (e2 - min e1 e2).toNat)

/-- Conversion `int64(x)`: the integer part of `x` when it fits an `int64`; otherwise
the result is implementation-dependent in Go and is given by `oor x`. -/
def toInt64 (oor : F64 → ℤ) : F64 → ℤ
  | .fin m e =>
    if -2 ^ 63 ≤ truncDyadic m e ∧ truncDyadic m e < 2 ^ 63 then truncDyadic m e
    else wrapInt64 (oor (.fin m e))
  | x => wrapInt64 (oor x)

/-- The rational value of a finite double (`0` for NaN and the infinities). -/
def toRat : F64 → ℚ
  | .fin m e => (m : ℚ) * (2 : ℚ) ^ e
  | _ => 0

/-- Finite doubles. -/
def isFinite : F64 → Bool
  | .fin _ _ => true
  | _ => false

end F64

/-! ## big.Float -/

/-- A `big.Float`: its precision and either the finite value `m * 2 ^ e` or an infinity. -/
inductive BigFloat where
  | fin (prec : ℕ) (m : ℤ) (e : ℤ) : BigFloat
  | inf (prec : ℕ) (neg : Bool) : BigFloat
  deriving DecidableEq, Repr

namespace BigFloat

/-- Rounding of the dyadic `m * 2 ^ e` to `p` significant bits, ties to even
(`big.ToNearestEven`, the mode of a fresh `big.Float`). -/
def roundTo (p : ℕ) (m e : ℤ) : BigFloat :=
  if bitLen m.natAbs ≤ p then .fin p m e
  else .fin p (roundQuot m (2 ^ (bitLen m.natAbs - p))) (e + ((bitLen m.natAbs - p : ℕ) : ℤ))

/-- Functions `big.NewFloat(x)` and `new(big.Float).SetFloat64(x)`: precision 53, the
exact value of `x`; `none` is the panic on NaN. -/
def NewFloat : F64 → Option BigFloat
  | .nan => none
  | .inf s => some (.inf 53 s)
  | .fin m e => some (.fin 53 m e)

/-- Method `new(big.Float).SetInt(x)`: the exact value, precision `max(x.BitLen(), 64)`. -/
def SetInt (x : ℤ) : BigFloat := .fin (max (bitLen x.natAbs) 64) x 0

/-- Method `new(big.Float).Mul(x, y)`: the product rounded to the larger of the two
precisions; `none` is the panic on a zero times an infinity. -/
def Mul : BigFloat → BigFloat → Option BigFloat
  | .fin p1 m1 e1, .fin p2 m2 e2 => some (roundTo (max p1 p2) (m1 * m2) (e1 + e2))
  | .inf p s, .fin q m _ => if m = 0 then none else some (.inf (max p q) (s != decide (m < 0)))
  | .fin q m _, .inf p s => if m = 0 then none else some (.inf (max q p) (s != decide (m < 0)))
  | .inf p s, .inf q t => some (.inf (max p q) (s != t))

/-- Method `x.Int(nil)`: the integer part, rounding toward zero; `none` is the nil
pointer returned for an infinity. -/
def Int : BigFloat → Option ℤ
  | .fin _ m e => some (truncDyadic m e)
  | .inf _ _ => none

end BigFloat

/-! ## The gas adjuster -/

deriving instance DecidableEq for Except

/-- Outcome of a Go call that returns a value and an error, or panics. -/
inductive Res (α : Type) where
  | ok (v : α) : Res α
  | err (msg : String) : Res α
  | panic : Res α
  deriving DecidableEq, Repr

/-- Constant `Priority_Ultra`. -/
def Priority_Ultra : String := "ultra"

/-- Constant `Priority_Fast`. -/
def Priority_Fast : String := "fast"

/-- Constant `Priority_Standard`. -/
def Priority_Standard : String := "standard"

/-- Constant `Priority_Slow`. -/
def Priority_Slow : String := "slow"

/-- Constant `Congestion_Low`. -/
def Congestion_Low : String := "low"

/-- Constant `Congestion_Medium`. -/
def Congestion_Medium : String := "medium"

/-- Constant `Congestion_High`. -/
def Congestion_High : String := "high"

/-- Constant `Congestion_Ultra`. -/
def Congestion_Ultra : String := "ultra"

/-- Function `getAdjustmentFactor` (gas_adjuster.go:337). -/
def getAdjustmentFactor (priority : String) : Except String F64 :=
  if priority = Priority_Ultra then .ok (F64.round 15 10)
  else if priority = Priority_Fast then .ok (F64.round 12 10)
  else if priority = Priority_Standard then .ok (F64.round 10 10)
  else if priority = Priority_Slow then .ok (F64.round 8 10)
  else .error ("Unknown priority: " ++ priority)

/-- Function `getBufferPercent` (gas_adjuster.go:352). -/
def getBufferPercent (congestionClassification : String) : Except String F64 :=
  if congestionClassification = Congestion_Low then .ok (F64.round 5 100)
  else if congestionClassification = Congestion_Medium then .ok (F64.round 10 100)
  else if congestionClassification = Congestion_High then .ok (F64.round 15 100)
  else if congestionClassification = Congestion_Ultra then .ok (F64.round 20 100)
  else .error ("Unknown congestion classification: " ++ congestionClassification)

/-- Function `classifyCongestion` (gas_adjuster.go:367). -/
def classifyCongestion (congestionMetric : F64) : String :=
  if congestionMetric.lt (F64.round 33 100) then Congestion_Low
  else if congestionMetric.le (F64.round 66 100) then Congestion_Medium
  else if congestionMetric.le (F64.round 75 100) then Congestion_High
  else Congestion_Ultra

/-- Percentiles of one fee component, as read by `HistoricalFeeData`; the declaring
file is not part of the sources, the fields are the ones the code selects. -/
structure GasPercentiles where
  Max : F64
  Perc99 : F64
  Perc50 : F64
  Perc25 : F64
  deriving DecidableEq, Repr

/-- Result of `estimator.Stats`: the percentiles of the base fee (`GasPrice`) and of
the tip (`TipCap`). -/
structure GasSuggestions where
  GasPrice : GasPercentiles
  TipCap : GasPercentiles
  deriving DecidableEq, Repr

/-- The part of `Client` the gas adjuster reads and writes.  The two caps are the
values `int64(m.Cfg.Network.GasEsimationMaxGasTipCap)` and
`int64(m.Cfg.Network.GasEsimationMaxGasPrice)`; an entry `none` of `Errors` is a nil
error. -/
structure Client where
  GasEstimationTxPriority : String
  GasEsimationMaxGasTipCap : ℤ
  GasEsimationMaxGasPrice : ℤ
  Errors : List (Option String)
  deriving DecidableEq, Repr

/-- What the surroundings answer during one fee suggestion: the node for
`SuggestGasTipCap` and `SuggestGasPrice`, the estimator for `Stats`, the call
`m.CalculateNetworkCongestionMetric(blocks, CongestionStrategy_NewestFirst)`, and the
platform for an `int64` conversion of a double that does not fit. -/
structure Answers where
  SuggestGasTipCap : Except String ℤ
  SuggestGasPrice : Except String ℤ
  Stats : Except String GasSuggestions
  CongestionMetric : Except String F64
  int64OutOfRange : F64 → ℤ

/-- Method `Client.HistoricalFeeData` (gas_adjuster.go:380): base fee, tip, error, and
the client after the call. -/
def HistoricalFeeData (m : Client) (stats : Except String GasSuggestions) (priority : String) :
    (F64 × F64 × Option String) × Client :=
  match stats with
  | .error e => ((F64.zero, F64.zero, some e), m)
  | .ok st =>
    if priority = Priority_Ultra then ((st.GasPrice.Max, st.TipCap.Max, none), m)
    else if priority = Priority_Fast then ((st.GasPrice.Perc99, st.TipCap.Perc99, none), m)
    else if priority = Priority_Standard then ((st.GasPrice.Perc50, st.TipCap.Perc50, none), m)
    else if priority = Priority_Slow then ((st.GasPrice.Perc25, st.TipCap.Perc25, none), m)
    else ((F64.zero, F64.zero, none), { m with Errors := m.Errors ++ [none] })

/-- Lines 218-219 and 296-297: the integer part of the `big.Float` product of
`congestionMetric*adjustmentFactor` and `float64(suggested.Int64())`; `none` is a panic
(NaN operand, or the nil result of `Int` on an infinity reaching `Add`). -/
def congestionAdjustmentInt (congestionMetric adjustmentFactor : F64) (suggested : ℤ) :
    Option ℤ :=
  match BigFloat.NewFloat (congestionMetric.mul adjustmentFactor),
      BigFloat.NewFloat (F64.ofInt (bigInt64 suggested)) with
  | some x, some y =>
    match BigFloat.Mul x y with
    | some z => z.Int
    | none => none
  | _, _ => none

/-- Lines 241-242 and 316-317: the integer part of the `big.Float` product of the
amount and the buffer percentage; `none` is a panic. -/
def bufferInt (amount : ℤ) (bufferPercent : F64) : Option ℤ :=
  match BigFloat.NewFloat bufferPercent with
  | some y =>
    match BigFloat.Mul (BigFloat.SetInt amount) y with
    | some z => z.Int
    | none => none
  | none => none

/-- Method `Client.GetSuggestedEIP1559Fees` (gas_adjuster.go:168): the pair
`(maxFeeCap, adjustedTipCap)` or the failure, and the client after the call. -/
def GetSuggestedEIP1559Fees (m : Client) (a : Answers) : Res (ℤ × ℤ) × Client :=
  match a.SuggestGasTipCap with
  | .error e => (.err e, m)
  | .ok currentGasTip =>
    match HistoricalFeeData m a.Stats m.GasEstimationTxPriority with
    | ((_, _, some e), m1) => (.err e, m1)
    | ((baseFee64, historicalSuggestedTip64, none), m1) =>
      let historicalTip := historicalSuggestedTip64.toInt64 a.int64OutOfRange
      let suggestedGasTip := if historicalTip > currentGasTip then historicalTip else currentGasTip
      match getAdjustmentFactor m.GasEstimationTxPriority with
      | .error e => (.err e, m1)
      | .ok adjustmentFactor =>
        match a.CongestionMetric with
        | .error e => (.err e, m1)
        | .ok congestionMetric =>
          let congestionClassificaion := classifyCongestion congestionMetric
          match congestionAdjustmentInt congestionMetric adjustmentFactor suggestedGasTip with
          | none => (.panic, m1)
          | some adjustment =>
            let maxAsBig := m.GasEsimationMaxGasTipCap
            let adjustedTipCap :=
              if suggestedGasTip + adjustment > maxAsBig then maxAsBig
              else suggestedGasTip + adjustment
            match getBufferPercent congestionClassificaion with
            | .error e => (.err e, m1)
            | .ok bufferPercent =>
              let baseMaxFeeCap := baseFee64.toInt64 a.int64OutOfRange + adjustedTipCap
              match bufferInt baseMaxFeeCap bufferPercent with
              | none => (.panic, m1)
              | some buffer => (.ok (baseMaxFeeCap + buffer, adjustedTipCap), m1)

/-- Method `Client.GetSuggestedLegacyFees` (gas_adjuster.go:268): the adjusted gas
price or the failure. -/
def GetSuggestedLegacyFees (m : Client) (a : Answers) : Res ℤ :=
  match a.SuggestGasPrice with
  | .error e => .err e
  | .ok suggestedGasPrice =>
    match getAdjustmentFactor m.GasEstimationTxPriority with
    | .error e => .err e
    | .ok adjustmentFactor =>
      match a.CongestionMetric with
      | .error e => .err e
      | .ok congestionMetric =>
        let congestionClassificaion := classifyCongestion congestionMetric
        match congestionAdjustmentInt congestionMetric adjustmentFactor suggestedGasPrice with
        | none => .panic
        | some adjustment =>
          let maxAsBig := m.GasEsimationMaxGasPrice
          let adjustedGasPrice :=
            if suggestedGasPrice + adjustment > maxAsBig then maxAsBig
            else suggestedGasPrice + adjustment
          match getBufferPercent congestionClassificaion with
          | .error e => .err e
          | .ok bufferPercent =>
            match bufferInt adjustedGasPrice bufferPercent with
            | none => .panic
            | some buffer => .ok (adjustedGasPrice + buffer)

/-! ## Congestion metric of a list of blocks -/

/-- The fields of a `types.Block` that the congestion metrics read: `NumberU64()`,
`GasUsed()`, `GasLimit()` and `BaseFee()`. -/
structure Block where
  Number : ℕ
  GasUsed : ℕ
  GasLimit : ℕ
  BaseFee : ℤ
  deriving DecidableEq, Repr

/-- The loop of `calculateTrend` (gas_adjuster.go:417): `total` plus `1.0` for every
block whose base fee exceeds the base fee of the block before it in the list. -/
def countIncreases : List Block → F64 → F64
  | [], total => total
  | prev :: tail, total =>
    match tail with
    | [] => total
    | next :: _ =>
      countIncreases tail (if next.BaseFee > prev.BaseFee then total.add (F64.ofInt 1) else total)

/-- Function `calculateTrend` (gas_adjuster.go:415). -/
def calculateTrend (blocks : List Block) : F64 :=
  (countIncreases blocks F64.zero).div (F64.ofInt ((blocks.length : ℤ) - 1))

/-- Function `calculateGasUsedRatio` (gas_adjuster.go:428). -/
def calculateGasUsedRatio (blocks : List Block) : F64 :=
  (blocks.foldl
    (fun totalRatio block =>
      totalRatio.add ((F64.ofInt block.GasUsed).div (F64.ofInt block.GasLimit)))
    F64.zero).div (F64.ofInt blocks.length)

/-- Function `calculateSimpleNetworkCongestionMetric` (gas_adjuster.go:129). -/
def calculateSimpleNetworkCongestionMetric (blocks : List Block) : F64 :=
  ((calculateTrend blocks).add (calculateGasUsedRatio blocks)).div (F64.ofInt 2)

/-! ## Newest-first metric and the block window

`math.Log10` belongs to the Go library and its values depend on the platform; it is an
argument `log10` of the functions that call it.  The fetches of the window run
concurrently in the source; here the answers of the node are a function of the block
number (a repeated fetch of a number is answered by the block cache) and the order in
which the fetched blocks reach the slice is the argument `arrival`, a reordering of the
fetched blocks.  The model appends every fetched block:
the source reads the slice without waiting for its collecting goroutine, which is not
modelled. -/

/-- Comparator passed to `slices.SortFunc` (gas_adjuster.go:141):
`int(i.NumberU64() - j.NumberU64())`, a `uint64` difference read as an `int`. -/
def cmpNumber (i j : Block) : ℤ := wrapInt64 ((i.Number : ℤ) - (j.Number : ℤ))

/-- Insertion of a block into a list ordered by `cmpNumber`. -/
def insertBlock (b : Block) : List Block → List Block
  | [] => [b]
  | x :: xs => if cmpNumber b x < 0 then b :: x :: xs else x :: insertBlock b xs

/-- Call `slices.SortFunc(blocks, cmp)` (gas_adjuster.go:141), as an insertion sort;
the library leaves the order of blocks that compare equal unspecified. -/
def sortBlocks : List Block → List Block
  | [] => []
  | b :: bs => insertBlock b (sortBlocks bs)

/-- Comparison `x == 0` of a double. -/
def F64.isZero : F64 → Bool
  | .fin m _ => decide (m = 0)
  | _ => false

/-- The loop of `calculateNewestFirstNetworkCongestionMetric` (gas_adjuster.go:150) over
the blocks from index `i` on, `n` being `len(blocks)`: the pair
`(weightedSum, totalWeight)`. -/
def newestFirstLoop (log10 : F64 → F64) (n : ℕ) : List Block → ℕ → F64 × F64 → F64 × F64
  | [], _, sums => sums
  | block :: rest, i, sums =>
    let congestion := (F64.ofInt block.GasUsed).div (F64.ofInt block.GasLimit)
    let distance := F64.ofInt ((n : ℤ) - 1 - (i : ℤ))
    let weight := (F64.ofInt 1).div (log10 (distance.add (F64.ofInt 10)))
    newestFirstLoop log10 n rest (i + 1)
      (sums.1.add (congestion.mul weight), sums.2.add weight)

/-- Function `calculateNewestFirstNetworkCongestionMetric` (gas_adjuster.go:139). -/
def calculateNewestFirstNetworkCongestionMetric (log10 : F64 → F64) (blocks : List Block) :
    F64 :=
  let sums := newestFirstLoop log10 blocks.length (sortBlocks blocks) 0 (F64.zero, F64.zero)
  if sums.2.isZero then F64.zero else sums.1.div sums.2

/-- Constant `CongestionStrategy_Simple`. -/
def CongestionStrategy_Simple : String := "simple"

/-- Constant `CongestionStrategy_NewestFirst`. -/
def CongestionStrategy_NewestFirst : String := "newest_first"

/-- What the surroundings answer during one `CalculateNetworkCongestionMetric` call:
the node for `BlockNumber`, the cache or the node for the block of a number (the
argument is the `int64` value handed to `big.NewInt`), the order in which fetched blocks
reach the slice, `math.Log10`, and the platform for an `int` conversion of a double that
does not fit. -/
structure WindowAnswers where
  BlockNumber : Except String ℕ
  getBlockData : ℤ → Except String Block
  arrival : List Block → List Block
  log10 : F64 → F64
  int64OutOfRange : F64 → ℤ

/-- The loop header and body of gas_adjuster.go:90-105 from `i` on: the numbers whose
fetch is started, in loop order.  `lower` is the `uint64` value
`lastBlockNumber-blocksNumber`; `fuel` bounds the recursion. -/
def fetchLoop (lower : ℕ) : ℕ → ℕ → List ℕ
  | 0, _ => []
  | fuel + 1, i =>
    if i > lower then
      if i = 1 then [] else i :: fetchLoop lower fuel ((i + 2 ^ 64 - 1) % 2 ^ 64)
    else []

/-- Numbers whose fetch the loop of gas_adjuster.go:90 starts, in loop order. -/
def windowNumbers (lastBlockNumber blocksNumber : ℕ) : List ℕ :=
  fetchLoop ((lastBlockNumber + 2 ^ 64 - blocksNumber % 2 ^ 64) % 2 ^ 64)
    lastBlockNumber lastBlockNumber

/-- The blocks whose fetch succeeded, in loop order (a failed fetch is only logged). -/
def fetchedBlocks (getBlockData : ℤ → Except String Block) (numbers : List ℕ) : List Block :=
  numbers.filterMap (fun i =>
    match getBlockData (wrapInt64 i) with
    | .ok block => some block
    | .error _ => none)

/-- The slice `blocks` at gas_adjuster.go:113: the latest block, then the fetched
blocks in their order of arrival. -/
def collectedBlocks (a : WindowAnswers) (lastBlock : Block) (lastBlockNumber blocksNumber : ℕ) :
    List Block :=
  lastBlock :: a.arrival (fetchedBlocks a.getBlockData (windowNumbers lastBlockNumber blocksNumber))

/-- Value `minBlockCount` of gas_adjuster.go:113: `int(float64(blocksNumber) * 0.8)`. -/
def minBlockCount (oor : F64 → ℤ) (blocksNumber : ℕ) : ℤ :=
  ((F64.ofInt blocksNumber).mul (F64.round 8 10)).toInt64 oor

/-- The error of gas_adjuster.go:115. -/
def insufficientBlocksMessage (minBlockCount : ℤ) (got : ℕ) : String :=
  "Failed to fetch enough blocks for congestion calculation. Wanted at least "
    ++ toString minBlockCount ++ ", got " ++ toString got

/-- Method `Client.CalculateNetworkCongestionMetric` (gas_adjuster.go:34). -/
def CalculateNetworkCongestionMetric (a : WindowAnswers) (blocksNumber : ℕ) (strategy : String) :
    Except String F64 :=
  match a.BlockNumber with
  | .error e => .error e
  | .ok lastBlockNumber =>
    match a.getBlockData (wrapInt64 lastBlockNumber) with
    | .error e => .error e
    | .ok lastBlock =>
      let blocks := collectedBlocks a lastBlock lastBlockNumber blocksNumber
      if (blocks.length : ℤ) < minBlockCount a.int64OutOfRange blocksNumber then
        .error (insufficientBlocksMessage (minBlockCount a.int64OutOfRange blocksNumber)
          blocks.length)
      else if strategy = CongestionStrategy_Simple then
        .ok (calculateSimpleNetworkCongestionMetric blocks)
      else if strategy = CongestionStrategy_NewestFirst then
        .ok (calculateNewestFirstNetworkCongestionMetric a.log10 blocks)
      else .error ("Unknown congestion strategy: " ++ strategy)

/-! ## The client: gas estimations, transaction options, transfers, decoding

Embedding of the parts of `client.go` and `config.go` that the claims are about.  The
calls into code that is not among the sources (the node, the nonce manager, the
signer, `decodeTransaction`, the tracer) are explicit arguments holding their results. -/

/-- A panic value: the error passed to `panic(fmt.Errorf(...))`, a runtime error of the
Go runtime, or the panic of a fee suggestion (`Res.panic`), whose value is not
tracked. -/
inductive PanicValue where
  | errorf (msg : String) : PanicValue
  | runtime (msg : String) : PanicValue
  | estimation : PanicValue
  deriving DecidableEq, Repr

/-- Outcome of a call that returns or panics. -/
inductive Outcome (α : Type) where
  | ok (v : α) : Outcome α
  | panic (p : PanicValue) : Outcome α
  deriving DecidableEq, Repr

/-- The fields of `Network` (config.go:81) that the modelled code reads. -/
structure Network where
  Name : String
  EIP1559DynamicFees : Bool
  GasPrice : ℤ
  GasFeeCap : ℤ
  GasTipCap : ℤ
  GasLimit : ℕ
  TransferGasFee : ℤ
  GasPriceEstimationEnabled : Bool
  GasPriceEstimationBlocks : ℕ
  GasPriceEstimationTxPriority : String
  deriving DecidableEq, Repr

/-- The fields of `Config` (config.go:48) that the modelled code reads. -/
structure Config where
  Network : Network
  TracingLevel : String
  TraceToJson : Bool
  PendingNonceProtectionEnabled : Bool
  deriving DecidableEq, Repr

/-- The state of a `Client` (client.go:53) as far as `client.go` is modelled: the
configuration, the addresses and private keys (by name), the chain id and the
accumulated errors, `none` being a nil error. -/
structure ClientState where
  Cfg : Config
  Addresses : List String
  PrivateKeys : List String
  ChainID : ℤ
  Errors : List (Option String)
  deriving DecidableEq, Repr

/-- Function `strings.Contains`. -/
def stringsContains (s substr : String) : Bool :=
  (List.range (s.data.length + 1)).any (fun k => substr.data.isPrefixOf (s.data.drop k))

/-- Method `Config.IsSimulatedNetwork` (config.go:185); `toLower` is `strings.ToLower`. -/
def IsSimulatedNetwork (toLower : String → String) (c : Config) : Bool :=
  decide (toLower c.Network.Name = toLower "Geth") ||
    decide (toLower c.Network.Name = toLower "Anvil")

/-- Type `GasEstimations` (client.go:680); `none` is a nil `*big.Int`. -/
structure GasEstimations where
  GasPrice : Option ℤ
  GasTipCap : Option ℤ
  GasFeeCap : Option ℤ
  deriving DecidableEq, Repr

/-- Type `GasEstimationRequest` (client.go:749). -/
structure GasEstimationRequest where
  GasEstimationEnabled : Bool
  FallbackGasPrice : ℤ
  FallbackGasFeeCap : ℤ
  FallbackGasTipCap : ℤ
  Priority : String
  deriving DecidableEq, Repr

/-- Result of one fee suggestion called from `CalculateGasEstimations`: its outcome and
the entries it appended to `m.Errors` while running. -/
structure FeeCall (α : Type) where
  result : Res α
  appended : List (Option String)

/-- The closure `calulcateLegacyFees` (client.go:773) applied to the result of
`m.GetSuggestedLegacyFees(ctx, request.Priority)`. -/
def calulcateLegacyFees (m : ClientState) (estimations : GasEstimations)
    (request : GasEstimationRequest) (legacy : FeeCall ℤ) :
    Outcome (GasEstimations × ClientState) :=
  match legacy.result with
  | .panic => .panic .estimation
  | .err e =>
    .ok ({ estimations with GasPrice := some request.FallbackGasPrice },
      { m with Errors := m.Errors ++ legacy.appended ++ [some e] })
  | .ok gasPrice =>
    .ok ({ estimations with GasPrice := some gasPrice },
      { m with Errors := m.Errors ++ legacy.appended })

/-- Whether the error text names an unsupported EIP-1559 method (client.go:792). -/
def isUnsupportedEIP1559 (e : String) : Bool :=
  stringsContains e "method eth_maxPriorityFeePerGas" ||
    stringsContains e "method eth_maxFeePerGas" ||
    stringsContains e "method eth_feeHistory" ||
    stringsContains e "expected input list for types.txdata"

/-- Method `Client.CalculateGasEstimations` (client.go:759): the estimations and the
client after the call.  `eip1559` and `legacy` hold the results of
`m.GetSuggestedEIP1559Fees(ctx, request.Priority)`, a pair `(maxFee, priorityFee)`, and of
`m.GetSuggestedLegacyFees(ctx, request.Priority)`, should the call reach them. -/
def CalculateGasEstimations (toLower : String → String) (m : ClientState)
    (eip1559 : FeeCall (ℤ × ℤ)) (legacy : FeeCall ℤ) (request : GasEstimationRequest) :
    Outcome (GasEstimations × ClientState) :=
  if IsSimulatedNetwork toLower m.Cfg || !request.GasEstimationEnabled then
    .ok ({ GasPrice := some request.FallbackGasPrice,
           GasTipCap := some request.FallbackGasTipCap,
           GasFeeCap := some request.FallbackGasFeeCap }, m)
  else if m.Cfg.Network.EIP1559DynamicFees then
    match eip1559.result with
    | .panic => .panic .estimation
    | .err e =>
      let m1 : ClientState := { m with Errors := m.Errors ++ eip1559.appended ++ [some e] }
      let estimations : GasEstimations :=
        { GasPrice := none, GasTipCap := some request.FallbackGasTipCap,
          GasFeeCap := some request.FallbackGasFeeCap }
      if isUnsupportedEIP1559 e then
        calulcateLegacyFees
          { m1 with Cfg := { m1.Cfg with
              Network := { m1.Cfg.Network with EIP1559DynamicFees := false } } }
          estimations request legacy
      else .ok (estimations, m1)
    | .ok fees =>
      .ok ({ GasPrice := none, GasTipCap := some fees.2, GasFeeCap := some fees.1 },
        { m with Errors := m.Errors ++ eip1559.appended })
  else
    calulcateLegacyFees m { GasPrice := none, GasTipCap := none, GasFeeCap := none }
      request legacy

/-- The fields of `bind.TransactOpts` that the modelled code sets; `none` is nil. -/
structure TransactOpts where
  From : String
  Nonce : Option ℤ
  Value : Option ℤ
  GasPrice : Option ℤ
  GasFeeCap : Option ℤ
  GasTipCap : Option ℤ
  GasLimit : ℕ
  NoSend : Bool
  deriving DecidableEq, Repr

/-- The value `&bind.TransactOpts{}`. -/
def TransactOpts.empty : TransactOpts :=
  { From := "", Nonce := none, Value := none, GasPrice := none, GasFeeCap := none,
    GasTipCap := none, GasLimit := 0, NoSend := false }

/-- Type `TransactOpt` (client.go:583): a function that updates the options. -/
abbrev TransactOpt := TransactOpts → TransactOpts

/-- Function `WithValue` (client.go:586). -/
def WithValue (value : Option ℤ) : TransactOpt := fun o => { o with Value := value }

/-- Function `WithGasPrice` (client.go:593). -/
def WithGasPrice (gasPrice : Option ℤ) : TransactOpt := fun o => { o with GasPrice := gasPrice }

/-- Function `WithGasLimit` (client.go:600). -/
def WithGasLimit (gasLimit : ℕ) : TransactOpt := fun o => { o with GasLimit := gasLimit }

/-- Function `WithNoSend` (client.go:607). -/
def WithNoSend (noSend : Bool) : TransactOpt := fun o => { o with NoSend := noSend }

/-- Function `WithNonce` (client.go:614). -/
def WithNonce (nonce : Option ℤ) : TransactOpt := fun o => { o with Nonce := nonce }

/-- Function `WithGasFeeCap` (client.go:621). -/
def WithGasFeeCap (gasFeeCap : Option ℤ) : TransactOpt :=
  fun o => { o with GasFeeCap := gasFeeCap }

/-- Function `WithGasTipCap` (client.go:628). -/
def WithGasTipCap (gasTipCap : Option ℤ) : TransactOpt :=
  fun o => { o with GasTipCap := gasTipCap }

/-- Method `Client.configureTransactionOpts` (client.go:812). -/
def configureTransactionOpts (m : ClientState) (opts : TransactOpts) (nonce : ℕ)
    (estimations : GasEstimations) (o : List TransactOpt) : TransactOpts :=
  let opts1 : TransactOpts :=
    { opts with Nonce := some (wrapInt64 nonce), GasPrice := estimations.GasPrice,
                GasLimit := m.Cfg.Network.GasLimit }
  let opts2 : TransactOpts :=
    if m.Cfg.Network.EIP1559DynamicFees then
      { opts1 with GasPrice := none, GasTipCap := estimations.GasTipCap,
                   GasFeeCap := estimations.GasFeeCap }
    else opts1
  o.foldl (fun acc f => f acc) opts2

/-- Type `NonceStatus` (client.go:686). -/
structure NonceStatus where
  LastNonce : ℕ
  PendingNonce : ℕ
  deriving DecidableEq, Repr

/-- An index expression `xs[i]` of Go: the element, or the runtime panic. -/
def indexSlice (xs : List String) (i : ℤ) : Outcome String :=
  if i < 0 then .panic (.runtime ("index out of range [" ++ toString i ++ "]"))
  else
    match xs.get? i.toNat with
    | some x => .ok x
    | none =>
      .panic (.runtime ("index out of range [" ++ toString i ++ "] with length "
        ++ toString xs.length))

/-- What the surroundings answer while transaction options are proposed: the node for
`PendingNonceAt` and `NonceAt` of an address, the two fee suggestions, `strings.ToLower`,
and `bind.NewKeyedTransactorWithChainID` for a private key. -/
structure OptsAnswers where
  PendingNonceAt : String → Except String ℕ
  NonceAt : String → Except String ℕ
  eip1559 : FeeCall (ℤ × ℤ)
  legacy : FeeCall ℤ
  toLower : String → String
  NewKeyedTransactor : String → Except String TransactOpts

/-- Method `Client.getNonceStatus` (client.go:691). -/
def getNonceStatus (m : ClientState) (a : OptsAnswers) (keyNum : ℤ) :
    Outcome (Except String NonceStatus) :=
  match indexSlice m.Addresses keyNum with
  | .panic p => .panic p
  | .ok address =>
    match a.PendingNonceAt address with
    | .error e => .ok (.error e)
    | .ok pendingNonce =>
      match a.NonceAt address with
      | .error e => .ok (.error e)
      | .ok lastNonce => .ok (.ok { LastNonce := lastNonce, PendingNonce := pendingNonce })

/-- The error passed to `panic` at client.go:721. -/
def stuckPendingMessage (keyNum : ℤ) (count : ℕ) : String :=
  "pending nonce for key " ++ toString keyNum ++ " is higher than last nonce, there are "
    ++ toString count ++ " pending transactions. Speed them up before continuing, "
    ++ "otherwise future transactions most probably will get stuck"

/-- Method `Client.getProposedTransactionOptions` (client.go:711): the options, the
nonce status and the estimations, and the client after the call. -/
def getProposedTransactionOptions (m : ClientState) (a : OptsAnswers) (keyNum : ℤ) :
    Outcome ((TransactOpts × NonceStatus × GasEstimations) × ClientState) :=
  match getNonceStatus m a keyNum with
  | .panic p => .panic p
  | .ok (.error e) =>
    .ok ((TransactOpts.empty, ⟨0, 0⟩, ⟨none, none, none⟩),
      { m with Errors := m.Errors ++ [some e] })
  | .ok (.ok nonceStatus) =>
    if m.Cfg.PendingNonceProtectionEnabled ∧ nonceStatus.PendingNonce > nonceStatus.LastNonce then
      .panic (.errorf (stuckPendingMessage keyNum
        (nonceStatus.PendingNonce - nonceStatus.LastNonce)))
    else
      match CalculateGasEstimations a.toLower m a.eip1559 a.legacy
          { GasEstimationEnabled := m.Cfg.Network.GasPriceEstimationEnabled,
            FallbackGasPrice := m.Cfg.Network.GasPrice,
            FallbackGasFeeCap := m.Cfg.Network.GasFeeCap,
            FallbackGasTipCap := m.Cfg.Network.GasTipCap,
            Priority := m.Cfg.Network.GasPriceEstimationTxPriority } with
      | .panic p => .panic p
      | .ok (estimations, m1) =>
        match indexSlice m1.PrivateKeys keyNum with
        | .panic p => .panic p
        | .ok key =>
          match a.NewKeyedTransactor key with
          | .error e =>
            .ok ((TransactOpts.empty, ⟨0, 0⟩, ⟨none, none, none⟩),
              { m1 with Errors := m1.Errors ++ [some e] })
          | .ok opts => .ok ((opts, nonceStatus, estimations), m1)

/-- The error passed to `panic` at client.go:654. -/
def keyOutOfRangeMessage (addresses : ℕ) (keyNum : ℤ) : String :=
  "keyNum is out of range. Expected 0-" ++ toString ((addresses : ℤ) - 1) ++ ". Got: "
    ++ toString keyNum

/-- Method `Client.NewTXKeyOpts` (client.go:652). -/
def NewTXKeyOpts (m : ClientState) (a : OptsAnswers) (keyNum : ℤ) (o : List TransactOpt) :
    Outcome (TransactOpts × ClientState) :=
  if keyNum > m.Addresses.length ∨ keyNum < 0 then
    .panic (.errorf (keyOutOfRangeMessage m.Addresses.length keyNum))
  else
    match indexSlice m.Addresses keyNum with
    | .panic p => .panic p
    | .ok _ =>
      match getProposedTransactionOptions m a keyNum with
      | .panic p => .panic p
      | .ok ((opts, nonceStatus, estimations), m1) =>
        .ok (configureTransactionOpts m1 opts nonceStatus.PendingNonce estimations o, m1)

/-- Constant `ErrNoKeyLoaded` (client.go:34). -/
def ErrNoKeyLoaded : String := "failed to load private key"

/-- Function `errors.Wrap(err, message)` of `github.com/pkg/errors`, by its text. -/
def errorsWrap (err message : String) : String := message ++ ": " ++ err

/-- What the surroundings answer during one `TransferETHFromKey` call: the node for
`NetworkID` and `SendTransaction`, the nonce manager for `NextNonce` of an address, the
signer for a private key, and `WaitMined`. -/
structure TransferAnswers where
  NetworkID : Except String ℤ
  NextNonce : String → ℕ
  SignNewTx : String → Option String
  SendTransaction : Option String
  WaitMined : Option String

/-- Method `Client.TransferETHFromKey` (client.go:432): the returned error, `none`
being nil. -/
def TransferETHFromKey (m : ClientState) (a : TransferAnswers) (fromKeyNum : ℤ) :
    Outcome (Option String) :=
  if fromKeyNum > m.PrivateKeys.length ∨ fromKeyNum > m.Addresses.length then
    .ok (some (errorsWrap ErrNoKeyLoaded ("requested key: " ++ toString fromKeyNum)))
  else
    match a.NetworkID with
    | .error e => .ok (some (errorsWrap e "failed to get network ID"))
    | .ok _ =>
      match indexSlice m.Addresses fromKeyNum with
      | .panic p => .panic p
      | .ok _ =>
        match indexSlice m.PrivateKeys fromKeyNum with
        | .panic p => .panic p
        | .ok key =>
          match a.SignNewTx key with
          | some e => .ok (some (errorsWrap e "failed to sign tx"))
          | none =>
            match a.SendTransaction with
            | some e => .ok (some (errorsWrap e "failed to send transaction"))
            | none => .ok a.WaitMined

/-- Function `errors.Join` of the Go library: nil entries are dropped, the result is nil
when nothing is left, otherwise the texts joined by a newline. -/
def errorsJoin (errs : List (Option String)) : Option String :=
  if errs.filterMap id = [] then none
  else some (String.intercalate "\n" (errs.filterMap id))

/-- A transaction, by the hexadecimal text of its hash. -/
structure Transaction where
  Hash : String
  deriving DecidableEq, Repr

/-- The fields of `DecodedTransaction` set by `Decode`, and whatever `decodeTransaction`
filled in. -/
structure DecodedTransaction where
  Transaction : Transaction
  Hash : String
  Decoded : Option String
  deriving DecidableEq, Repr

/-- Variable `TracingLevel_None` (client.go:47). -/
def TracingLevel_None : String := "NONE"

/-- Variable `TracingLevel_Reverted` (client.go:48). -/
def TracingLevel_Reverted : String := "REVERTED"

/-- Variable `TracingLevel_All` (client.go:49). -/
def TracingLevel_All : String := "ALL"

/-- The calls `Decode` makes into its surroundings. -/
inductive DecodeCall where
  | WaitMined : DecodeCall
  | callAndGetRevertReason : DecodeCall
  | decodeTransaction : DecodeCall
  | TraceGethTX : DecodeCall
  deriving DecidableEq, Repr

/-- What the surroundings answer during one `Decode` call: `WaitMined` (the status of
the receipt, or an error), `callAndGetRevertReason`, `decodeTransaction`, and
`Tracer.TraceGethTX` of a hash. -/
structure DecodeAnswers where
  WaitMined : Except String ℕ
  callAndGetRevertReason : Option String
  decodeTransaction : Option DecodedTransaction × Option String
  TraceGethTX : String → Option String

/-- The test `errors.Is(err, errors.New(ErrNoABIMethod))` of client.go:370.  Its target is
an error value made by `errors.New` for the test itself.  `errors.Is` answers true when
the error, or an error it wraps, is that very value; an error is a text here, as
`errors.New`, `errors.Wrap` and `fmt.Errorf` build it, and no such error is the new value
or wraps it, whatever its text: the test is false. -/
def errorsIsNew (_err : Option String) : Bool := false

/-- What one `Decode` call yields: the decoded transaction and the error it returns,
`none` being nil, the client after the call, and the calls it made, in order. -/
structure DecodeResult where
  decoded : Option DecodedTransaction
  err : Option String
  client : ClientState
  calls : List DecodeCall
  deriving DecidableEq, Repr

/-- Method `Client.Decode` (client.go:336).  Writing JSON files is left out. -/
def Decode (m : ClientState) (a : DecodeAnswers) (tx : Option Transaction)
    (txErr : Option String) : Outcome DecodeResult :=
  if m.Errors.length > 0 then .ok ⟨none, errorsJoin m.Errors, m, []⟩
  else
    match txErr with
    | some e => .ok ⟨none, some e, m, []⟩
    | none =>
      match tx with
      | none => .ok ⟨none, none, m, []⟩
      | some tx =>
        match a.WaitMined with
        | .error e => .ok ⟨none, some e, m, [.WaitMined]⟩
        | .ok status =>
          let revertErr : Option String :=
            if status = 0 then a.callAndGetRevertReason else none
          let calls : List DecodeCall :=
            if status = 0 then [.WaitMined, .callAndGetRevertReason] else [.WaitMined]
          let decoded : DecodedTransaction :=
            { Transaction := tx, Hash := tx.Hash, Decoded := none }
          if m.Cfg.TracingLevel = TracingLevel_None then .ok ⟨some decoded, revertErr, m, calls⟩
          else if m.Cfg.TracingLevel = TracingLevel_All ∨
              (m.Cfg.TracingLevel = TracingLevel_Reverted ∧ revertErr ≠ none) then
            if a.decodeTransaction.2 ≠ none ∧ errorsIsNew a.decodeTransaction.2 = true then
              .ok ⟨a.decodeTransaction.1, revertErr, m, calls ++ [.decodeTransaction]⟩
            else
              match a.decodeTransaction.1 with
              | none =>
                .panic (.runtime "invalid memory address or nil pointer dereference")
              | some decoded1 =>
                .ok ⟨some decoded1, revertErr, m,
                  calls ++ [.decodeTransaction, .TraceGethTX]⟩
          else .ok ⟨some decoded, revertErr, m, calls⟩

/-! ## Validation of the configuration

`client.go` names the priority `Priority_Degen`, which no source file declares
(`gas_adjuster.go` declares `Priority_Ultra`, `Priority_Fast`, `Priority_Standard` and
`Priority_Slow`); it is an argument of `validateConfig`, as are `strings.ToLower` and
`strings.ToUpper`. -/

/-- The error of client.go:141. -/
def ErrZeroEstimationBlocks : String :=
  "when automating gas estimation is enabled blocks must be greater than 0. "
    ++ "fix it or disable gas estimation"

/-- The error of client.go:155. -/
def ErrBadPriority : String :=
  "when automating gas estimation is enabled priority must be fast, standard or slow. "
    ++ "fix it or disable gas estimation"

/-- The error of client.go:176. -/
def ErrBadTracingLevel : String := "tracing level must be one of: NONE, REVERTED, ALL"

/-- Lines 166-179 of `validateConfig`: the tracing level. -/
def validateTracingLevel (toUpper : String → String) (cfg : Config) : Option String × Config :=
  let level := toUpper (if cfg.TracingLevel = "" then TracingLevel_Reverted else cfg.TracingLevel)
  let cfg1 : Config := { cfg with TracingLevel := level }
  if level = TracingLevel_None ∨ level = TracingLevel_Reverted ∨ level = TracingLevel_All then
    (none, cfg1)
  else (some ErrBadTracingLevel, cfg1)

/-- Function `validateConfig` (client.go:138): the error it returns, `none` being nil,
and the configuration as it has rewritten it. -/
def validateConfig (Priority_Degen : String) (toLower toUpper : String → String)
    (cfg : Config) : Option String × Config :=
  if cfg.Network.GasPriceEstimationEnabled then
    if cfg.Network.GasPriceEstimationBlocks = 0 then (some ErrZeroEstimationBlocks, cfg)
    else
      let lowered := toLower cfg.Network.GasPriceEstimationTxPriority
      let priority := if lowered = "" then Priority_Standard else lowered
      let cfg1 : Config :=
        { cfg with Network := { cfg.Network with GasPriceEstimationTxPriority := priority } }
      if priority = Priority_Degen ∨ priority = Priority_Fast ∨ priority = Priority_Standard ∨
          priority = Priority_Slow then
        validateTracingLevel toUpper cfg1
      else (some ErrBadPriority, cfg1)
  else validateTracingLevel toUpper cfg

/-! ## Deployment

`retry.Do` belongs to the library `github.com/avast/retry-go`; it is modelled by its
documented behaviour for the options given at client.go:855-866.  The delay between
two attempts and the logging are left out.  The contract map and the contract store are
not among the sources: the calls into them are recorded as effects and the answer of
`GetABI` is an argument.  Saving the contract map to a file is left out. -/

/-- The predicate given to `retry.RetryIf` (client.go:862); `toLower` is
`strings.ToLower`. -/
def retryIfNoCode (toLower : String → String) (err : String) : Bool :=
  stringsContains (toLower err) "no contract code at given address" ||
    stringsContains (toLower err) "no contract code after deployment"

/-- The loop of `retry.Do` with the option `RetryIf`: `left` attempts remain, `n` have
been made and `log` holds their errors; `f i` is what the call made as attempt `i`
(counted from 0) returns, `none` being nil.  The result is nil after a successful
attempt and the logged errors otherwise, with the number of attempts made. -/
def retryLoop (retryIf : String → Bool) (f : ℕ → Option String) :
    ℕ → ℕ → List String → Option (List String) × ℕ
  | 0, n, log => (some log, n)
  | left + 1, n, log =>
    match f n with
    | none => (none, n + 1)
    | some e =>
      if retryIf e then retryLoop retryIf f left (n + 1) (log ++ [e])
      else (some (log ++ [e]), n + 1)

/-- Function `retry.Do` with the options `Attempts(attempts)` and `RetryIf(retryIf)`. -/
def retryDo (attempts : ℕ) (retryIf : String → Bool) (f : ℕ → Option String) :
    Option (List String) × ℕ :=
  retryLoop retryIf f attempts 0 []

/-- Type `DeploymentData` (client.go:893), by the address and the hash of the
transaction. -/
structure DeploymentData where
  Address : String
  Transaction : String
  deriving DecidableEq, Repr

/-- The error `DeployContract` returns: that of `bind.DeployContract`, or the one of
`retry.Do`, which holds the errors of the attempts. -/
inductive DeployError where
  | deploy (e : String) : DeployError
  | retry (errs : List String) : DeployError
  deriving DecidableEq, Repr

/-- The calls of `DeployContract` that change the contract map and the contract store. -/
inductive DeployEffect where
  | AddContract (address name : String) : DeployEffect
  | AddABI (name abi : String) : DeployEffect
  deriving DecidableEq, Repr

/-- What the surroundings answer during one `DeployContract` call:
`bind.DeployContract` (the address and the transaction), the calls of
`bind.WaitDeployed` by their number, `ContractStore.GetABI` (whether an ABI is found
under the name), and `strings.ToLower`. -/
structure DeployAnswers where
  DeployContract : Except String (String × String)
  WaitDeployed : ℕ → Option String
  GetABI : String → Bool
  toLower : String → String

/-- What one `DeployContract` call yields: the data or the error, the effects, and the
number of `bind.WaitDeployed` calls made. -/
structure DeployResult where
  result : Except DeployError DeploymentData
  effects : List DeployEffect
  attempts : ℕ

/-- Method `Client.DeployContract` (client.go:836), the ABI by its name. -/
def DeployContract (a : DeployAnswers) (name abi : String) : DeployResult :=
  match a.DeployContract with
  | .error e => { result := .error (.deploy e), effects := [], attempts := 0 }
  | .ok (address, tx) =>
    match retryDo 10 (retryIfNoCode a.toLower) a.WaitDeployed with
    | (some errs, n) => { result := .error (.retry errs), effects := [], attempts := n }
    | (none, n) =>
      { result := .ok { Address := address, Transaction := tx },
        effects := .AddContract address name ::
          (if a.GetABI name then [] else [.AddABI name abi]),
        attempts := n }

/-! ## Block statistics

Embedding of `block_stats.go`.  The answers of the node, the order in which the
concurrent fetches complete, the difference of two block times as `time.Time.Sub`
computes it, and the errors of the two `toml.Marshal` calls are arguments.  Logging and
the formatted report are left out. -/

/-- A `*types.Block` as `block_stats.go` reads it; `BaseFee` is nil for a block without
a base fee. -/
structure StatsBlock where
  Number : ℤ
  Time : ℕ
  Transactions : ℕ
  GasUsed : ℕ
  GasLimit : ℕ
  BaseFee : Option ℤ
  deriving DecidableEq, Repr

/-- What the surroundings answer during one `Stats` call: the node for the number of
the latest header and for the block of a number, the order in which the fetches of
the given numbers complete, `time.Unix(t, 0).Sub(time.Unix(u, 0))` in nanoseconds for
the block times `t` and `u`, the errors of the two `toml.Marshal` calls, and the
platform for an `int` conversion of a double that does not fit. -/
structure StatsAnswers where
  HeaderByNumber : Except String ℤ
  BlockByNumber : ℤ → Except String StatsBlock
  completion : List ℤ → List ℤ
  timeSub : ℕ → ℕ → ℤ
  marshalStats : Option String
  marshalPerfStats : Option String
  int64OutOfRange : F64 → ℤ

/-- An index expression `xs[i]` of Go on any slice: the element, or the runtime panic. -/
def indexAt {α : Type} (xs : List α) (i : ℤ) : Outcome α :=
  if i < 0 then .panic (.runtime ("index out of range [" ++ toString i ++ "]"))
  else
    match xs.get? i.toNat with
    | some x => .ok x
    | none =>
      .panic (.runtime ("index out of range [" ++ toString i ++ "] with length "
        ++ toString xs.length))

/-- An integer division `x / y` of Go on `int64`: the quotient, truncated toward zero,
or the runtime panic for a zero divisor. -/
def divInt64 (x y : ℤ) : Outcome ℤ :=
  if y = 0 then .panic (.runtime "integer divide by zero") else .ok (wrapInt64 (x.tdiv y))

/-- An integer division `x / y` of Go on `uint64`. -/
def divUint64 (x y : ℕ) : Outcome ℕ :=
  if y = 0 then .panic (.runtime "integer divide by zero") else .ok (x / y)

/-- Method `Duration.Seconds` of the Go library, on a duration in nanoseconds. -/
def durationSeconds (d : ℤ) : F64 :=
  (F64.ofInt (d.tdiv 1000000000)).add
    ((F64.ofInt (d.tmod 1000000000)).div (F64.ofInt 1000000000))

/-- Whether a double is NaN. -/
def F64.isNaN : F64 → Bool
  | .nan => true
  | _ => false

/-- The order of `sort.Float64s`: NaN comes first. -/
def float64Less (x y : F64) : Bool := x.lt y || (x.isNaN && !y.isNaN)

/-- Function `calculateRatioPercentage` (block_stats.go:272). -/
def calculateRatioPercentage (value1 value2 : ℕ) : F64 :=
  if value2 = 0 then F64.zero
  else ((F64.ofInt value1).div (F64.ofInt value2)).mul (F64.ofInt 100)

/-- The values `CalculateBlockDurations` collects in its loop (block_stats.go:124-155),
in the order of the blocks: for each block after the first the duration since its
predecessor, the transactions per second, the gas used, the gas limit and the base fee.
A block without a base fee makes `blocks[i].BaseFee().Uint64()` panic. -/
def collectValues (timeSub : ℕ → ℕ → ℤ) :
    StatsBlock → List StatsBlock → Outcome (List (ℤ × F64 × ℕ × ℕ × ℕ))
  | _, [] => .ok []
  | previous, block :: rest =>
    match block.BaseFee with
    | none => .panic (.runtime "invalid memory address or nil pointer dereference")
    | some fee =>
      let duration := timeSub block.Time previous.Time
      let tps :=
        if (F64.ofInt 0).lt (durationSeconds duration) then
          (F64.ofInt block.Transactions).div (durationSeconds duration)
        else F64.zero
      match collectValues timeSub block rest with
      | .panic p => .panic p
      | .ok values =>
        .ok ((duration, tps, block.GasUsed % 2 ^ 64, block.GasLimit % 2 ^ 64,
          fee.natAbs % 2 ^ 64) :: values)

/-- Sum of `int64` values, as `+=` computes it. -/
def sumInt64 (xs : List ℤ) : ℤ := xs.foldl (fun acc x => wrapInt64 (acc + x)) 0

/-- Sum of `uint64` values, as `+=` computes it. -/
def sumUint64 (xs : List ℕ) : ℕ := xs.foldl (fun acc x => (acc + x) % 2 ^ 64) 0

/-- Value `index95` of block_stats.go:169: `int(0.95 * float64(len(durations)))`. -/
def index95 (oor : F64 → ℤ) (len : ℕ) : ℤ :=
  ((F64.round 95 100).mul (F64.ofInt len)).toInt64 oor

/-- The figures of the summary `CalculateBlockDurations` logs (the struct `stats`). -/
structure BlockStatsSummary where
  Perc95TPS : F64
  Perc95BlockDuration : ℤ
  Perc95BlockGasUsed : ℕ
  Perc95BlockGasLimit : ℕ
  Perc95BlockBaseFee : ℕ
  AvgTPS : F64
  AvgBlockDuration : ℤ
  AvgBlockGasUsed : ℕ
  AvgBlockGasLimit : ℕ
  AvgBlockBaseFee : ℕ
  deriving DecidableEq, Repr

/-- The whole loop of block_stats.go:124: the values of `collectValues` for the blocks
after the first, none for an empty list. -/
def loopValues (timeSub : ℕ → ℕ → ℤ) : List StatsBlock → Outcome (List (ℤ × F64 × ℕ × ℕ × ℕ))
  | [] => .ok []
  | first :: rest => collectValues timeSub first rest

/-- Lines 157-177 of `CalculateBlockDurations`: the averages and the 95th percentiles
of the collected values, `totalTransactions` being the sum of the transaction counts. -/
def summarize (oor : F64 → ℤ) (values : List (ℤ × F64 × ℕ × ℕ × ℕ)) (totalTransactions : ℤ) :
    Outcome BlockStatsSummary :=
  let durations : List ℤ := values.map (fun v => v.1)
  let tpsValues : List F64 := values.map (fun v => v.2.1)
  let gasUsedValues : List ℕ := values.map (fun v => v.2.2.1)
  let gasLimitValues : List ℕ := values.map (fun v => v.2.2.2.1)
  let blockBaseFeeValues : List ℕ := values.map (fun v => v.2.2.2.2)
  let averageTPS := (F64.ofInt totalTransactions).div (durationSeconds (sumInt64 durations))
  match divInt64 (sumInt64 durations) durations.length with
  | .panic p => .panic p
  | .ok averageDuration =>
  match divUint64 (sumUint64 gasUsedValues) gasUsedValues.length with
  | .panic p => .panic p
  | .ok averageGasUsed =>
  match divUint64 (sumUint64 gasLimitValues) gasLimitValues.length with
  | .panic p => .panic p
  | .ok averageGasLimit =>
  match divUint64 (sumUint64 blockBaseFeeValues) blockBaseFeeValues.length with
  | .panic p => .panic p
  | .ok averageBlockBaseFee =>
  match indexAt (durations.insertionSort (fun x y => x ≤ y)) (index95 oor durations.length) with
  | .panic p => .panic p
  | .ok percentile95Duration =>
  match indexAt (tpsValues.insertionSort (fun x y => float64Less y x = false))
      (index95 oor durations.length) with
  | .panic p => .panic p
  | .ok percentile95TPS =>
  match indexAt (gasUsedValues.insertionSort (fun x y => x ≤ y))
      (index95 oor durations.length) with
  | .panic p => .panic p
  | .ok percentile95GasUsed =>
  match indexAt (gasLimitValues.insertionSort (fun x y => x ≤ y))
      (index95 oor durations.length) with
  | .panic p => .panic p
  | .ok percentile95GasLimit =>
  match indexAt (blockBaseFeeValues.insertionSort (fun x y => x ≤ y))
      (index95 oor durations.length) with
  | .panic p => .panic p
  | .ok percentile95BlockBaseFee =>
    .ok { Perc95TPS := percentile95TPS, Perc95BlockDuration := percentile95Duration,
          Perc95BlockGasUsed := percentile95GasUsed,
          Perc95BlockGasLimit := percentile95GasLimit,
          Perc95BlockBaseFee := percentile95BlockBaseFee,
          AvgTPS := averageTPS, AvgBlockDuration := averageDuration,
          AvgBlockGasUsed := averageGasUsed, AvgBlockGasLimit := averageGasLimit,
          AvgBlockBaseFee := averageBlockBaseFee }

/-- Method `BlockStats.CalculateBlockDurations` (block_stats.go:111): the summary and
the error it returns, `none` being nil. -/
def CalculateBlockDurations (a : StatsAnswers) (blocks : List StatsBlock) :
    Outcome (BlockStatsSummary × Option String) :=
  match loopValues a.timeSub blocks with
  | .panic p => .panic p
  | .ok values =>
    match summarize a.int64OutOfRange values
        (wrapInt64 ((blocks.tail.map (fun b => (b.Transactions : ℤ))).sum)) with
    | .panic p => .panic p
    | .ok summary =>
      match a.marshalStats with
      | some e => .ok (summary, some e)
      | none => .ok (summary, a.marshalPerfStats)

/-- The block numbers the loop of block_stats.go:73 visits, `bn` going from `s` to `e`,
for an `e` below the largest `int64`. -/
def statsNumbers (s e : ℤ) : List ℤ :=
  (List.range (e - s + 1).toNat).map (fun k => s + (k : ℤ))

/-- Whether `Stats` ignores the error of a fetch (block_stats.go:80-84). -/
def ignoredFetchError (e : String) : Bool :=
  stringsContains e "value overflows uint256" ||
    stringsContains e "transaction type not supported"

/-- The blocks fetched for the numbers, in the given order. -/
def statsBlocks (fetch : ℤ → Except String StatsBlock) (numbers : List ℤ) : List StatsBlock :=
  numbers.filterMap (fun bn =>
    match fetch bn with
    | .ok block => some block
    | .error _ => none)

/-- The errors of the fetches that `Stats` does not ignore, in the given order. -/
def statsErrors (fetch : ℤ → Except String StatsBlock) (numbers : List ℤ) : List String :=
  numbers.filterMap (fun bn =>
    match fetch bn with
    | .ok _ => none
    | .error e => if ignoredFetchError e then none else some e)

/-- Method `BlockStats.Stats` (block_stats.go:44) for a non-nil `startBlock`; `endBlock`
is `none` for nil.  The result is the error returned, `none` being nil, or the panic;
it is `none` when the source does not return: its loop does not end when the last
number is the largest `int64`. -/
def Stats (a : StatsAnswers) (startBlock : ℤ) (endBlock : Option ℤ) :
    Option (Outcome (Option String)) :=
  match (if endBlock = none ∨ startBlock < 0 then
      (match a.HeaderByNumber with
        | .error e => Except.error ("failed to get the latest block header: " ++ e)
        | .ok number => Except.ok (some number))
    else Except.ok none) with
  | .error e => some (.ok (some e))
  | .ok latestBlockNumber =>
    match (if startBlock < 0 then
        (match latestBlockNumber with
          | some latest => Outcome.ok (latest + startBlock)
          | none => Outcome.panic (.runtime "invalid memory address or nil pointer dereference"))
      else Outcome.ok startBlock) with
    | .panic p => some (.panic p)
    | .ok start =>
      match endBlock with
      | none => some (.panic (.runtime "invalid memory address or nil pointer dereference"))
      | some endGiven =>
        match (if bigInt64 endGiven = 0 then latestBlockNumber else some endGiven) with
        | none => some (.panic (.runtime "invalid memory address or nil pointer dereference"))
        | some endBlock1 =>
          if bigInt64 start > bigInt64 endBlock1 then
            some (.ok (some "start block is less than the end block"))
          else if bigInt64 endBlock1 = 2 ^ 63 - 1 then none
          else
            let numbers := a.completion (statsNumbers (bigInt64 start) (bigInt64 endBlock1))
            match statsErrors a.BlockByNumber numbers with
            | e :: _ => some (.ok (some e))
            | [] =>
              match CalculateBlockDurations a
                  ((statsBlocks a.BlockByNumber numbers).insertionSort
                    (fun x y => bigInt64 x.Number ≤ bigInt64 y.Number)) with
              | .panic p => some (.panic p)
              | .ok r => some (.ok r.2)

/-! ## The command line: tracing

Embedding of `RunCLI` (cmd/seth.go) on an argument list `seth -n <network> trace -f
<file>`.  Parsing the arguments belongs to the library `urfave/cli`: the value of the
flag `-n` and of the flag `-f` are the arguments of the model, which runs the `Before`
hook and then the action of the command `trace`.  The files, the environment as the
action reads it, `toml.Unmarshal`, `filepath.Abs`, `NewClientWithConfig` and the tracer
are answers of the surroundings. -/

/-- Constant `ErrNoNetwork` (cmd/seth.go:15). -/
def ErrNoNetwork : String := "no network specified, use -n flag. Ex.: seth -n Geth keys update"

/-- Constant `ErrEmptyConfigPath` (client.go:26). -/
def ErrEmptyConfigPath : String := "toml config path is empty, set SETH_CONFIG_PATH"

/-- Constant `ErrReadSethConfig` (config.go:19). -/
def ErrReadSethConfig : String := "failed to read TOML config for seth"

/-- Constant `ErrUnmarshalSethConfig` (config.go:21). -/
def ErrUnmarshalSethConfig : String := "failed to unmarshal TOML config for seth"

/-- The fields of a `Config` just read from a TOML file that the action reads: the
table `network` (nil when the file has none) and the tables `networks`. -/
structure FileConfig where
  Network : Option Seth.Network
  Networks : List Seth.Network

/-- What the surroundings answer during one `RunCLI` call: `OpenJsonFileAsStruct` for a
file (the hashes), `os.Getenv` for a variable when the action runs, `os.ReadFile` and
`toml.Unmarshal` for the config, the error of `filepath.Abs`, the error of
`NewClientWithConfig` for the selected network, and `Tracer.TraceGethTX` for a hash,
by the number of the call. -/
structure CLIAnswers where
  OpenJsonFileAsStruct : String → Except String (List String)
  Getenv : String → String
  ReadFile : String → Except String String
  Unmarshal : String → Except String FileConfig
  Abs : String → Option String
  NewClientWithConfig : Seth.Network → Option String
  TraceGethTX : ℕ → String → Option String

/-- What one `RunCLI` call yields: the error returned, `none` being nil, the network of
the client that was built, if any, and the hashes handed to the tracer, in order. -/
structure CLIResult where
  err : Option String
  client : Option Seth.Network
  traced : List String
  deriving DecidableEq, Repr

/-- The loop of cmd/seth.go:161-165: `cfg.Network` after it. -/
def selectNetwork (cfg : FileConfig) (snet : String) : Option Network :=
  cfg.Networks.foldl (fun selected n => if n.Name = snet then some n else selected) cfg.Network

/-- The loop of cmd/seth.go:179-185 from call number `i` on: the error it stops with
and the hashes handed to the tracer. -/
def traceLoop (trace : ℕ → String → Option String) : ℕ → List String → Option String × List String
  | _, [] => (none, [])
  | i, tx :: rest =>
    match trace i tx with
    | some e => (some e, [tx])
    | none => ((traceLoop trace (i + 1) rest).1, tx :: (traceLoop trace (i + 1) rest).2)

/-- Function `RunCLI` (cmd/seth.go:20) on `seth -n networkName trace -f file`. -/
def RunCLI (a : CLIAnswers) (networkName file : String) : CLIResult :=
  if networkName = "" then { err := some ErrNoNetwork, client := none, traced := [] }
  else
    match a.OpenJsonFileAsStruct file with
    | .error e => { err := some e, client := none, traced := [] }
    | .ok transactions =>
      if a.Getenv "SETH_CONFIG_PATH" = "" then
        { err := some ErrEmptyConfigPath, client := none, traced := [] }
      else
        match a.ReadFile (a.Getenv "SETH_CONFIG_PATH") with
        | .error e =>
          { err := some (errorsWrap e ErrReadSethConfig), client := none, traced := [] }
        | .ok d =>
          match a.Unmarshal d with
          | .error e =>
            { err := some (errorsWrap e ErrUnmarshalSethConfig), client := none, traced := [] }
          | .ok cfg =>
            match a.Abs (a.Getenv "SETH_CONFIG_PATH") with
            | some e => { err := some e, client := none, traced := [] }
            | none =>
              if a.Getenv "NETWORK" = "" then
                { err := some ErrNoNetwork, client := none, traced := [] }
              else
                match selectNetwork cfg (a.Getenv "NETWORK") with
                | none =>
                  { err := some ("network " ++ a.Getenv "NETWORK" ++ " not found"),
                    client := none, traced := [] }
                | some network =>
                  match a.NewClientWithConfig network with
                  | some e => { err := some e, client := none, traced := [] }
                  | none =>
                    { err := (traceLoop a.TraceGethTX 0 transactions).1,
                      client := some network,
                      traced := (traceLoop a.TraceGethTX 0 transactions).2 }

/-! ## Rounding, stated over the rationals

The functions below describe the roundings mathematically; the lemmas of the next
part show that the integer computations above implement them. -/

/-- Nearest integer to a rational, ties to the even one. -/
def rhe (q : ℚ) : ℤ :=
  if q - ⌊q⌋ < 1 / 2 then ⌊q⌋
  else if 1 / 2 < q - ⌊q⌋ then ⌊q⌋ + 1
  else if ⌊q⌋ % 2 = 0 then ⌊q⌋ else ⌊q⌋ + 1

/-- Binary exponent of a rational: `2 ^ (expOf q - 1) ≤ |q| < 2 ^ expOf q` for `q ≠ 0`. -/
def expOf (q : ℚ) : ℤ := Int.log 2 |q| + 1

/-- Nearest multiple of `2 ^ qe`, ties to the even multiple. -/
def rndAt (qe : ℤ) (q : ℚ) : ℚ := (rhe (q / (2 : ℚ) ^ qe) : ℚ) * (2 : ℚ) ^ qe

/-- Rounding to `p` significant bits, ties to even (a `big.Float` of precision `p`). -/
def rndBits (p : ℕ) (q : ℚ) : ℚ := rndAt (expOf q - p) q

/-- Rounding to a double, ties to even, with gradual underflow; overflow apart. -/
def rndDouble (q : ℚ) : ℚ := rndAt (max (expOf q - 53) (-1074)) q

/-- Integer part of a rational, rounding toward zero. -/
def truncQ (q : ℚ) : ℤ := if 0 ≤ q then ⌊q⌋ else ⌈q⌉

/-- The rational value of a finite `big.Float` (`0` for an infinity). -/
def BigFloat.toRat : BigFloat → ℚ
  | .fin _ m e => (m : ℚ) * (2 : ℚ) ^ e
  | .inf _ _ => 0

/-- The congestion adjustment of lines 218-219, with its roundings spelled out: the
double product `c * f`, the double of the `int64` value of the suggested amount, their
product at 53 bits, and the integer part. -/
def specAdjustment (c f : ℚ) (s : ℤ) : ℤ :=
  truncQ (rndBits 53 (rndDouble (c * f) * rndDouble (bigInt64 s)))

/-- The buffer of lines 241-242, with its rounding spelled out: the product at
`max(bitlen, 64)` bits, and the integer part. -/
def specBuffer (x : ℤ) (β : ℚ) : ℤ :=
  truncQ (rndBits (max (bitLen x.natAbs) 64) ((x : ℚ) * β))

/-- Priority fee as the code computes it: `min(s + adjustment, M)` with `s = max(t, h)`. -/
def specPriorityFee (t h : ℤ) (c f : ℚ) (M : ℤ) : ℤ :=
  min (max t h + specAdjustment c f (max t h)) M

/-- Maximum fee as the code computes it: `base_max + buffer` with `base_max = b + tip`. -/
def specMaxFee (b tip : ℤ) (β : ℚ) : ℤ :=
  (b + tip) + specBuffer (b + tip) β

/-- Priority fee in exact arithmetic: `min(s + trunc(s*c*f), M)` with
`s = max(t, trunc(h))`. -/
def claimPriorityFee (t : ℤ) (h c f : ℚ) (M : ℤ) : ℤ :=
  min (max t (truncQ h) + truncQ (((max t (truncQ h) : ℤ) : ℚ) * c * f)) M

/-- Position of a priority in the order Slow, Standard, Fast, Ultra. -/
def priorityRank (p : String) : ℕ :=
  if p = Priority_Ultra then 3
  else if p = Priority_Fast then 2
  else if p = Priority_Standard then 1
  else 0

/-- Statistics whose percentiles are all `v`. -/
def flatStats (v : F64) : GasSuggestions :=
  { GasPrice := { Max := v, Perc99 := v, Perc50 := v, Perc25 := v },
    TipCap := { Max := v, Perc99 := v, Perc50 := v, Perc25 := v } }

/-- Answers of the surroundings with live tip and gas price `t`, flat statistics `v`,
congestion metric `c`, and `0` for a double that fits no `int64`. -/
def sampleAnswers (t : ℤ) (v c : F64) : Answers :=
  { SuggestGasTipCap := .ok t, SuggestGasPrice := .ok t, Stats := .ok (flatStats v),
    CongestionMetric := .ok c, int64OutOfRange := fun _ => 0 }

/-- Position of a congestion class in the order Low, Medium, High, Ultra. -/
def congestionRank (cl : String) : ℕ :=
  if cl = Congestion_Low then 0
  else if cl = Congestion_Medium then 1
  else if cl = Congestion_High then 2
  else 3

/-! ## Sample inputs and descriptions for the window and the client -/

/-- A block of number `n` and base fee `fee`, half full. -/
def sampleBlock (n : ℕ) (fee : ℤ) : Block :=
  { Number := n, GasUsed := 1, GasLimit := 2, BaseFee := fee }

/-- A chain whose latest block is `latest`; the block of number `n` has base fee `n` and
every fetch of a number for which `fails` holds fails.  Fetched blocks reach the slice
in the order `arrival`.  The logarithm is a constant: the samples use the Simple
strategy, which does not call it. -/
def sampleChain (latest : ℕ) (fails : ℤ → Bool) (arrival : List Block → List Block) :
    WindowAnswers :=
  { BlockNumber := .ok latest,
    getBlockData := fun n => if fails n then .error "no block" else .ok (sampleBlock n.toNat n),
    arrival := arrival,
    log10 := fun _ => F64.ofInt 1,
    int64OutOfRange := fun _ => 0 }

/-- The bound `⌈0.8·B⌉` of the specification. -/
def ceilEightyPercent (B : ℕ) : ℕ := ⌈(8 / 10 : ℚ) * B⌉₊

/-- Lower-casing of the ASCII letters, standing for `strings.ToLower` in the samples. -/
def asciiLower (s : String) : String := String.mk (s.data.map Char.toLower)

/-- A network of the given name and fee mode with estimation enabled. -/
def sampleNetwork (name : String) (eip1559 : Bool) : Network :=
  { Name := name, EIP1559DynamicFees := eip1559, GasPrice := 1000, GasFeeCap := 3000,
    GasTipCap := 2000, GasLimit := 8000000, TransferGasFee := 21000,
    GasPriceEstimationEnabled := true, GasPriceEstimationBlocks := 10,
    GasPriceEstimationTxPriority := Priority_Standard }

/-- A client with one address and one private key on the given network. -/
def sampleClient (name : String) (eip1559 protection : Bool) (errors : List (Option String)) :
    ClientState :=
  { Cfg := { Network := sampleNetwork name eip1559, TracingLevel := TracingLevel_Reverted,
             TraceToJson := false, PendingNonceProtectionEnabled := protection },
    Addresses := ["0xA1"], PrivateKeys := ["key1"], ChainID := 11155111, Errors := errors }

/-- A request with estimation switched as given and the fallbacks 1000, 3000, 2000. -/
def sampleRequest (enabled : Bool) : GasEstimationRequest :=
  { GasEstimationEnabled := enabled, FallbackGasPrice := 1000, FallbackGasFeeCap := 3000,
    FallbackGasTipCap := 2000, Priority := Priority_Standard }

/-- Answers while options are proposed: the given pending and last nonce for every
address, the given fee suggestions, and a signer that yields empty options from the key. -/
def sampleOptsAnswers (pending last : ℕ) (eip1559 : FeeCall (ℤ × ℤ)) (legacy : FeeCall ℤ) :
    OptsAnswers :=
  { PendingNonceAt := fun _ => .ok pending, NonceAt := fun _ => .ok last,
    eip1559 := eip1559, legacy := legacy, toLower := asciiLower,
    NewKeyedTransactor := fun key => .ok { TransactOpts.empty with From := key } }

/-- Answers during a transfer in which every call succeeds. -/
def sampleTransferAnswers : TransferAnswers :=
  { NetworkID := .ok 11155111, NextNonce := fun _ => 0, SignNewTx := fun _ => none,
    SendTransaction := none, WaitMined := none }

/-- Answers during a decoding: a mined, successful transaction that decodes. -/
def sampleDecodeAnswers : DecodeAnswers :=
  { WaitMined := .ok 1, callAndGetRevertReason := none,
    decodeTransaction := (some { Transaction := ⟨"0x01"⟩, Hash := "0x01", Decoded := some "f()" },
      none),
    TraceGethTX := fun _ => none }

/-- A caller override, by the setter that builds it. -/
inductive Override where
  | nonce (v : Option ℤ) : Override
  | value (v : Option ℤ) : Override
  | gasLimit (v : ℕ) : Override
  | gasPrice (v : Option ℤ) : Override
  | gasFeeCap (v : Option ℤ) : Override
  | gasTipCap (v : Option ℤ) : Override
  | noSend (v : Bool) : Override
  deriving DecidableEq, Repr

/-- The `TransactOpt` an override stands for. -/
def Override.apply : Override → TransactOpt
  | .nonce v => WithNonce v
  | .value v => WithValue v
  | .gasLimit v => WithGasLimit v
  | .gasPrice v => WithGasPrice v
  | .gasFeeCap v => WithGasFeeCap v
  | .gasTipCap v => WithGasTipCap v
  | .noSend v => WithNoSend v

/-- The value a `WithNonce` override names. -/
def Override.nonce? : Override → Option (Option ℤ)
  | .nonce v => some v
  | _ => none

/-- The value a `WithValue` override names. -/
def Override.value? : Override → Option (Option ℤ)
  | .value v => some v
  | _ => none

/-- The value a `WithGasLimit` override names. -/
def Override.gasLimit? : Override → Option ℕ
  | .gasLimit v => some v
  | _ => none

/-- The value a `WithGasPrice` override names. -/
def Override.gasPrice? : Override → Option (Option ℤ)
  | .gasPrice v => some v
  | _ => none

/-- The value a `WithGasFeeCap` override names. -/
def Override.gasFeeCap? : Override → Option (Option ℤ)
  | .gasFeeCap v => some v
  | _ => none

/-- The value a `WithGasTipCap` override names. -/
def Override.gasTipCap? : Override → Option (Option ℤ)
  | .gasTipCap v => some v
  | _ => none

/-- The value a `WithNoSend` override names. -/
def Override.noSend? : Override → Option Bool
  | .noSend v => some v
  | _ => none

/-- The value of the last override selected by `sel`, or `d` when there is none. -/
def lastOverride {α : Type} (sel : Override → Option α) (os : List Override) (d : α) : α :=
  ((os.filterMap sel).getLast?).getD d

/-- The options `configureTransactionOpts` has set when it starts on the overrides. -/
def configuredBase (m : ClientState) (opts : TransactOpts) (nonce : ℕ)
    (estimations : GasEstimations) : TransactOpts :=
  { From := opts.From, Nonce := some (wrapInt64 nonce), Value := opts.Value,
    GasPrice := if m.Cfg.Network.EIP1559DynamicFees then none else estimations.GasPrice,
    GasFeeCap := if m.Cfg.Network.EIP1559DynamicFees then estimations.GasFeeCap
      else opts.GasFeeCap,
    GasTipCap := if m.Cfg.Network.EIP1559DynamicFees then estimations.GasTipCap
      else opts.GasTipCap,
    GasLimit := m.Cfg.Network.GasLimit, NoSend := opts.NoSend }

/-! ## Descriptions for decoding -/

/-- The revert error `Decode` holds once the receipt is there (client.go:353-356):
what `callAndGetRevertReason` answers for a receipt of status 0, nil for any other. -/
def revertErrOf (a : DecodeAnswers) (status : ℕ) : Option String :=
  if status = 0 then a.callAndGetRevertReason else none

/-- The calls `Decode` has made once the revert error is known. -/
def receiptCalls (status : ℕ) : List DecodeCall :=
  if status = 0 then [.WaitMined, .callAndGetRevertReason] else [.WaitMined]

/-- The sample client on Sepolia with the given tracing level and accumulated errors. -/
def sampleClientAt (level : String) (errors : List (Option String)) : ClientState :=
  { sampleClient "Sepolia" true false errors with
    Cfg := { Network := sampleNetwork "Sepolia" true, TracingLevel := level,
             TraceToJson := false, PendingNonceProtectionEnabled := false } }

/-- The steps of the trace action before the network is looked up have succeeded: the
file holds the hashes `transactions`, the config path is set, and the config at that
path is read, parsed as `cfg` and its path resolved. -/
def ConfigLoaded (a : CLIAnswers) (file : String) (transactions : List String)
    (cfg : FileConfig) : Prop :=
  a.OpenJsonFileAsStruct file = .ok transactions ∧
  a.Getenv "SETH_CONFIG_PATH" ≠ "" ∧
  (∃ d, a.ReadFile (a.Getenv "SETH_CONFIG_PATH") = .ok d ∧ a.Unmarshal d = .ok cfg) ∧
  a.Abs (a.Getenv "SETH_CONFIG_PATH") = none

/-- A chain like `sampleChain` on which a conversion to `int` of a double that does not
fit yields the smallest `int64`, as the amd64 instruction does. -/
def sampleChainMinInt (latest : ℕ) : WindowAnswers :=
  { sampleChain latest (fun _ => false) id with int64OutOfRange := fun _ => -2 ^ 63 }

/-- Upper-casing of the ASCII letters, standing for `strings.ToUpper` in the samples. -/
def asciiUpper (s : String) : String := String.mk (s.data.map Char.toUpper)

/-- A configuration with the given estimation switch, blocks, priority and tracing
level. -/
def sampleConfig (enabled : Bool) (blocks : ℕ) (priority level : String) : Config :=
  { Network := { sampleNetwork "Sepolia" true with
      GasPriceEstimationEnabled := enabled, GasPriceEstimationBlocks := blocks,
      GasPriceEstimationTxPriority := priority },
    TracingLevel := level, TraceToJson := false, PendingNonceProtectionEnabled := false }

/-- Answers during a deployment whose code-presence check fails with `err` on the
first `failures` attempts and succeeds afterwards. -/
def sampleDeployAnswers (failures : ℕ) (err : String) (abiKnown : Bool) : DeployAnswers :=
  { DeployContract := .ok ("0xC0", "0x7a"),
    WaitDeployed := fun i => if i < failures then some err else none,
    GetABI := fun _ => abiKnown,
    toLower := asciiLower }

/-- A block of number `n` mined at time `12 * n` with `tx` transactions and base fee 7. -/
def sampleStatsBlock (n : ℕ) (tx : ℕ) : StatsBlock :=
  { Number := n, Time := 12 * n, Transactions := tx, GasUsed := 100, GasLimit := 200,
    BaseFee := some 7 }

/-- Answers during block statistics on a chain whose latest block is `latest`: every
block is fetched, with 5 transactions, the fetches complete in loop order, and block
times differ by whole seconds. -/
def sampleStatsAnswers (latest : ℤ) : StatsAnswers :=
  { HeaderByNumber := .ok latest,
    BlockByNumber := fun n => .ok (sampleStatsBlock n.toNat 5),
    completion := id,
    timeSub := fun t u => ((t : ℤ) - (u : ℤ)) * 1000000000,
    marshalStats := none, marshalPerfStats := none,
    int64OutOfRange := fun _ => 0 }

/-- Answers during a `RunCLI` call: the file `hashes.json` holds the given hashes, the
config path is `seth.toml`, the environment names the network `named`, the config is
`cfg`, and the tracer fails on the hashes for which `fails` holds. -/
def sampleCLIAnswers (hashes : List String) (named : String) (cfg : FileConfig)
    (fails : String → Bool) : CLIAnswers :=
  { OpenJsonFileAsStruct := fun _ => .ok hashes,
    Getenv := fun v => if v = "NETWORK" then named else "seth.toml",
    ReadFile := fun _ => .ok "toml",
    Unmarshal := fun _ => .ok cfg,
    Abs := fun _ => none,
    NewClientWithConfig := fun _ => none,
    TraceGethTX := fun _ tx => if fails tx then some ("cannot trace " ++ tx) else none }

/-! ## Descriptions for the newest-first metric -/

theorem floor_le_rhe (q : ℚ) : ⌊q⌋ ≤ rhe q := by
  unfold rhe; split_ifs <;> omega

theorem rhe_le_floor_add_one (q : ℚ) : rhe q ≤ ⌊q⌋ + 1 := by
  unfold rhe; split_ifs <;> omega

theorem rhe_intCast (n : ℤ) : rhe (n : ℚ) = n := by
  unfold rhe; simp

theorem rhe_mono {x y : ℚ} (h : x ≤ y) : rhe x ≤ rhe y := by
  have hf : ⌊x⌋ ≤ ⌊y⌋ := Int.floor_mono h
  rcases lt_or_eq_of_le hf with hlt | heq
  · calc rhe x ≤ ⌊x⌋ + 1 := rhe_le_floor_add_one x
      _ ≤ ⌊y⌋ := hlt
      _ ≤ rhe y := floor_le_rhe y
  · unfold rhe
    rw [heq]
    have hxy : x - (⌊y⌋ : ℚ) ≤ y - (⌊y⌋ : ℚ) := by linarith
    split_ifs <;> first | omega | (exfalso; linarith)

theorem roundQuot_eq_rhe (n : ℤ) (d : ℕ) (hd : 0 < d) :
    roundQuot n d = rhe ((n : ℚ) / (d : ℚ)) := by
  have hdq : (0 : ℚ) < (d : ℚ) := by exact_mod_cast hd
  have hfl : ⌊(n : ℚ) / (d : ℚ)⌋ = n / (d : ℤ) := by
    have := Rat.floor_intCast_div_natCast n d
    simpa using this
  have hfrac : (n : ℚ) / d - ((n / (d : ℤ) : ℤ) : ℚ) = ((n % (d : ℤ) : ℤ) : ℚ) / d := by
    have h1 : (n : ℚ) = ((d : ℤ) * (n / (d : ℤ)) + n % (d : ℤ) : ℤ) := by
      rw [Int.ediv_add_emod]
    field_simp
    rw [h1]; push_cast; ring_nf
  have hlt : ((n % (d : ℤ) : ℤ) : ℚ) / d < 1 / 2 ↔ 2 * (n % (d : ℤ)) < (d : ℤ) := by
    rw [div_lt_div_iff₀ hdq (by norm_num)]
    constructor
    · intro h; have : ((2 * (n % (d : ℤ)) : ℤ) : ℚ) < ((d : ℤ) : ℚ) := by push_cast; linarith
      exact_mod_cast this
    · intro h; have : ((2 * (n % (d : ℤ)) : ℤ) : ℚ) < ((d : ℤ) : ℚ) := by exact_mod_cast h
      push_cast at this; linarith
  have hgt : 1 / 2 < ((n % (d : ℤ) : ℤ) : ℚ) / d ↔ (d : ℤ) < 2 * (n % (d : ℤ)) := by
    rw [div_lt_div_iff₀ (by norm_num) hdq]
    constructor
    · intro h; have : ((d : ℤ) : ℚ) < ((2 * (n % (d : ℤ)) : ℤ) : ℚ) := by push_cast; linarith
      exact_mod_cast this
    · intro h; have : ((d : ℤ) : ℚ) < ((2 * (n % (d : ℤ)) : ℤ) : ℚ) := by exact_mod_cast h
      push_cast at this; linarith
  unfold roundQuot rhe
  simp only [hfl, hfrac, hlt, hgt]

theorem bitLenAux_zero (fuel : ℕ) : bitLenAux fuel 0 = 0 := by
  cases fuel <;> simp [bitLenAux]

theorem lt_two_pow_bitLenAux : ∀ (fuel n : ℕ), n ≤ fuel → n < 2 ^ bitLenAux fuel n
  | 0, n, h => by
    have : n = 0 := by omega
    subst this; simp [bitLenAux]
  | fuel + 1, n, h => by
    unfold bitLenAux
    split_ifs with h0
    · subst h0; simp
    · have ih := lt_two_pow_bitLenAux fuel (n / 2) (by omega)
      rw [pow_succ]; omega

theorem two_pow_bitLenAux_le : ∀ (fuel n : ℕ), n ≤ fuel → 0 < n → 2 ^ bitLenAux fuel n ≤ 2 * n
  | 0, n, h, hn => by omega
  | fuel + 1, n, h, hn => by
    unfold bitLenAux
    rw [if_neg (by omega)]
    rcases Nat.eq_zero_or_pos (n / 2) with h2 | h2
    · rw [h2, bitLenAux_zero]; simp; omega
    · have ih := two_pow_bitLenAux_le fuel (n / 2) (by omega) h2
      rw [pow_succ]; omega

theorem lt_two_pow_bitLen (n : ℕ) : n < 2 ^ bitLen n :=
  lt_two_pow_bitLenAux n n le_rfl

theorem two_pow_bitLen_le (n : ℕ) (hn : 0 < n) : 2 ^ bitLen n ≤ 2 * n :=
  two_pow_bitLenAux_le n n le_rfl hn

theorem expOf_eq {q : ℚ} {E : ℤ} (h1 : (2 : ℚ) ^ (E - 1) ≤ |q|) (h2 : |q| < (2 : ℚ) ^ E) :
    expOf q = E := by
  have hpos : 0 < |q| := lt_of_lt_of_le (by positivity) h1
  unfold expOf
  have a : E - 1 ≤ Int.log 2 |q| := by
    have := (Int.zpow_le_iff_le_log (b := 2) (by norm_num) hpos (x := E - 1)).1 (by exact_mod_cast h1)
    exact this
  have b : Int.log 2 |q| < E := by
    have := (Int.lt_zpow_iff_log_lt (b := 2) (by norm_num) hpos (x := E)).1 (by exact_mod_cast h2)
    exact this
  omega

theorem expOf_spec {q : ℚ} (hq : q ≠ 0) :
    (2 : ℚ) ^ (expOf q - 1) ≤ |q| ∧ |q| < (2 : ℚ) ^ expOf q := by
  have hpos : 0 < |q| := abs_pos.2 hq
  unfold expOf
  constructor
  · have := Int.zpow_log_le_self (b := 2) (r := |q|) (by norm_num) hpos
    simpa using this
  · have := Int.lt_zpow_succ_log_self (b := 2) (by norm_num) (|q|)
    simpa using this

theorem expOf_dyadic (m e : ℤ) (hm : m ≠ 0) :
    expOf ((m : ℚ) * (2 : ℚ) ^ e) = (bitLen m.natAbs : ℤ) + e := by
  have hn : 0 < m.natAbs := Int.natAbs_pos.2 hm
  have h2 : (0 : ℚ) < (2 : ℚ) ^ e := by positivity
  have habs : |(m : ℚ) * (2 : ℚ) ^ e| = (m.natAbs : ℚ) * (2 : ℚ) ^ e := by
    rw [abs_mul, abs_of_pos h2, Nat.cast_natAbs, Int.cast_abs]
  apply expOf_eq
  · rw [habs]
    have := two_pow_bitLen_le m.natAbs hn
    have hq : ((2 : ℚ) ^ bitLen m.natAbs) ≤ 2 * (m.natAbs : ℚ) := by exact_mod_cast this
    have e1 : (2 : ℚ) ^ ((bitLen m.natAbs : ℤ) + e - 1) = (2 : ℚ) ^ (bitLen m.natAbs) / 2 * (2 : ℚ) ^ e := by
      rw [show ((bitLen m.natAbs : ℤ) + e - 1) = (bitLen m.natAbs : ℤ) + (-1) + e by ring]
      rw [zpow_add₀ (by norm_num), zpow_add₀ (by norm_num)]
      simp [div_eq_mul_inv]
    rw [e1]
    apply mul_le_mul_of_nonneg_right _ h2.le
    linarith
  · rw [habs]
    have := lt_two_pow_bitLen m.natAbs
    have hq : (m.natAbs : ℚ) < (2 : ℚ) ^ bitLen m.natAbs := by exact_mod_cast this
    rw [zpow_add₀ (by norm_num)]
    apply mul_lt_mul_of_pos_right _ h2
    simpa using hq

theorem two_zpow_eq_div (k : ℤ) :
    (2 : ℚ) ^ k = (2 : ℚ) ^ k.toNat / (2 : ℚ) ^ (-k).toNat := by
  rcases le_total 0 k with h | h
  · have h1 : (-k).toNat = 0 := by omega
    rw [h1, pow_zero, div_one, ← zpow_natCast, Int.toNat_of_nonneg h]
  · have h1 : k.toNat = 0 := by omega
    have h3 : k = -(((-k).toNat : ℕ) : ℤ) := by omega
    rw [h1, pow_zero, one_div, ← zpow_natCast, ← zpow_neg, ← h3]

theorem binExp_eq (n d : ℕ) (hn : 0 < n) (hd : 0 < d) :
    binExp n d = expOf ((n : ℚ) / (d : ℚ)) := by
  have hnq : (0 : ℚ) < n := by exact_mod_cast hn
  have hdq : (0 : ℚ) < d := by exact_mod_cast hd
  have hpos : (0 : ℚ) < (n : ℚ) / d := div_pos hnq hdq
  have hn1 : ((2 : ℚ) ^ bitLen n) ≤ 2 * (n : ℚ) := by exact_mod_cast two_pow_bitLen_le n hn
  have hn2 : (n : ℚ) < (2 : ℚ) ^ bitLen n := by exact_mod_cast lt_two_pow_bitLen n
  have hd1 : ((2 : ℚ) ^ bitLen d) ≤ 2 * (d : ℚ) := by exact_mod_cast two_pow_bitLen_le d hd
  have hd2 : (d : ℚ) < (2 : ℚ) ^ bitLen d := by exact_mod_cast lt_two_pow_bitLen d
  have hbn : (0 : ℚ) < (2 : ℚ) ^ bitLen n := by positivity
  have hbd : (0 : ℚ) < (2 : ℚ) ^ bitLen d := by positivity
  set k : ℤ := (bitLen n : ℤ) - (bitLen d : ℤ) with hk
  have hk2 : (2 : ℚ) ^ k = (2 : ℚ) ^ bitLen n / (2 : ℚ) ^ bitLen d := by
    rw [hk, zpow_sub₀ (by norm_num), zpow_natCast, zpow_natCast]
  have hA : (0 : ℚ) < (2 : ℚ) ^ k.toNat := by positivity
  have hB : (0 : ℚ) < (2 : ℚ) ^ (-k).toNat := by positivity
  have hcond : (n * 2 ^ (-k).toNat < d * 2 ^ k.toNat) ↔ (n : ℚ) / d < (2 : ℚ) ^ k := by
    rw [two_zpow_eq_div k, div_lt_div_iff₀ hdq hB, mul_comm ((2 : ℚ) ^ k.toNat) (d : ℚ)]
    constructor
    · intro h; exact_mod_cast h
    · intro h; exact_mod_cast h
  symm
  unfold binExp
  simp only [← hk]
  split_ifs with hc
  · apply expOf_eq
    · rw [abs_of_pos hpos, zpow_sub₀ (by norm_num), hk2, zpow_one, le_div_iff₀ hdq]
      rw [div_div, div_mul_eq_mul_div, div_le_iff₀ (by positivity)]
      nlinarith
    · rw [abs_of_pos hpos]; exact hcond.1 hc
  · apply expOf_eq
    · rw [abs_of_pos hpos]; simp only [add_sub_cancel_right]
      exact not_lt.1 (fun h => hc (hcond.2 h))
    · rw [abs_of_pos hpos, zpow_add₀ (by norm_num), hk2, zpow_one, div_lt_iff₀ hdq]
      rw [div_mul_eq_mul_div, div_mul_eq_mul_div, lt_div_iff₀ hbd]
      nlinarith

theorem rhe_zero : rhe 0 = 0 := by
  have := rhe_intCast 0
  simpa using this

theorem rndAt_zero (qe : ℤ) : rndAt qe 0 = 0 := by
  simp [rndAt, rhe_zero]

theorem rndAt_grid (qe : ℤ) (n : ℤ) : rndAt qe ((n : ℚ) * (2 : ℚ) ^ qe) = (n : ℚ) * (2 : ℚ) ^ qe := by
  have h2 : ((2 : ℚ) ^ qe) ≠ 0 := by positivity
  unfold rndAt
  rw [mul_div_assoc, div_self h2, mul_one, rhe_intCast]

theorem rndAt_mono (qe : ℤ) {x y : ℚ} (h : x ≤ y) : rndAt qe x ≤ rndAt qe y := by
  have h2 : (0 : ℚ) < (2 : ℚ) ^ qe := by positivity
  unfold rndAt
  apply mul_le_mul_of_nonneg_right _ h2.le
  have : x / (2 : ℚ) ^ qe ≤ y / (2 : ℚ) ^ qe := div_le_div_of_nonneg_right h h2.le
  exact_mod_cast rhe_mono this

theorem rndAt_le_grid {qe : ℤ} {x : ℚ} (n : ℤ) (h : x ≤ (n : ℚ) * (2 : ℚ) ^ qe) :
    rndAt qe x ≤ (n : ℚ) * (2 : ℚ) ^ qe := by
  have := rndAt_mono qe h
  rwa [rndAt_grid] at this

theorem grid_le_rndAt {qe : ℤ} {x : ℚ} (n : ℤ) (h : (n : ℚ) * (2 : ℚ) ^ qe ≤ x) :
    (n : ℚ) * (2 : ℚ) ^ qe ≤ rndAt qe x := by
  have := rndAt_mono qe h
  rwa [rndAt_grid] at this

theorem expOf_neg (q : ℚ) : expOf (-q) = expOf q := by
  simp [expOf]

theorem expOf_abs (q : ℚ) : expOf |q| = expOf q := by
  simp [expOf]

theorem truncQ_intCast (n : ℤ) : truncQ (n : ℚ) = n := by
  unfold truncQ; split_ifs <;> simp

theorem truncDyadic_eq (m e : ℤ) : truncDyadic m e = truncQ ((m : ℚ) * (2 : ℚ) ^ e) := by
  unfold truncDyadic
  split_ifs with he
  · have : (2 : ℚ) ^ e = (((2 : ℤ) ^ e.toNat : ℤ) : ℚ) := by
      rw [Int.cast_pow, ← zpow_natCast, Int.toNat_of_nonneg he]; simp
    rw [this, ← Int.cast_mul, truncQ_intCast]
  · have he' : e = -(((-e).toNat : ℕ) : ℤ) := by omega
    have h2 : (2 : ℚ) ^ e = 1 / (((2 : ℕ) ^ (-e).toNat : ℕ) : ℚ) := by
      conv_lhs => rw [he']
      rw [zpow_neg, zpow_natCast]; simp
    have hdpos : 0 < (2 : ℕ) ^ (-e).toNat := by positivity
    have hcast : ((2 : ℤ) ^ (-e).toNat) = (((2 : ℕ) ^ (-e).toNat : ℕ) : ℤ) := by simp
    rw [h2, mul_one_div, hcast]
    generalize (2 : ℕ) ^ (-e).toNat = d at hdpos
    unfold truncQ
    have hdq : (0 : ℚ) < (d : ℚ) := by exact_mod_cast hdpos
    rcases le_or_lt 0 m with hm | hm
    · have : (0 : ℚ) ≤ (m : ℚ) / d := div_nonneg (by exact_mod_cast hm) hdq.le
      rw [if_pos this, Int.tdiv_eq_ediv hm (by positivity)]
      have := Rat.floor_intCast_div_natCast m d
      simpa using this.symm
    · have : ¬ (0 : ℚ) ≤ (m : ℚ) / d := by
        rw [not_le]; exact div_neg_of_neg_of_pos (by exact_mod_cast hm) hdq
      rw [if_neg this]
      have hfl : ⌊((-m : ℤ) : ℚ) / (d : ℚ)⌋ = -m / (d : ℤ) := by
        have := Rat.floor_intCast_div_natCast (-m) d
        simpa using this
      have e1 : Int.tdiv m (d : ℤ) = -((-m) / (d : ℤ)) := by
        have := Int.neg_tdiv (-m) (d : ℤ)
        rw [neg_neg] at this
        rw [this, Int.tdiv_eq_ediv (by omega) (by positivity)]
      have e2 : ⌈(m : ℚ) / (d : ℚ)⌉ = -⌊((-m : ℤ) : ℚ) / (d : ℚ)⌋ := by
        rw [← Int.ceil_neg]; congr 1; push_cast; ring
      rw [e1, e2, hfl]

theorem bitLen_zero : bitLen 0 = 0 := by
  simp [bitLen, bitLenAux]

theorem rndBits_zero (p : ℕ) : rndBits p 0 = 0 := by
  simp [rndBits, rndAt_zero]

theorem roundTo_toRat (p : ℕ) (m e : ℤ) :
    (BigFloat.roundTo p m e).toRat = rndBits p ((m : ℚ) * (2 : ℚ) ^ e) := by
  have h2 : (2 : ℚ) ≠ 0 := by norm_num
  unfold BigFloat.roundTo
  by_cases hm : m = 0
  · subst hm
    simp [bitLen_zero, BigFloat.toRat, rndBits_zero]
  · split_ifs with hk
    · simp only [BigFloat.toRat]
      unfold rndBits
      rw [expOf_dyadic m e hm]
      have hgrid : (m : ℚ) * (2 : ℚ) ^ e
          = ((m * 2 ^ (p - bitLen m.natAbs) : ℤ) : ℚ)
              * (2 : ℚ) ^ ((bitLen m.natAbs : ℤ) + e - (p : ℤ)) := by
        push_cast
        rw [mul_assoc, ← zpow_natCast, ← zpow_add₀ h2]
        congr 2
        omega
      conv_lhs => rw [hgrid]
      conv_rhs => rw [hgrid]
      exact (rndAt_grid _ _).symm
    · simp only [BigFloat.toRat]
      unfold rndBits rndAt
      rw [expOf_dyadic m e hm, roundQuot_eq_rhe m _ (by positivity)]
      have hexp : (bitLen m.natAbs : ℤ) + e - (p : ℤ) = e + ((bitLen m.natAbs - p : ℕ) : ℤ) := by
        omega
      rw [hexp]
      congr 2
      rw [zpow_add₀ h2, zpow_natCast]
      have h3 : ((2 : ℚ) ^ e) ≠ 0 := by positivity
      congr 1
      rw [Nat.cast_pow, Nat.cast_ofNat, mul_comm (m : ℚ) ((2 : ℚ) ^ e), mul_div_mul_left _ _ h3]

theorem rndDouble_zero : rndDouble 0 = 0 := by
  simp [rndDouble, rndAt_zero]

theorem round_toRat (n : ℤ) (d : ℕ) (hd : 0 < d) (m e : ℤ) (h : F64.round n d = .fin m e) :
    (m : ℚ) * (2 : ℚ) ^ e = rndDouble ((n : ℚ) / (d : ℚ)) := by
  have hdq : (0 : ℚ) < (d : ℚ) := by exact_mod_cast hd
  have h2 : (2 : ℚ) ≠ 0 := by norm_num
  unfold F64.round at h
  by_cases hn : n = 0
  · subst hn
    simp only [if_true, F64.fin.injEq] at h
    obtain ⟨rfl, rfl⟩ := h
    simp [rndDouble_zero]
  · rw [if_neg hn, if_neg (by omega : ¬ d = 0)] at h
    have hE : binExp n.natAbs d = expOf ((n : ℚ) / (d : ℚ)) := by
      rw [binExp_eq _ _ (Int.natAbs_pos.2 hn) hd, ← expOf_abs ((n : ℚ) / (d : ℚ))]
      congr 1
      rw [abs_div, Nat.cast_natAbs, Int.cast_abs, abs_of_pos hdq]
    simp only [hE] at h
    unfold rndDouble rndAt
    generalize max (expOf ((n : ℚ) / (d : ℚ)) - 53) (-1074) = qe at h ⊢
    have hmant : roundQuot (n * 2 ^ (-qe).toNat) (d * 2 ^ qe.toNat)
        = rhe ((n : ℚ) / (d : ℚ) / (2 : ℚ) ^ qe) := by
      rw [roundQuot_eq_rhe _ _ (by positivity)]
      congr 1
      rw [two_zpow_eq_div qe]
      have hA : ((2 : ℚ) ^ qe.toNat) ≠ 0 := by positivity
      have hB : ((2 : ℚ) ^ (-qe).toNat) ≠ 0 := by positivity
      push_cast
      field_simp
    rw [hmant] at h
    generalize rhe ((n : ℚ) / (d : ℚ) / (2 : ℚ) ^ qe) = mant at h ⊢
    split_ifs at h with h53 hov hov
    · simp only [F64.fin.injEq] at h
      obtain ⟨rfl, rfl⟩ := h
      have hm2 : 2 * (mant / 2) = mant := by
        rcases Int.natAbs_eq mant with hh | hh <;> rw [h53] at hh <;> omega
      rw [zpow_add₀ h2, zpow_one]
      have : ((2 * (mant / 2) : ℤ) : ℚ) = (mant : ℚ) := by rw [hm2]
      push_cast at this
      rw [← this]; ring
    · simp only [F64.fin.injEq] at h
      obtain ⟨rfl, rfl⟩ := h
      rfl

theorem ofDyadic_toRat (m e m' e' : ℤ) (h : F64.ofDyadic m e = .fin m' e') :
    (m' : ℚ) * (2 : ℚ) ^ e' = rndDouble ((m : ℚ) * (2 : ℚ) ^ e) := by
  unfold F64.ofDyadic at h
  have := round_toRat _ _ (by positivity) m' e' h
  rw [this]
  congr 1
  rw [two_zpow_eq_div e]
  push_cast
  ring

theorem mul_fin {x y : F64} {m e : ℤ} (h : x.mul y = .fin m e) :
    x.isFinite = true ∧ y.isFinite = true ∧
      (m : ℚ) * (2 : ℚ) ^ e = rndDouble (x.toRat * y.toRat) := by
  cases x with
  | nan => simp [F64.mul] at h
  | inf s =>
    cases y with
    | nan => simp [F64.mul] at h
    | inf t => simp [F64.mul] at h
    | fin m2 e2 => simp only [F64.mul] at h; split_ifs at h
  | fin m1 e1 =>
    cases y with
    | nan => simp [F64.mul] at h
    | inf t => simp only [F64.mul] at h; split_ifs at h
    | fin m2 e2 =>
      simp only [F64.mul] at h
      refine ⟨rfl, rfl, ?_⟩
      rw [ofDyadic_toRat _ _ _ _ h]
      simp only [F64.toRat]
      congr 1
      rw [zpow_add₀ (by norm_num)]
      push_cast
      ring

theorem congestionAdjustmentInt_eq {c f : F64} {s adj : ℤ}
    (h : congestionAdjustmentInt c f s = some adj) :
    c.isFinite = true ∧ f.isFinite = true ∧
      ∃ m e, F64.ofInt (bigInt64 s) = .fin m e ∧
        adj = truncQ (rndBits 53 (rndDouble (c.toRat * f.toRat) * ((m : ℚ) * (2 : ℚ) ^ e))) := by
  unfold congestionAdjustmentInt at h
  cases hx : c.mul f with
  | nan => simp [hx, BigFloat.NewFloat] at h
  | inf sx =>
    cases hy : F64.ofInt (bigInt64 s) with
    | nan => simp [hx, hy, BigFloat.NewFloat] at h
    | inf sy => simp [hx, hy, BigFloat.NewFloat, BigFloat.Mul, BigFloat.Int] at h
    | fin my ey =>
      simp only [hx, hy, BigFloat.NewFloat, BigFloat.Mul] at h
      split_ifs at h
      simp [BigFloat.Int] at h
  | fin mx ex =>
    obtain ⟨hc, hf, hval⟩ := mul_fin hx
    cases hy : F64.ofInt (bigInt64 s) with
    | nan => simp [hx, hy, BigFloat.NewFloat] at h
    | inf sy =>
      simp only [hx, hy, BigFloat.NewFloat, BigFloat.Mul] at h
      split_ifs at h
      simp [BigFloat.Int] at h
    | fin my ey =>
      refine ⟨hc, hf, my, ey, rfl, ?_⟩
      simp only [hx, hy, BigFloat.NewFloat, BigFloat.Mul, max_self] at h
      have hr := roundTo_toRat 53 (mx * my) (ex + ey)
      generalize BigFloat.roundTo 53 (mx * my) (ex + ey) = z at h hr
      cases z with
      | inf p sz => simp [BigFloat.Int] at h
      | fin p mz ez =>
        simp only [BigFloat.Int, Option.some.injEq] at h
        rw [← h, truncDyadic_eq]
        simp only [BigFloat.toRat] at hr
        rw [hr, ← hval]
        congr 2
        rw [zpow_add₀ (by norm_num)]
        push_cast
        ring

theorem bufferInt_eq {x : ℤ} {β : F64} {b : ℤ} (h : bufferInt x β = some b) :
    β.isFinite = true ∧ b = specBuffer x β.toRat := by
  unfold bufferInt at h
  cases β with
  | nan => simp [BigFloat.NewFloat] at h
  | inf s =>
    simp only [BigFloat.NewFloat, BigFloat.SetInt, BigFloat.Mul] at h
    split_ifs at h
    simp [BigFloat.Int] at h
  | fin mb eb =>
    refine ⟨rfl, ?_⟩
    simp only [BigFloat.NewFloat, BigFloat.SetInt, BigFloat.Mul] at h
    have hp : max (max (bitLen x.natAbs) 64) 53 = max (bitLen x.natAbs) 64 := by omega
    rw [hp] at h
    have hr := roundTo_toRat (max (bitLen x.natAbs) 64) (x * mb) (0 + eb)
    generalize BigFloat.roundTo (max (bitLen x.natAbs) 64) (x * mb) (0 + eb) = z at h hr
    cases z with
    | inf p sz => simp [BigFloat.Int] at h
    | fin p mz ez =>
      simp only [BigFloat.Int, Option.some.injEq] at h
      rw [← h, truncDyadic_eq]
      simp only [BigFloat.toRat] at hr
      unfold specBuffer
      rw [hr]
      simp only [F64.toRat]
      congr 2
      rw [zero_add]
      push_cast
      ring

theorem ofInt_toRat {n m e : ℤ} (h : F64.ofInt n = .fin m e) :
    (m : ℚ) * (2 : ℚ) ^ e = rndDouble (n : ℚ) := by
  have := round_toRat n 1 (by norm_num) m e h
  simpa using this

theorem congestionAdjustmentInt_spec {c f : F64} {s adj : ℤ}
    (h : congestionAdjustmentInt c f s = some adj) :
    c.isFinite = true ∧ f.isFinite = true ∧ adj = specAdjustment c.toRat f.toRat s := by
  obtain ⟨hc, hf, m, e, hme, hadj⟩ := congestionAdjustmentInt_eq h
  refine ⟨hc, hf, ?_⟩
  rw [hadj, ofInt_toRat hme]
  rfl

theorem ite_gt_eq_max (h t : ℤ) : (if h > t then h else t) = max t h := by
  split_ifs with hc
  · exact (max_eq_right (le_of_lt hc)).symm
  · exact (max_eq_left (not_lt.1 hc)).symm

theorem ite_gt_eq_min (x M : ℤ) : (if x > M then M else x) = min x M := by
  split_ifs with hc
  · exact (min_eq_right (le_of_lt hc)).symm
  · exact (min_eq_left (not_lt.1 hc)).symm

theorem eip1559_fees_eq {m : Client} {a : Answers} {fee tip : ℤ} {m' : Client}
    (h : GetSuggestedEIP1559Fees m a = (.ok (fee, tip), m')) :
    ∃ t f c β, a.SuggestGasTipCap = .ok t ∧
      getAdjustmentFactor m.GasEstimationTxPriority = .ok f ∧
      a.CongestionMetric = .ok c ∧
      getBufferPercent (classifyCongestion c) = .ok β ∧
      c.isFinite = true ∧
      tip = specPriorityFee t
        ((HistoricalFeeData m a.Stats m.GasEstimationTxPriority).1.2.1.toInt64 a.int64OutOfRange)
        c.toRat f.toRat m.GasEsimationMaxGasTipCap ∧
      fee = specMaxFee
        ((HistoricalFeeData m a.Stats m.GasEstimationTxPriority).1.1.toInt64 a.int64OutOfRange)
        tip β.toRat := by
  unfold GetSuggestedEIP1559Fees at h
  split at h
  · simp at h
  · rename_i t ht
    split at h
    · simp at h
    · rename_i b hTip m1 hhist
      simp only at h
      split at h
      · simp at h
      · rename_i f hf
        split at h
        · simp at h
        · rename_i c hc
          split at h
          · simp at h
          · rename_i adj hadj
            split at h
            · simp at h
            · rename_i β hβ
              split at h
              · simp at h
              · rename_i buf hbuf
                simp only [Prod.mk.injEq, Res.ok.injEq] at h
                obtain ⟨⟨hfee, htip⟩, -⟩ := h
                obtain ⟨hcfin, -, hadj'⟩ := congestionAdjustmentInt_spec hadj
                obtain ⟨-, hbuf'⟩ := bufferInt_eq hbuf
                refine ⟨t, f, c, β, ht, hf, hc, hβ, hcfin, ?_, ?_⟩
                · rw [hhist]
                  simp only [ite_gt_eq_max, ite_gt_eq_min] at htip hadj' ⊢
                  rw [← htip, hadj']
                  rfl
                · rw [hhist]
                  simp only [ite_gt_eq_max, ite_gt_eq_min] at htip hfee hbuf' ⊢
                  rw [← hfee, hbuf', htip]
                  rfl

theorem two_zpow_grid {k E : ℤ} (h : k ≤ E) :
    (2 : ℚ) ^ E = (((2 : ℤ) ^ (E - k).toNat : ℤ) : ℚ) * (2 : ℚ) ^ k := by
  rw [Int.cast_pow, ← zpow_natCast, Int.toNat_of_nonneg (by omega)]
  simp only [Int.cast_ofNat]
  rw [← zpow_add₀ (by norm_num)]
  congr 1
  ring

theorem intCast_grid {k : ℤ} (h : k ≤ 0) (n : ℤ) :
    (n : ℚ) = ((n * (2 : ℤ) ^ (-k).toNat : ℤ) : ℚ) * (2 : ℚ) ^ k := by
  have := two_zpow_grid (k := k) (E := 0) h
  rw [zpow_zero] at this
  rw [Int.cast_mul, mul_assoc]
  simp only [zero_sub] at this
  rw [← this, mul_one]

theorem rndAt_nonneg (qe : ℤ) {x : ℚ} (h : 0 ≤ x) : 0 ≤ rndAt qe x := by
  have := rndAt_mono qe h
  rwa [rndAt_zero] at this

theorem expOf_le_of_le {x y : ℚ} (hx : 0 < x) (hxy : x ≤ y) : expOf x ≤ expOf y := by
  have hy : 0 < y := lt_of_lt_of_le hx hxy
  have h1 := (expOf_spec hx.ne').1
  have h2 := (expOf_spec hy.ne').2
  rw [abs_of_pos hx] at h1
  rw [abs_of_pos hy] at h2
  have : (2 : ℚ) ^ (expOf x - 1) < (2 : ℚ) ^ expOf y := lt_of_le_of_lt (h1.trans hxy) h2
  have := (zpow_lt_zpow_iff_right₀ (by norm_num : (1 : ℚ) < 2)).1 this
  omega

/-- Rounding to a quantum that grows with the binary exponent is monotone on the
non-negative rationals. -/
theorem rnd_mono_nonneg (g : ℤ → ℤ) (hg : ∀ E E', E ≤ E' → g E ≤ g E')
    (hg1 : ∀ E E', g E < g E' → g E' ≤ E' - 1) {x y : ℚ} (hx : 0 ≤ x) (hxy : x ≤ y) :
    rndAt (g (expOf x)) x ≤ rndAt (g (expOf y)) y := by
  rcases eq_or_lt_of_le hx with h0 | hpos
  · rw [← h0, rndAt_zero]
    exact rndAt_nonneg _ (hx.trans hxy)
  · have hy : 0 < y := lt_of_lt_of_le hpos hxy
    have hE := expOf_le_of_le hpos hxy
    rcases eq_or_lt_of_le (hg _ _ hE) with heq | hlt
    · rw [heq]; exact rndAt_mono _ hxy
    · have hEy := hg1 _ _ hlt
      have hElt : expOf x ≤ expOf y - 1 := by
        rcases eq_or_lt_of_le hE with h | h
        · rw [h] at hlt; exact absurd hlt (lt_irrefl _)
        · omega
      have hxB : x ≤ (2 : ℚ) ^ (expOf y - 1) := by
        have h2 := (expOf_spec hpos.ne').2
        rw [abs_of_pos hpos] at h2
        exact h2.le.trans (zpow_le_zpow_right₀ (by norm_num) hElt)
      have hBy : (2 : ℚ) ^ (expOf y - 1) ≤ y := by
        have h1 := (expOf_spec hy.ne').1
        rwa [abs_of_pos hy] at h1
      have g1 := two_zpow_grid (k := g (expOf x)) (E := expOf y - 1) (by omega)
      have g2 := two_zpow_grid (k := g (expOf y)) (E := expOf y - 1) hEy
      have a1 : rndAt (g (expOf x)) x ≤ (2 : ℚ) ^ (expOf y - 1) := by
        rw [g1] at hxB ⊢
        exact rndAt_le_grid _ hxB
      have a2 : (2 : ℚ) ^ (expOf y - 1) ≤ rndAt (g (expOf y)) y := by
        rw [g2] at hBy ⊢
        exact grid_le_rndAt _ hBy
      exact a1.trans a2

theorem rndBits_mono_nonneg (p : ℕ) (hp : 1 ≤ p) {x y : ℚ} (hx : 0 ≤ x) (hxy : x ≤ y) :
    rndBits p x ≤ rndBits p y := by
  unfold rndBits
  exact rnd_mono_nonneg (fun E => E - (p : ℤ)) (fun E E' h => by simp only; omega)
    (fun E E' _ => by simp only; omega) hx hxy

theorem rndDouble_mono_nonneg {x y : ℚ} (hx : 0 ≤ x) (hxy : x ≤ y) :
    rndDouble x ≤ rndDouble y := by
  unfold rndDouble
  exact rnd_mono_nonneg (fun E => max (E - 53) (-1074)) (fun E E' h => by simp only; omega)
    (fun E E' h => by simp only at h ⊢; omega) hx hxy

theorem rndBits_nonneg (p : ℕ) {x : ℚ} (hx : 0 ≤ x) : 0 ≤ rndBits p x :=
  rndAt_nonneg _ hx

theorem rndDouble_nonneg {x : ℚ} (hx : 0 ≤ x) : 0 ≤ rndDouble x :=
  rndAt_nonneg _ hx

theorem truncQ_mono {x y : ℚ} (h : x ≤ y) : truncQ x ≤ truncQ y := by
  unfold truncQ
  split_ifs with hx hy hy
  · exact Int.floor_mono h
  · exact absurd (hx.trans h) hy
  · have h1 : ⌈x⌉ ≤ 0 := Int.ceil_le.2 (by push_cast; linarith)
    have h2 : 0 ≤ ⌊y⌋ := Int.floor_nonneg.2 hy
    omega
  · exact Int.ceil_mono h

theorem truncQ_nonneg {x : ℚ} (h : 0 ≤ x) : 0 ≤ truncQ x := by
  have := truncQ_mono h
  rwa [show truncQ 0 = 0 from by simpa using truncQ_intCast 0] at this

theorem specBuffer_bounds (x : ℤ) {β : ℚ} (h0 : 0 ≤ β) (h1 : β ≤ 1) :
    ⌊(x : ℚ) * β⌋ ≤ specBuffer x β ∧ specBuffer x β ≤ ⌈(x : ℚ) * β⌉ := by
  unfold specBuffer
  by_cases hq : (x : ℚ) * β = 0
  · rw [hq, rndBits_zero]
    simp [truncQ]
  · have habs : |(x : ℚ) * β| < (2 : ℚ) ^ ((max (bitLen x.natAbs) 64 : ℕ) : ℤ) := by
      have hx : |(x : ℚ)| < (2 : ℚ) ^ bitLen x.natAbs := by
        rw [← Int.cast_abs, ← Nat.cast_natAbs]
        exact_mod_cast lt_two_pow_bitLen x.natAbs
      have hle : (2 : ℚ) ^ bitLen x.natAbs ≤ (2 : ℚ) ^ (max (bitLen x.natAbs) 64) :=
        pow_le_pow_right₀ (by norm_num) (le_max_left _ _)
      rw [zpow_natCast, abs_mul, abs_of_nonneg h0]
      calc |(x : ℚ)| * β ≤ |(x : ℚ)| * 1 := mul_le_mul_of_nonneg_left h1 (abs_nonneg _)
        _ = |(x : ℚ)| := mul_one _
        _ < _ := lt_of_lt_of_le hx hle
    have hE : expOf ((x : ℚ) * β) - ((max (bitLen x.natAbs) 64 : ℕ) : ℤ) ≤ 0 := by
      have h1 := (expOf_spec hq).1
      have := (zpow_lt_zpow_iff_right₀ (by norm_num : (1 : ℚ) < 2)).1 (lt_of_le_of_lt h1 habs)
      omega
    unfold rndBits
    generalize expOf ((x : ℚ) * β) - ((max (bitLen x.natAbs) 64 : ℕ) : ℤ) = qe at hE
    constructor
    · have hfl : ((⌊(x : ℚ) * β⌋ : ℤ) : ℚ) ≤ (x : ℚ) * β := Int.floor_le _
      have := intCast_grid hE ⌊(x : ℚ) * β⌋
      rw [this] at hfl
      have hle := grid_le_rndAt _ hfl
      rw [← this] at hle
      have := truncQ_mono hle
      rwa [truncQ_intCast] at this
    · have hcl : (x : ℚ) * β ≤ ((⌈(x : ℚ) * β⌉ : ℤ) : ℚ) := Int.le_ceil _
      have := intCast_grid hE ⌈(x : ℚ) * β⌉
      rw [this] at hcl
      have hle := rndAt_le_grid _ hcl
      rw [← this] at hle
      have := truncQ_mono hle
      rwa [truncQ_intCast] at this

theorem specBuffer_nonneg {x : ℤ} {β : ℚ} (hx : 0 ≤ x) (h0 : 0 ≤ β) : 0 ≤ specBuffer x β := by
  unfold specBuffer
  apply truncQ_nonneg
  apply rndBits_nonneg
  exact mul_nonneg (by exact_mod_cast hx) h0

theorem specMaxFee_mono (b : ℤ) {tip1 tip2 : ℤ} {β : ℚ} (h0 : 0 ≤ β) (h1 : β ≤ 1)
    (h : tip1 ≤ tip2) : specMaxFee b tip1 β ≤ specMaxFee b tip2 β := by
  unfold specMaxFee
  rcases eq_or_lt_of_le h with heq | hlt
  · rw [heq]
  · have hA := (specBuffer_bounds (b + tip1) h0 h1).2
    have hB := (specBuffer_bounds (b + tip2) h0 h1).1
    have hfl : ⌊((b + tip1 : ℤ) : ℚ) * β⌋ ≤ ⌊((b + tip2 : ℤ) : ℚ) * β⌋ := by
      apply Int.floor_mono
      apply mul_le_mul_of_nonneg_right _ h0
      exact_mod_cast (by omega : b + tip1 ≤ b + tip2)
    have hcf := Int.ceil_le_floor_add_one (((b + tip1 : ℤ) : ℚ) * β)
    omega

theorem specMaxFee_ge_tip {b tip : ℤ} {β : ℚ} (hb : 0 ≤ b) (ht : 0 ≤ tip) (h0 : 0 ≤ β) :
    tip ≤ specMaxFee b tip β := by
  unfold specMaxFee
  have := specBuffer_nonneg (x := b + tip) (by omega) h0
  omega

theorem wrapInt64_of_range {u : ℤ} (h0 : -2 ^ 63 ≤ u) (h1 : u < 2 ^ 63) : wrapInt64 u = u := by
  unfold wrapInt64
  simp only
  split_ifs <;> omega

theorem wrapInt64_range (u : ℤ) : -2 ^ 63 ≤ wrapInt64 u ∧ wrapInt64 u < 2 ^ 63 := by
  unfold wrapInt64
  simp only
  split_ifs <;> omega

theorem bigInt64_of_range {x : ℤ} (h0 : 0 ≤ x) (h1 : x < 2 ^ 63) : bigInt64 x = x := by
  unfold bigInt64
  simp only
  rw [if_neg (by omega), Int.natAbs_of_nonneg h0]
  exact wrapInt64_of_range (by omega) h1

theorem bigInt64_of_int64 {x : ℤ} (h0 : -2 ^ 63 ≤ x) (h1 : x < 2 ^ 63) : bigInt64 x = x := by
  rcases le_or_lt 0 x with hx | hx
  · exact bigInt64_of_range hx h1
  · unfold bigInt64
    simp only
    rw [if_pos hx]
    have habs : (x.natAbs : ℤ) = -x := by omega
    rw [habs]
    unfold wrapInt64
    simp only
    split_ifs <;> omega

theorem toInt64_range (oor : F64 → ℤ) (x : F64) :
    -2 ^ 63 ≤ x.toInt64 oor ∧ x.toInt64 oor < 2 ^ 63 := by
  cases x with
  | nan => exact wrapInt64_range _
  | inf s => exact wrapInt64_range _
  | fin m e =>
    simp only [F64.toInt64]
    split_ifs with h
    · exact h
    · exact wrapInt64_range _

theorem specAdjustment_mono {c f1 f2 : ℚ} {s : ℤ} (hc : 0 ≤ c) (hf : 0 ≤ f1) (h : f1 ≤ f2)
    (hs0 : 0 ≤ s) (hs1 : s < 2 ^ 63) : specAdjustment c f1 s ≤ specAdjustment c f2 s := by
  unfold specAdjustment
  rw [bigInt64_of_range hs0 hs1]
  have hS : 0 ≤ rndDouble (s : ℚ) := rndDouble_nonneg (by exact_mod_cast hs0)
  have h1 : rndDouble (c * f1) ≤ rndDouble (c * f2) :=
    rndDouble_mono_nonneg (mul_nonneg hc hf) (mul_le_mul_of_nonneg_left h hc)
  have h2 : 0 ≤ rndDouble (c * f1) := rndDouble_nonneg (mul_nonneg hc hf)
  apply truncQ_mono
  apply rndBits_mono_nonneg 53 (by norm_num) (mul_nonneg h2 hS)
  exact mul_le_mul_of_nonneg_right h1 hS

theorem specPriorityFee_mono {t h : ℤ} {c f1 f2 : ℚ} (M : ℤ) (hc : 0 ≤ c) (hf : 0 ≤ f1)
    (hle : f1 ≤ f2) (ht0 : 0 ≤ t) (ht1 : t < 2 ^ 63) (hh : h < 2 ^ 63) :
    specPriorityFee t h c f1 M ≤ specPriorityFee t h c f2 M := by
  unfold specPriorityFee
  have := specAdjustment_mono (s := max t h) hc hf hle (le_max_of_le_left ht0) (max_lt ht1 hh)
  exact min_le_min (by omega) le_rfl

theorem legacy_fees_eq {m : Client} {a : Answers} {price : ℤ}
    (h : GetSuggestedLegacyFees m a = .ok price) :
    ∃ g f c β, a.SuggestGasPrice = .ok g ∧
      getAdjustmentFactor m.GasEstimationTxPriority = .ok f ∧
      a.CongestionMetric = .ok c ∧
      getBufferPercent (classifyCongestion c) = .ok β ∧
      price = min (g + specAdjustment c.toRat f.toRat g) m.GasEsimationMaxGasPrice
        + specBuffer (min (g + specAdjustment c.toRat f.toRat g) m.GasEsimationMaxGasPrice)
            β.toRat := by
  unfold GetSuggestedLegacyFees at h
  split at h
  · simp at h
  · rename_i g hg
    split at h
    · simp at h
    · rename_i f hf
      split at h
      · simp at h
      · rename_i c hc
        simp only at h
        split at h
        · simp at h
        · rename_i adj hadj
          split at h
          · simp at h
          · rename_i β hβ
            split at h
            · simp at h
            · rename_i buf hbuf
              simp only [Res.ok.injEq] at h
              obtain ⟨-, -, hadj'⟩ := congestionAdjustmentInt_spec hadj
              obtain ⟨-, hbuf'⟩ := bufferInt_eq hbuf
              refine ⟨g, f, c, β, hg, hf, hc, hβ, ?_⟩
              simp only [ite_gt_eq_min] at h hbuf'
              rw [← h, hbuf', hadj']

/-! ## The fee suggestions -/

set_option maxRecDepth 8000

theorem round_15_10 : F64.round 15 10 = .fin 6755399441055744 (-52) := by decide
theorem round_12_10 : F64.round 12 10 = .fin 5404319552844595 (-52) := by decide
theorem round_10_10 : F64.round 10 10 = .fin 4503599627370496 (-52) := by decide
theorem round_8_10 : F64.round 8 10 = .fin 7205759403792794 (-53) := by decide
theorem round_5_100 : F64.round 5 100 = .fin 7205759403792794 (-57) := by decide
theorem round_10_100 : F64.round 10 100 = .fin 7205759403792794 (-56) := by decide
theorem round_15_100 : F64.round 15 100 = .fin 5404319552844595 (-55) := by decide
theorem round_20_100 : F64.round 20 100 = .fin 7205759403792794 (-55) := by decide

theorem getAdjustmentFactor_ok {p : String} {f : F64} (h : getAdjustmentFactor p = .ok f) :
    (p = Priority_Ultra ∧ f = .fin 6755399441055744 (-52)) ∨
    (p = Priority_Fast ∧ f = .fin 5404319552844595 (-52)) ∨
    (p = Priority_Standard ∧ f = .fin 4503599627370496 (-52)) ∨
    (p = Priority_Slow ∧ f = .fin 7205759403792794 (-53)) := by
  unfold getAdjustmentFactor at h
  rw [round_15_10, round_12_10, round_10_10, round_8_10] at h
  split_ifs at h with h1 h2 h3 h4
  · left; exact ⟨h1, (Except.ok.inj h).symm⟩
  · right; left; exact ⟨h2, (Except.ok.inj h).symm⟩
  · right; right; left; exact ⟨h3, (Except.ok.inj h).symm⟩
  · right; right; right; exact ⟨h4, (Except.ok.inj h).symm⟩

theorem getBufferPercent_ok {cl : String} {β : F64} (h : getBufferPercent cl = .ok β) :
    0 ≤ β.toRat ∧ β.toRat ≤ 1 := by
  unfold getBufferPercent at h
  rw [round_5_100, round_10_100, round_15_100, round_20_100] at h
  split_ifs at h <;> (rw [← Except.ok.inj h]; simp only [F64.toRat]; norm_num)

theorem adjustmentFactor_mono {p1 p2 : String} {f1 f2 : F64}
    (h1 : getAdjustmentFactor p1 = .ok f1) (h2 : getAdjustmentFactor p2 = .ok f2)
    (hr : priorityRank p1 ≤ priorityRank p2) : 0 ≤ f1.toRat ∧ f1.toRat ≤ f2.toRat := by
  have d1 : Priority_Ultra ≠ Priority_Fast := by decide
  have d2 : Priority_Ultra ≠ Priority_Standard := by decide
  have d3 : Priority_Ultra ≠ Priority_Slow := by decide
  have d4 : Priority_Fast ≠ Priority_Standard := by decide
  have d5 : Priority_Fast ≠ Priority_Slow := by decide
  have d6 : Priority_Standard ≠ Priority_Slow := by decide
  rcases getAdjustmentFactor_ok h1 with ⟨hp1, hf1⟩ | ⟨hp1, hf1⟩ | ⟨hp1, hf1⟩ | ⟨hp1, hf1⟩ <;>
  rcases getAdjustmentFactor_ok h2 with ⟨hp2, hf2⟩ | ⟨hp2, hf2⟩ | ⟨hp2, hf2⟩ | ⟨hp2, hf2⟩ <;>
  subst hp1 hp2 hf1 hf2 <;>
  simp [priorityRank, d1, d2, d3, d4, d5, d6, d1.symm, d2.symm, d3.symm, d4.symm, d5.symm,
    d6.symm] at hr <;>
  (simp only [F64.toRat]; norm_num)

/-- C1, counterexample.  Live tip `2 ^ 53 + 1`, historical tip and base fee `0`,
congestion metric `1.0`, priority standard (factor `1.0`), tip cap `2 ^ 62`: the code
returns the priority fee `2 ^ 54 + 1`, the exact formula `min(s + trunc(s*c*f), M)`
gives `2 ^ 54 + 2`, because `float64(s)` rounds `2 ^ 53 + 1` to `2 ^ 53`. -/
theorem eip1559_exact_formula_fails :
    (GetSuggestedEIP1559Fees ⟨Priority_Standard, 2 ^ 62, 0, []⟩
        (sampleAnswers 9007199254740993 F64.zero (F64.ofInt 1))).1
      = .ok (21617278211378382, 18014398509481985) ∧
    claimPriorityFee 9007199254740993 F64.zero.toRat (F64.ofInt 1).toRat
        (F64.round 10 10).toRat (2 ^ 62) = 18014398509481986 ∧
    (18014398509481985 : ℤ) ≠ 18014398509481986 := by
  refine ⟨by decide, ?_, by decide⟩
  have h1 : F64.ofInt 1 = .fin 4503599627370496 (-52) := by decide
  have hc : (F64.ofInt 1).toRat = 1 := by rw [h1]; simp only [F64.toRat]; norm_num
  have hf : (F64.round 10 10).toRat = 1 := by rw [round_10_10]; simp only [F64.toRat]; norm_num
  have hz : F64.zero.toRat = 0 := by simp [F64.zero, F64.toRat]
  have ht : truncQ 0 = 0 := by simpa using truncQ_intCast 0
  rw [hc, hf, hz]
  unfold claimPriorityFee
  rw [ht, mul_one, mul_one, truncQ_intCast]
  decide

/-- C1, amended.  Every successful `GetSuggestedEIP1559Fees` call with a live tip
`t < 2 ^ 63`, historical tip `h` and base fee `b` at the configured priority `P`,
congestion metric `c` of class `C` and tip cap `M` returns
`max_priority_fee = min(s + trunc(R53(D(c * f(P)) * D(s))), M)` with
`s = max(t, int64(h))`, and `max_fee = base_max + trunc(Rp(base_max * beta(C)))` with
`base_max = int64(b) + max_priority_fee` and `p = max(bitlen(base_max), 64)`: the
formula of the claim with the products taken in floating point, `D` rounding to a double
and `Rp` to `p` significant bits, ties to even; `f(P)` and `beta(C)` are the doubles
returned by `getAdjustmentFactor` and `getBufferPercent`, and `int64(h)` is `trunc(h)`
whenever that fits an `int64`. -/
theorem eip1559_fees_formula (m : Client) (a : Answers) (fee tip : ℤ) (m' : Client) (t : ℤ)
    (h : GetSuggestedEIP1559Fees m a = (.ok (fee, tip), m'))
    (ht : a.SuggestGasTipCap = .ok t) (hrange : t < 2 ^ 63) :
    ∃ f c β, getAdjustmentFactor m.GasEstimationTxPriority = .ok f ∧
      a.CongestionMetric = .ok c ∧
      getBufferPercent (classifyCongestion c) = .ok β ∧
      tip = min
        (max t ((HistoricalFeeData m a.Stats m.GasEstimationTxPriority).1.2.1.toInt64
            a.int64OutOfRange)
          + truncQ (rndBits 53 (rndDouble (c.toRat * f.toRat)
              * rndDouble ((max t
                  ((HistoricalFeeData m a.Stats m.GasEstimationTxPriority).1.2.1.toInt64
                    a.int64OutOfRange) : ℤ) : ℚ))))
        m.GasEsimationMaxGasTipCap ∧
      fee = ((HistoricalFeeData m a.Stats m.GasEstimationTxPriority).1.1.toInt64
            a.int64OutOfRange + tip)
          + truncQ (rndBits
              (max (bitLen ((HistoricalFeeData m a.Stats m.GasEstimationTxPriority).1.1.toInt64
                a.int64OutOfRange + tip).natAbs) 64)
              ((((HistoricalFeeData m a.Stats m.GasEstimationTxPriority).1.1.toInt64
                a.int64OutOfRange + tip : ℤ) : ℚ) * β.toRat)) := by
  obtain ⟨t', f, c, β, h1, h2, h3, h4, -, h5, h6⟩ := eip1559_fees_eq h
  rw [ht] at h1
  have ht' : t' = t := (Except.ok.inj h1).symm
  subst ht'
  refine ⟨f, c, β, h2, h3, h4, ?_, ?_⟩
  · rw [h5]
    unfold specPriorityFee specAdjustment
    have hr := toInt64_range a.int64OutOfRange
      (HistoricalFeeData m a.Stats m.GasEstimationTxPriority).1.2.1
    rw [bigInt64_of_int64 (le_max_of_le_right hr.1) (max_lt hrange hr.2)]
  · rw [h6]
    rfl

/-- C1, witness: live tip 100, historical tip 120 and base fee 120, congestion metric
`0.5`, priority fast, tip cap 1000: the fees are `(343, 192)`. -/
theorem eip1559_fees_formula_witness :
    ∃ f c β, getAdjustmentFactor Priority_Fast = .ok f ∧
      (sampleAnswers 100 (F64.ofInt 120) (F64.round 1 2)).CongestionMetric = .ok c ∧
      getBufferPercent (classifyCongestion c) = .ok β ∧
      (192 : ℤ) = min
        (max 100 ((HistoricalFeeData ⟨Priority_Fast, 1000, 0, []⟩
            (sampleAnswers 100 (F64.ofInt 120) (F64.round 1 2)).Stats Priority_Fast).1.2.1.toInt64
            (sampleAnswers 100 (F64.ofInt 120) (F64.round 1 2)).int64OutOfRange)
          + truncQ (rndBits 53 (rndDouble (c.toRat * f.toRat)
              * rndDouble ((max 100
                  ((HistoricalFeeData ⟨Priority_Fast, 1000, 0, []⟩
                    (sampleAnswers 100 (F64.ofInt 120) (F64.round 1 2)).Stats
                      Priority_Fast).1.2.1.toInt64
                    (sampleAnswers 100 (F64.ofInt 120) (F64.round 1 2)).int64OutOfRange) : ℤ)
                  : ℚ))))
        1000 ∧
      (343 : ℤ) = ((HistoricalFeeData ⟨Priority_Fast, 1000, 0, []⟩
            (sampleAnswers 100 (F64.ofInt 120) (F64.round 1 2)).Stats Priority_Fast).1.1.toInt64
            (sampleAnswers 100 (F64.ofInt 120) (F64.round 1 2)).int64OutOfRange + 192)
          + truncQ (rndBits
              (max (bitLen ((HistoricalFeeData ⟨Priority_Fast, 1000, 0, []⟩
                (sampleAnswers 100 (F64.ofInt 120) (F64.round 1 2)).Stats
                  Priority_Fast).1.1.toInt64
                (sampleAnswers 100 (F64.ofInt 120) (F64.round 1 2)).int64OutOfRange
                  + 192).natAbs) 64)
              ((((HistoricalFeeData ⟨Priority_Fast, 1000, 0, []⟩
                (sampleAnswers 100 (F64.ofInt 120) (F64.round 1 2)).Stats
                  Priority_Fast).1.1.toInt64
                (sampleAnswers 100 (F64.ofInt 120) (F64.round 1 2)).int64OutOfRange + 192 : ℤ)
                  : ℚ) * β.toRat)) :=
  eip1559_fees_formula ⟨Priority_Fast, 1000, 0, []⟩
    (sampleAnswers 100 (F64.ofInt 120) (F64.round 1 2)) 343 192 ⟨Priority_Fast, 1000, 0, []⟩ 100
    (by decide) rfl (by decide)

/-- C2.  Every fee plan emitted by `GetSuggestedEIP1559Fees` has a priority fee that
does not exceed the configured maximum tip cap, whatever the live tip, the historical
tip, the congestion metric and the priority. -/
theorem eip1559_tip_le_cap (m : Client) (a : Answers) (fee tip : ℤ) (m' : Client)
    (h : GetSuggestedEIP1559Fees m a = (.ok (fee, tip), m')) :
    tip ≤ m.GasEsimationMaxGasTipCap := by
  obtain ⟨t, f, c, β, -, -, -, -, -, h5, -⟩ := eip1559_fees_eq h
  rw [h5]
  exact min_le_right _ _

/-- C2, witness: live tip 100, historical tip 120, congestion `0.5`, priority fast and
tip cap 150: the priority fee is the cap. -/
theorem eip1559_tip_le_cap_witness :
    GetSuggestedEIP1559Fees ⟨Priority_Fast, 150, 0, []⟩
        (sampleAnswers 100 (F64.ofInt 120) (F64.round 1 2))
      = (.ok (297, 150), ⟨Priority_Fast, 150, 0, []⟩) ∧ (150 : ℤ) ≤ 150 :=
  ⟨by decide, eip1559_tip_le_cap ⟨Priority_Fast, 150, 0, []⟩
    (sampleAnswers 100 (F64.ofInt 120) (F64.round 1 2)) 297 150 ⟨Priority_Fast, 150, 0, []⟩
    (by decide)⟩

/-- C3, counterexample.  With the tip cap `-100`, live tip, historical data and
congestion `0`, the code emits the priority fee `-100` and the maximum fee `-105`,
which is smaller. -/
theorem eip1559_fee_below_tip :
    (GetSuggestedEIP1559Fees ⟨Priority_Standard, -100, 0, []⟩
        (sampleAnswers 0 F64.zero F64.zero)).1 = .ok (-105, -100) ∧ (-105 : ℤ) < -100 := by
  refine ⟨by decide, by decide⟩

/-- C3, amended.  For every fee plan emitted by `GetSuggestedEIP1559Fees` whose priority
fee is non-negative, the historical base fee `int64(b)` being non-negative as well, the
returned maximum fee is greater than or equal to the returned priority fee. -/
theorem eip1559_fee_ge_tip (m : Client) (a : Answers) (fee tip : ℤ) (m' : Client)
    (h : GetSuggestedEIP1559Fees m a = (.ok (fee, tip), m'))
    (hb : 0 ≤ (HistoricalFeeData m a.Stats m.GasEstimationTxPriority).1.1.toInt64
      a.int64OutOfRange)
    (ht : 0 ≤ tip) : tip ≤ fee := by
  obtain ⟨t, f, c, β, -, -, -, h4, -, -, h6⟩ := eip1559_fees_eq h
  rw [h6]
  exact specMaxFee_ge_tip hb ht (getBufferPercent_ok h4).1

/-- C3, witness: live tip 100, historical tip and base fee 120, congestion `0.5`,
priority fast, tip cap 1000. -/
theorem eip1559_fee_ge_tip_witness :
    GetSuggestedEIP1559Fees ⟨Priority_Fast, 1000, 0, []⟩
        (sampleAnswers 100 (F64.ofInt 120) (F64.round 1 2))
      = (.ok (343, 192), ⟨Priority_Fast, 1000, 0, []⟩) ∧
    0 ≤ (HistoricalFeeData ⟨Priority_Fast, 1000, 0, []⟩
        (sampleAnswers 100 (F64.ofInt 120) (F64.round 1 2)).Stats Priority_Fast).1.1.toInt64
          (sampleAnswers 100 (F64.ofInt 120) (F64.round 1 2)).int64OutOfRange ∧
    (0 : ℤ) ≤ 192 ∧ (192 : ℤ) ≤ 343 :=
  ⟨by decide, by decide, by decide,
    eip1559_fee_ge_tip ⟨Priority_Fast, 1000, 0, []⟩
      (sampleAnswers 100 (F64.ofInt 120) (F64.round 1 2)) 343 192 ⟨Priority_Fast, 1000, 0, []⟩
      (by decide) (by decide) (by decide)⟩

/-- C4, counterexample.  With the live tip `2 ^ 63`, whose `Int64()` value is
`-2 ^ 63`, congestion `0.5` and everything else equal, priority slow yields the fees
`(6087425544324151838, 5534023222112865280)` and priority ultra the smaller fees
`(2536427310135063360, 2305843009213693952)`. -/
theorem eip1559_priority_not_monotone :
    (GetSuggestedEIP1559Fees ⟨Priority_Slow, 2 ^ 63 - 1, 0, []⟩
        (sampleAnswers (2 ^ 63) F64.zero (F64.round 1 2))).1
      = .ok (6087425544324151838, 5534023222112865280) ∧
    (GetSuggestedEIP1559Fees ⟨Priority_Ultra, 2 ^ 63 - 1, 0, []⟩
        (sampleAnswers (2 ^ 63) F64.zero (F64.round 1 2))).1
      = .ok (2536427310135063360, 2305843009213693952) ∧
    (2305843009213693952 : ℤ) < 5534023222112865280 ∧
    (2536427310135063360 : ℤ) < 6087425544324151838 := by
  refine ⟨by decide, by decide, by decide, by decide⟩

/-- C4, amended.  For a live tip `0 ≤ t < 2 ^ 63` and a non-negative congestion metric,
all else equal (same live tip, same historical tip and base fee, same congestion metric,
same tip cap), both the priority fee and the maximum fee returned by
`GetSuggestedEIP1559Fees` are monotone non-decreasing as the priority goes Slow,
Standard, Fast, Ultra. -/
theorem eip1559_priority_monotone (m1 m2 : Client) (a1 a2 : Answers) (t : ℤ) (c : F64)
    (fee1 tip1 fee2 tip2 : ℤ) (m1' m2' : Client)
    (htip1 : a1.SuggestGasTipCap = .ok t) (htip2 : a2.SuggestGasTipCap = .ok t)
    (hc1 : a1.CongestionMetric = .ok c) (hc2 : a2.CongestionMetric = .ok c)
    (hoor : a1.int64OutOfRange = a2.int64OutOfRange)
    (hhist : (HistoricalFeeData m1 a1.Stats m1.GasEstimationTxPriority).1
      = (HistoricalFeeData m2 a2.Stats m2.GasEstimationTxPriority).1)
    (hcap : m1.GasEsimationMaxGasTipCap = m2.GasEsimationMaxGasTipCap)
    (hrank : priorityRank m1.GasEstimationTxPriority ≤ priorityRank m2.GasEstimationTxPriority)
    (ht0 : 0 ≤ t) (ht1 : t < 2 ^ 63) (hc0 : 0 ≤ c.toRat)
    (h1 : GetSuggestedEIP1559Fees m1 a1 = (.ok (fee1, tip1), m1'))
    (h2 : GetSuggestedEIP1559Fees m2 a2 = (.ok (fee2, tip2), m2')) :
    tip1 ≤ tip2 ∧ fee1 ≤ fee2 := by
  obtain ⟨t1, f1, c1, β1, e1, hf1, ec1, hb1, -, ht1', hfee1⟩ := eip1559_fees_eq h1
  obtain ⟨t2, f2, c2, β2, e2, hf2, ec2, hb2, -, ht2', hfee2⟩ := eip1559_fees_eq h2
  rw [htip1] at e1
  rw [htip2] at e2
  rw [hc1] at ec1
  rw [hc2] at ec2
  have et1 : t1 = t := (Except.ok.inj e1).symm
  have et2 : t2 = t := (Except.ok.inj e2).symm
  have ec1' : c1 = c := (Except.ok.inj ec1).symm
  have ec2' : c2 = c := (Except.ok.inj ec2).symm
  subst et1 et2 ec1' ec2'
  rw [hb1] at hb2
  have hβ : β2 = β1 := (Except.ok.inj hb2).symm
  subst hβ
  obtain ⟨hf0, hfle⟩ := adjustmentFactor_mono hf1 hf2 hrank
  rw [← hhist, ← hoor, ← hcap] at ht2'
  rw [← hhist, ← hoor] at hfee2
  have htip : tip1 ≤ tip2 := by
    rw [ht1', ht2']
    exact specPriorityFee_mono _ hc0 hf0 hfle ht0 ht1 (toInt64_range _ _).2
  refine ⟨htip, ?_⟩
  rw [hfee1, hfee2]
  exact specMaxFee_mono _ (getBufferPercent_ok hb1).1 (getBufferPercent_ok hb1).2 htip

/-- C4, witness: live tip 100, historical tip and base fee 120, congestion `0.5`, tip
cap 1000: priority slow yields `(316, 168)`, priority ultra `(363, 210)`. -/
theorem eip1559_priority_monotone_witness :
    (168 : ℤ) ≤ 210 ∧ (316 : ℤ) ≤ 363 :=
  eip1559_priority_monotone ⟨Priority_Slow, 1000, 0, []⟩ ⟨Priority_Ultra, 1000, 0, []⟩
    (sampleAnswers 100 (F64.ofInt 120) (F64.round 1 2))
    (sampleAnswers 100 (F64.ofInt 120) (F64.round 1 2)) 100 (F64.round 1 2)
    316 168 363 210 ⟨Priority_Slow, 1000, 0, []⟩ ⟨Priority_Ultra, 1000, 0, []⟩
    rfl rfl rfl rfl rfl (by decide) rfl (by decide) (by decide) (by decide)
    (by rw [show F64.round 1 2 = .fin 4503599627370496 (-53) from by decide]
        simp only [F64.toRat]; norm_num)
    (by decide) (by decide)

/-- C5, counterexample.  With the node's gas price 100, no congestion and the maximum
gas price 100, `GetSuggestedLegacyFees` returns 105: the 5% buffer is added after the
clamp. -/
theorem legacy_price_exceeds_cap :
    GetSuggestedLegacyFees ⟨Priority_Standard, 0, 100, []⟩ (sampleAnswers 100 F64.zero F64.zero)
      = .ok 105 ∧ (100 : ℤ) < 105 := by
  refine ⟨by decide, by decide⟩

/-- C5, amended.  For every legacy fee plan emitted by `GetSuggestedLegacyFees`, the
gas price is capped by the configured maximum gas price before the congestion buffer is
added: the returned price is `p + buffer(p)` for a clamped price `p ≤ max_gas_price`, so
it never exceeds `max_gas_price + buffer(max_gas_price)`, where
`buffer(x) = trunc(Rp(x * beta(C)))`. -/
theorem legacy_price_capped_before_buffer (m : Client) (a : Answers) (price : ℤ)
    (h : GetSuggestedLegacyFees m a = .ok price) :
    ∃ p c β, a.CongestionMetric = .ok c ∧
      getBufferPercent (classifyCongestion c) = .ok β ∧
      p ≤ m.GasEsimationMaxGasPrice ∧
      price = p + specBuffer p β.toRat ∧
      price ≤ m.GasEsimationMaxGasPrice + specBuffer m.GasEsimationMaxGasPrice β.toRat := by
  obtain ⟨g, f, c, β, -, -, hc, hβ, hp⟩ := legacy_fees_eq h
  refine ⟨_, c, β, hc, hβ, min_le_right _ _, hp, ?_⟩
  have := specMaxFee_mono 0 (getBufferPercent_ok hβ).1 (getBufferPercent_ok hβ).2
    (min_le_right (g + specAdjustment c.toRat f.toRat g) m.GasEsimationMaxGasPrice)
  simp only [specMaxFee, zero_add] at this
  rw [hp]
  exact this

/-- C5, witness: the call of the counterexample, price 105 for the cap 100. -/
theorem legacy_price_capped_before_buffer_witness :
    ∃ p c β, (sampleAnswers 100 F64.zero F64.zero).CongestionMetric = .ok c ∧
      getBufferPercent (classifyCongestion c) = .ok β ∧
      p ≤ (100 : ℤ) ∧
      (105 : ℤ) = p + specBuffer p β.toRat ∧
      (105 : ℤ) ≤ 100 + specBuffer 100 β.toRat :=
  legacy_price_capped_before_buffer ⟨Priority_Standard, 0, 100, []⟩
    (sampleAnswers 100 F64.zero F64.zero) 105 (by decide)

/-! ## Congestion classes, factors and percentiles -/

theorem dyadic_grid (m : ℤ) {k e : ℤ} (h : k ≤ e) :
    (m : ℚ) * (2 : ℚ) ^ e = ((m * (2 : ℤ) ^ (e - k).toNat : ℤ) : ℚ) * (2 : ℚ) ^ k := by
  rw [two_zpow_grid h]
  push_cast
  ring

theorem lt_fin_iff (m1 e1 m2 e2 : ℤ) :
    (F64.fin m1 e1).lt (.fin m2 e2) = true ↔ (m1 : ℚ) * (2 : ℚ) ^ e1 < (m2 : ℚ) * (2 : ℚ) ^ e2 := by
  have hk : (0 : ℚ) < (2 : ℚ) ^ (min e1 e2) := by positivity
  simp only [F64.lt, decide_eq_true_eq]
  rw [dyadic_grid m1 (min_le_left e1 e2), dyadic_grid m2 (min_le_right e1 e2),
    mul_lt_mul_right hk, Int.cast_lt]

theorem le_fin_iff (m1 e1 m2 e2 : ℤ) :
    (F64.fin m1 e1).le (.fin m2 e2) = true ↔ (m1 : ℚ) * (2 : ℚ) ^ e1 ≤ (m2 : ℚ) * (2 : ℚ) ^ e2 := by
  have hk : (0 : ℚ) < (2 : ℚ) ^ (min e1 e2) := by positivity
  simp only [F64.le, decide_eq_true_eq]
  rw [dyadic_grid m1 (min_le_left e1 e2), dyadic_grid m2 (min_le_right e1 e2),
    mul_le_mul_right hk, Int.cast_le]

theorem round_33_100 : F64.round 33 100 = .fin 5944751508129055 (-54) := by decide
theorem round_66_100 : F64.round 66 100 = .fin 5944751508129055 (-53) := by decide
theorem round_75_100 : F64.round 75 100 = .fin 6755399441055744 (-53) := by decide

/-- The class of a finite double, by the position of its value among the thresholds. -/
theorem classifyCongestion_fin (m e : ℤ) :
    classifyCongestion (.fin m e) =
      if (m : ℚ) * (2 : ℚ) ^ e < 5944751508129055 * (2 : ℚ) ^ (-54 : ℤ) then Congestion_Low
      else if (m : ℚ) * (2 : ℚ) ^ e ≤ 5944751508129055 * (2 : ℚ) ^ (-53 : ℤ) then Congestion_Medium
      else if (m : ℚ) * (2 : ℚ) ^ e ≤ 6755399441055744 * (2 : ℚ) ^ (-53 : ℤ) then Congestion_High
      else Congestion_Ultra := by
  unfold classifyCongestion
  rw [round_33_100, round_66_100, round_75_100]
  have a := lt_fin_iff m e 5944751508129055 (-54)
  have b := le_fin_iff m e 5944751508129055 (-53)
  have c := le_fin_iff m e 6755399441055744 (-53)
  push_cast at a b c
  by_cases h1 : (F64.fin m e).lt (F64.fin 5944751508129055 (-54)) = true
  · rw [if_pos h1, if_pos (a.1 h1)]
  · rw [if_neg h1, if_neg (fun h => h1 (a.2 h))]
    by_cases h2 : (F64.fin m e).le (F64.fin 5944751508129055 (-53)) = true
    · rw [if_pos h2, if_pos (b.1 h2)]
    · rw [if_neg h2, if_neg (fun h => h2 (b.2 h))]
      by_cases h3 : (F64.fin m e).le (F64.fin 6755399441055744 (-53)) = true
      · rw [if_pos h3, if_pos (c.1 h3)]
      · rw [if_neg h3, if_neg (fun h => h3 (c.2 h))]

theorem congestion_names_nodup :
    [Congestion_Low, Congestion_Medium, Congestion_High, Congestion_Ultra].Nodup := by decide

theorem classify_cases (v A B C : ℚ) (L M H U : String) (hAB : A < B) :
    (v < A → (if v < A then L else if v ≤ B then M else if v ≤ C then H else U) = L) ∧
    (A ≤ v ∧ v ≤ B → (if v < A then L else if v ≤ B then M else if v ≤ C then H else U) = M) ∧
    (B < v ∧ v ≤ C → (if v < A then L else if v ≤ B then M else if v ≤ C then H else U) = H) ∧
    (¬ v < A → ¬ (A ≤ v ∧ v ≤ B) → ¬ (B < v ∧ v ≤ C) →
      (if v < A then L else if v ≤ B then M else if v ≤ C then H else U) = U) ∧
    ¬ (v < A ∧ (A ≤ v ∧ v ≤ B)) ∧
    ¬ (v < A ∧ (B < v ∧ v ≤ C)) ∧
    ¬ ((A ≤ v ∧ v ≤ B) ∧ (B < v ∧ v ≤ C)) := by
  refine ⟨?_, ?_, ?_, ?_, ?_, ?_, ?_⟩
  · intro h; rw [if_pos h]
  · intro h; rw [if_neg (not_lt.2 h.1), if_pos h.2]
  · intro h
    rw [if_neg (not_lt.2 (hAB.le.trans h.1.le)), if_neg (not_le.2 h.1), if_pos h.2]
  · intro h1 h2 h3
    have c2 : ¬ v ≤ B := fun c => h2 ⟨not_lt.1 h1, c⟩
    have c3 : ¬ v ≤ C := fun c => h3 ⟨not_le.1 c2, c⟩
    rw [if_neg h1, if_neg c2, if_neg c3]
  · intro h; linarith [h.1, h.2.1]
  · intro h; linarith [h.1, h.2.1]
  · intro h; linarith [h.1.2, h.2.1]

/-- C6.  For every congestion metric `x` (a double; the thresholds are the doubles the
literals `0.33`, `0.66`, `0.75` denote, compared as Go compares doubles),
`classifyCongestion x` is Low when `x < 0.33`, Medium when `0.33 <= x <= 0.66`, High when
`0.66 < x <= 0.75`, and Ultra otherwise (NaN included); the three conditions exclude one
another and the four class names are distinct, so exactly one class applies. -/
theorem classifyCongestion_thresholds (x : F64) :
    (x.lt (F64.round 33 100) = true → classifyCongestion x = Congestion_Low) ∧
    ((F64.round 33 100).le x = true ∧ x.le (F64.round 66 100) = true →
      classifyCongestion x = Congestion_Medium) ∧
    ((F64.round 66 100).lt x = true ∧ x.le (F64.round 75 100) = true →
      classifyCongestion x = Congestion_High) ∧
    (¬ x.lt (F64.round 33 100) = true →
      ¬ ((F64.round 33 100).le x = true ∧ x.le (F64.round 66 100) = true) →
      ¬ ((F64.round 66 100).lt x = true ∧ x.le (F64.round 75 100) = true) →
      classifyCongestion x = Congestion_Ultra) ∧
    ¬ (x.lt (F64.round 33 100) = true ∧
        ((F64.round 33 100).le x = true ∧ x.le (F64.round 66 100) = true)) ∧
    ¬ (x.lt (F64.round 33 100) = true ∧
        ((F64.round 66 100).lt x = true ∧ x.le (F64.round 75 100) = true)) ∧
    ¬ (((F64.round 33 100).le x = true ∧ x.le (F64.round 66 100) = true) ∧
        ((F64.round 66 100).lt x = true ∧ x.le (F64.round 75 100) = true)) ∧
    [Congestion_Low, Congestion_Medium, Congestion_High, Congestion_Ultra].Nodup := by
  cases x with
  | nan =>
    refine ⟨?_, ?_, ?_, ?_, ?_, ?_, ?_, congestion_names_nodup⟩ <;>
      simp [classifyCongestion, F64.lt, F64.le, round_33_100, round_66_100, round_75_100]
  | inf s =>
    refine ⟨?_, ?_, ?_, ?_, ?_, ?_, ?_, congestion_names_nodup⟩ <;> cases s <;>
      simp [classifyCongestion, F64.lt, F64.le, round_33_100, round_66_100, round_75_100]
  | fin m e =>
    rw [classifyCongestion_fin]
    simp only [round_33_100, round_66_100, round_75_100, lt_fin_iff, le_fin_iff]
    push_cast
    have h := classify_cases ((m : ℚ) * (2 : ℚ) ^ e)
      (5944751508129055 * (2 : ℚ) ^ (-54 : ℤ)) (5944751508129055 * (2 : ℚ) ^ (-53 : ℤ))
      (6755399441055744 * (2 : ℚ) ^ (-53 : ℤ))
      Congestion_Low Congestion_Medium Congestion_High Congestion_Ultra (by norm_num)
    exact ⟨h.1, h.2.1, h.2.2.1, h.2.2.2.1, h.2.2.2.2.1, h.2.2.2.2.2.1, h.2.2.2.2.2.2,
      congestion_names_nodup⟩

/-- C6, witness: the metric `0.5` lies between the doubles `0.33` and `0.66` and is
classified Medium. -/
theorem classifyCongestion_thresholds_witness :
    classifyCongestion (F64.round 1 2) = Congestion_Medium :=
  (classifyCongestion_thresholds (F64.round 1 2)).2.1 ⟨by decide, by decide⟩

theorem classifyCongestion_mem (x : F64) :
    classifyCongestion x = Congestion_Low ∨ classifyCongestion x = Congestion_Medium ∨
      classifyCongestion x = Congestion_High ∨ classifyCongestion x = Congestion_Ultra := by
  unfold classifyCongestion
  split_ifs <;> simp

theorem classifyCongestion_rank_mono {x y : F64} (h : x.le y = true) :
    congestionRank (classifyCongestion x) ≤ congestionRank (classifyCongestion y) := by
  cases x with
  | nan => simp [F64.le] at h
  | inf s =>
    cases y with
    | nan => simp [F64.le] at h
    | inf t =>
      cases s <;> cases t <;> simp [F64.le] at h <;>
        (simp [classifyCongestion, F64.lt, F64.le, round_33_100, round_66_100, round_75_100]
         try decide)
    | fin m e =>
      simp only [F64.le] at h
      subst h
      have : classifyCongestion (.inf true) = Congestion_Low := by
        simp [classifyCongestion, F64.lt, round_33_100]
      rw [this]
      simp [congestionRank]
  | fin m e =>
    cases y with
    | nan => simp [F64.le] at h
    | inf t =>
      simp only [F64.le, Bool.not_eq_true'] at h
      subst h
      have : classifyCongestion (.inf false) = Congestion_Ultra := by
        simp [classifyCongestion, F64.lt, F64.le, round_33_100, round_66_100, round_75_100]
      rw [this]
      rcases classifyCongestion_mem (.fin m e) with h | h | h | h <;> rw [h] <;> decide
    | fin m2 e2 =>
      rw [le_fin_iff] at h
      rw [classifyCongestion_fin, classifyCongestion_fin]
      generalize (m : ℚ) * (2 : ℚ) ^ e = v at h ⊢
      generalize (m2 : ℚ) * (2 : ℚ) ^ e2 = w at h ⊢
      have hAB : (5944751508129055 : ℚ) * (2 : ℚ) ^ (-54 : ℤ)
          < 5944751508129055 * (2 : ℚ) ^ (-53 : ℤ) := by norm_num
      have hBC : (5944751508129055 : ℚ) * (2 : ℚ) ^ (-53 : ℤ)
          < 6755399441055744 * (2 : ℚ) ^ (-53 : ℤ) := by norm_num
      generalize (5944751508129055 : ℚ) * (2 : ℚ) ^ (-54 : ℤ) = A at hAB ⊢
      generalize (5944751508129055 : ℚ) * (2 : ℚ) ^ (-53 : ℤ) = B at hAB hBC ⊢
      generalize (6755399441055744 : ℚ) * (2 : ℚ) ^ (-53 : ℤ) = C at hBC ⊢
      split_ifs <;> first | decide | (exfalso; linarith)

theorem getBufferPercent_rank_mono {c1 c2 : String} {β1 β2 : F64}
    (h1 : getBufferPercent c1 = .ok β1) (h2 : getBufferPercent c2 = .ok β2)
    (hr : congestionRank c1 ≤ congestionRank c2) : β1.le β2 = true := by
  have d1 : Congestion_Low ≠ Congestion_Medium := by decide
  have d2 : Congestion_Low ≠ Congestion_High := by decide
  have d3 : Congestion_Low ≠ Congestion_Ultra := by decide
  have d4 : Congestion_Medium ≠ Congestion_High := by decide
  have d5 : Congestion_Medium ≠ Congestion_Ultra := by decide
  have d6 : Congestion_High ≠ Congestion_Ultra := by decide
  unfold getBufferPercent at h1 h2
  rw [round_5_100, round_10_100, round_15_100, round_20_100] at h1 h2
  split_ifs at h1 with a1 a2 a3 a4 <;> split_ifs at h2 with b1 b2 b3 b4 <;>
    rw [← Except.ok.inj h1, ← Except.ok.inj h2] <;>
    first
      | decide
      | (exfalso
         subst_vars
         simp [congestionRank, d1, d2, d3, d4, d5, d6, d1.symm, d2.symm, d3.symm, d4.symm,
           d5.symm, d6.symm] at hr)

/-- C7.  `getBufferPercent` returns `0.05`, `0.10`, `0.15` and `0.20` (the doubles these
literals denote, each within `2 ^ (-56)` of the decimal) for the classes Low, Medium,
High and Ultra and an error for every other string; consequently for every congestion
metric `x`, `getBufferPercent (classifyCongestion x)` does not fail and is non-decreasing
in `x`. -/
theorem getBufferPercent_classes :
    getBufferPercent Congestion_Low = .ok (F64.round 5 100) ∧
    getBufferPercent Congestion_Medium = .ok (F64.round 10 100) ∧
    getBufferPercent Congestion_High = .ok (F64.round 15 100) ∧
    getBufferPercent Congestion_Ultra = .ok (F64.round 20 100) ∧
    |(F64.round 5 100).toRat - 5 / 100| ≤ (2 : ℚ) ^ (-56 : ℤ) ∧
    |(F64.round 10 100).toRat - 10 / 100| ≤ (2 : ℚ) ^ (-56 : ℤ) ∧
    |(F64.round 15 100).toRat - 15 / 100| ≤ (2 : ℚ) ^ (-56 : ℤ) ∧
    |(F64.round 20 100).toRat - 20 / 100| ≤ (2 : ℚ) ^ (-56 : ℤ) ∧
    (∀ s : String, s ≠ Congestion_Low → s ≠ Congestion_Medium → s ≠ Congestion_High →
      s ≠ Congestion_Ultra →
      getBufferPercent s = .error ("Unknown congestion classification: " ++ s)) ∧
    (∀ x : F64, ∃ β, getBufferPercent (classifyCongestion x) = .ok β) ∧
    (∀ (x y βx βy : F64), x.le y = true →
      getBufferPercent (classifyCongestion x) = .ok βx →
      getBufferPercent (classifyCongestion y) = .ok βy → βx.le βy = true) := by
  refine ⟨by decide, by decide, by decide, by decide, ?_, ?_, ?_, ?_, ?_, ?_, ?_⟩
  · rw [round_5_100]; simp only [F64.toRat]; rw [abs_le]; norm_num
  · rw [round_10_100]; simp only [F64.toRat]; rw [abs_le]; norm_num
  · rw [round_15_100]; simp only [F64.toRat]; rw [abs_le]; norm_num
  · rw [round_20_100]; simp only [F64.toRat]; rw [abs_le]; norm_num
  · intro s h1 h2 h3 h4
    simp [getBufferPercent, h1, h2, h3, h4]
  · intro x
    rcases classifyCongestion_mem x with h | h | h | h <;> rw [h]
    · exact ⟨F64.round 5 100, by decide⟩
    · exact ⟨F64.round 10 100, by decide⟩
    · exact ⟨F64.round 15 100, by decide⟩
    · exact ⟨F64.round 20 100, by decide⟩
  · intro x y βx βy hle hx hy
    exact getBufferPercent_rank_mono hx hy (classifyCongestion_rank_mono hle)

/-- C7, witness: the metrics `0.1` and `0.9` get the buffers `0.05` and `0.20`. -/
theorem getBufferPercent_classes_witness :
    (F64.round 5 100).le (F64.round 20 100) = true :=
  getBufferPercent_classes.2.2.2.2.2.2.2.2.2.2 (F64.round 1 10) (F64.round 9 10) (F64.round 5 100)
    (F64.round 20 100) (by decide) (by decide) (by decide)

/-- C8.  `getAdjustmentFactor` returns `1.5`, `1.2`, `1.0` and `0.8` (the doubles these
literals denote: `3/2` and `1` exactly, `1.2` and `0.8` to within `2 ^ (-54)`) for the
priorities ultra, fast, standard and slow, so the factor is monotone, Ultra >= Fast >=
Standard >= Slow; it returns an error if and only if the priority string is none of
these four. -/
theorem getAdjustmentFactor_priorities :
    getAdjustmentFactor Priority_Ultra = .ok (F64.round 15 10) ∧
    getAdjustmentFactor Priority_Fast = .ok (F64.round 12 10) ∧
    getAdjustmentFactor Priority_Standard = .ok (F64.round 10 10) ∧
    getAdjustmentFactor Priority_Slow = .ok (F64.round 8 10) ∧
    (F64.round 15 10).toRat = 3 / 2 ∧
    |(F64.round 12 10).toRat - 6 / 5| ≤ (2 : ℚ) ^ (-54 : ℤ) ∧
    (F64.round 10 10).toRat = 1 ∧
    |(F64.round 8 10).toRat - 4 / 5| ≤ (2 : ℚ) ^ (-54 : ℤ) ∧
    (F64.round 8 10).le (F64.round 10 10) = true ∧
    (F64.round 10 10).le (F64.round 12 10) = true ∧
    (F64.round 12 10).le (F64.round 15 10) = true ∧
    (∀ p : String, (∃ e, getAdjustmentFactor p = .error e) ↔
      (p ≠ Priority_Ultra ∧ p ≠ Priority_Fast ∧ p ≠ Priority_Standard ∧ p ≠ Priority_Slow)) := by
  refine ⟨by decide, by decide, by decide, by decide, ?_, ?_, ?_, ?_, by decide, by decide,
    by decide, ?_⟩
  · rw [round_15_10]; simp only [F64.toRat]; norm_num
  · rw [round_12_10]; simp only [F64.toRat]; rw [abs_le]; norm_num
  · rw [round_10_10]; simp only [F64.toRat]; norm_num
  · rw [round_8_10]; simp only [F64.toRat]; rw [abs_le]; norm_num
  · intro p
    unfold getAdjustmentFactor
    constructor
    · rintro ⟨e, he⟩
      split_ifs at he with h1 h2 h3 h4
      exact ⟨h1, h2, h3, h4⟩
    · rintro ⟨h1, h2, h3, h4⟩
      rw [if_neg h1, if_neg h2, if_neg h3, if_neg h4]
      exact ⟨_, rfl⟩

/-- C9.  For every successfully fetched statistics summary, `HistoricalFeeData` returns
as (base fee, tip) the maximum for priority ultra, the 99th percentile for fast, the
50th percentile for standard and the 25th percentile for slow, both values at the same
percentile, with no error, and leaves the client unchanged. -/
theorem HistoricalFeeData_percentiles (m : Client) (st : GasSuggestions) :
    HistoricalFeeData m (.ok st) Priority_Ultra
      = ((st.GasPrice.Max, st.TipCap.Max, none), m) ∧
    HistoricalFeeData m (.ok st) Priority_Fast
      = ((st.GasPrice.Perc99, st.TipCap.Perc99, none), m) ∧
    HistoricalFeeData m (.ok st) Priority_Standard
      = ((st.GasPrice.Perc50, st.TipCap.Perc50, none), m) ∧
    HistoricalFeeData m (.ok st) Priority_Slow
      = ((st.GasPrice.Perc25, st.TipCap.Perc25, none), m) := by
  have d1 : Priority_Fast ≠ Priority_Ultra := by decide
  have d2 : Priority_Standard ≠ Priority_Ultra := by decide
  have d3 : Priority_Slow ≠ Priority_Ultra := by decide
  have d4 : Priority_Standard ≠ Priority_Fast := by decide
  have d5 : Priority_Slow ≠ Priority_Fast := by decide
  have d6 : Priority_Slow ≠ Priority_Standard := by decide
  refine ⟨?_, ?_, ?_, ?_⟩ <;> simp [HistoricalFeeData, d1, d2, d3, d4, d5, d6]

/-- C10, the failing input.  On a list of exactly one block, whatever its gas used, gas
limit and base fee, the Simple strategy returns NaN: `calculateTrend` divides `0.0` by
`float64(len(blocks)-1) = 0.0`. -/
theorem simple_metric_single_block_nan (b : Block) :
    calculateSimpleNetworkCongestionMetric [b] = F64.nan := by
  have h0 : F64.ofInt 0 = .fin 0 0 := by decide
  have ht : calculateTrend [b] = F64.nan := by
    simp [calculateTrend, countIncreases, F64.zero, h0, F64.div]
  simp [calculateSimpleNetworkCongestionMetric, ht, F64.add, F64.div]

/-! ## The block window -/

set_option maxRecDepth 8000

theorem message_data_ne (s t : String) :
    "Unknown congestion strategy: " ++ s ≠
      "Failed to fetch enough blocks for congestion calculation. Wanted at least " ++ t := by
  intro h
  have h2 := congrArg String.data h
  simp only [String.data_append] at h2
  exact absurd h2 (by simp)

/-- C12 (failing input): on a chain with latest block 10 and a window of 3 the Simple
metric is computed on the slice as collected, not sorted: in loop order the blocks
10, 10, 9, 8 give 0.25, when the fetched blocks arrive in the reverse order the same
call gives another value, and the list sorted by number gives that other value too. -/
theorem simple_metric_depends_on_arrival :
    CalculateNetworkCongestionMetric (sampleChain 10 (fun _ => false) id) 3
        CongestionStrategy_Simple = .ok (.fin 4503599627370496 (-54)) ∧
    CalculateNetworkCongestionMetric (sampleChain 10 (fun _ => false) List.reverse) 3
        CongestionStrategy_Simple = .ok (.fin 5254199565265578 (-53)) ∧
    calculateSimpleNetworkCongestionMetric
        (sortBlocks (collectedBlocks (sampleChain 10 (fun _ => false) id)
          (sampleBlock 10 10) 10 3)) = .fin 5254199565265578 (-53) ∧
    (sortBlocks (collectedBlocks (sampleChain 10 (fun _ => false) id)
          (sampleBlock 10 10) 10 3)).map Block.Number = [8, 9, 10, 10] := by
  decide

/-- C13 (failing input): with latest block 10, window 3 and every fetch succeeding, the
slice handed to the metric holds the numbers 10, 10, 9, 8: the latest block occurs
twice.  With latest block 3 and window 3 it holds 3, 3, 2: block 1 is missing. -/
theorem window_repeats_latest_block :
    (sampleChain 10 (fun _ => false) id).getBlockData (wrapInt64 10) = .ok (sampleBlock 10 10) ∧
    (collectedBlocks (sampleChain 10 (fun _ => false) id) (sampleBlock 10 10) 10 3).map
        Block.Number = [10, 10, 9, 8] ∧
    ¬ ((collectedBlocks (sampleChain 10 (fun _ => false) id) (sampleBlock 10 10) 10 3).map
        Block.Number).Nodup ∧
    (collectedBlocks (sampleChain 3 (fun _ => false) id) (sampleBlock 3 3) 3 3).map
        Block.Number = [3, 3, 2] := by
  decide

theorem expOf_le_of_abs_lt {q : ℚ} {E : ℤ} (hq : q ≠ 0) (h : |q| < (2 : ℚ) ^ E) :
    expOf q ≤ E := by
  have h1 := (expOf_spec hq).1
  have : (2 : ℚ) ^ (expOf q - 1) < (2 : ℚ) ^ E := lt_of_le_of_lt h1 h
  have := (zpow_lt_zpow_iff_right₀ (by norm_num : (1 : ℚ) < 2)).1 this
  omega

theorem round_fin_of_lt (n : ℤ) (d : ℕ) (hd : 0 < d)
    (h : |(n : ℚ) / (d : ℚ)| < (2 : ℚ) ^ (1023 : ℤ)) : ∃ m e, F64.round n d = .fin m e := by
  unfold F64.round
  by_cases hn : n = 0
  · exact ⟨0, 0, by simp [hn]⟩
  · have hd0 : d ≠ 0 := by omega
    have hnat : 0 < n.natAbs := Int.natAbs_pos.2 hn
    have hE := binExp_eq n.natAbs d hnat hd
    have hq : ((n.natAbs : ℚ) / (d : ℚ)) ≠ 0 := by
      have : (0 : ℚ) < (n.natAbs : ℚ) := by exact_mod_cast hnat
      have hdq : (0 : ℚ) < (d : ℚ) := by exact_mod_cast hd
      positivity
    have habs : |((n.natAbs : ℚ) / (d : ℚ))| < (2 : ℚ) ^ (1023 : ℤ) := by
      have e1 : ((n.natAbs : ℚ)) = |(n : ℚ)| := by
        rw [Nat.cast_natAbs, Int.cast_abs]
      rw [e1, abs_div, abs_abs, ← abs_div]
      exact h
    have hle := expOf_le_of_abs_lt hq habs
    rw [← hE] at hle
    simp only [if_neg hn, if_neg hd0]
    have hqe : ¬ (971 : ℤ) < (if (roundQuot (n * 2 ^ (-(max (binExp n.natAbs d - 53) (-1074))).toNat)
        (d * 2 ^ (max (binExp n.natAbs d - 53) (-1074)).toNat)).natAbs = 2 ^ 53
        then max (binExp n.natAbs d - 53) (-1074) + 1 else max (binExp n.natAbs d - 53) (-1074)) := by
      split_ifs <;> omega
    rw [if_neg hqe]
    exact ⟨_, _, rfl⟩

theorem rndDouble_intCast (n : ℤ) (h : |(n : ℚ)| < (2 : ℚ) ^ (53 : ℤ)) :
    rndDouble (n : ℚ) = n := by
  by_cases hn : (n : ℚ) = 0
  · rw [hn, rndDouble_zero]
  · have hle := expOf_le_of_abs_lt hn h
    unfold rndDouble
    have hq : max (expOf (n : ℚ) - 53) (-1074) ≤ 0 := by omega
    generalize max (expOf (n : ℚ) - 53) (-1074) = qe at hq
    have hg := intCast_grid hq n
    calc rndAt qe (n : ℚ) = rndAt qe (((n * (2 : ℤ) ^ (-qe).toNat : ℤ) : ℚ) * (2 : ℚ) ^ qe) := by
          rw [← hg]
      _ = ((n * (2 : ℤ) ^ (-qe).toNat : ℤ) : ℚ) * (2 : ℚ) ^ qe := rndAt_grid qe _
      _ = (n : ℚ) := hg.symm

theorem ofDyadic_fin_of_lt (m e : ℤ) (h : |(m : ℚ) * (2 : ℚ) ^ e| < (2 : ℚ) ^ (1023 : ℤ)) :
    ∃ m1 e1, F64.ofDyadic m e = .fin m1 e1 := by
  unfold F64.ofDyadic
  apply round_fin_of_lt _ _ (by positivity)
  have : ((m * 2 ^ e.toNat : ℤ) : ℚ) / ((2 ^ (-e).toNat : ℕ) : ℚ) = (m : ℚ) * (2 : ℚ) ^ e := by
    rw [two_zpow_eq_div e]
    push_cast
    ring
  rw [this]
  exact h

theorem rndDouble_between (k : ℤ) {x : ℚ} (hk : 0 ≤ k) (h1 : (k : ℚ) ≤ x)
    (h2 : x ≤ (k : ℚ) + 7 / 8) (h3 : x < (2 : ℚ) ^ (50 : ℤ)) :
    (k : ℚ) ≤ rndDouble x ∧ rndDouble x ≤ (k : ℚ) + 7 / 8 := by
  have hk0 : (0 : ℚ) ≤ (k : ℚ) := by exact_mod_cast hk
  have hx0 : 0 ≤ x := le_trans hk0 h1
  by_cases hx : x = 0
  · rw [hx, rndDouble_zero]
    rw [hx] at h1
    constructor
    · exact h1
    · linarith
  · have hle : expOf x ≤ 50 := expOf_le_of_abs_lt hx (by rwa [abs_of_nonneg hx0])
    unfold rndDouble
    have hq : max (expOf x - 53) (-1074) ≤ -3 := by omega
    generalize max (expOf x - 53) (-1074) = qe at hq
    have hg1 := intCast_grid (by omega : qe ≤ 0) k
    have hg2 : (k : ℚ) + 7 / 8 =
        (((8 * k + 7) * (2 : ℤ) ^ (-3 - qe).toNat : ℤ) : ℚ) * (2 : ℚ) ^ qe := by
      have := dyadic_grid (8 * k + 7) hq
      rw [← this]
      push_cast
      norm_num
      ring
    constructor
    · rw [hg1]
      apply grid_le_rndAt
      rw [← hg1]
      exact h1
    · rw [hg2]
      apply rndAt_le_grid
      rw [← hg2]
      exact h2

/-- For a window below `2 ^ 50` the threshold `int(float64(blocksNumber) * 0.8)` is the
integer part of `0.8 * blocksNumber`. -/
theorem minBlockCount_eq_floor (oor : F64 → ℤ) (B : ℕ) (hB : B < 2 ^ 50) :
    minBlockCount oor B = (4 * (B : ℤ)) / 5 := by
  have hBq : ((B : ℤ) : ℚ) < (2 : ℚ) ^ (50 : ℤ) := by
    have : (B : ℤ) < 2 ^ 50 := by exact_mod_cast hB
    exact_mod_cast this
  have hB0 : (0 : ℚ) ≤ ((B : ℤ) : ℚ) := by positivity
  obtain ⟨m1, e1, h1⟩ : ∃ m e, F64.ofInt (B : ℤ) = .fin m e := by
    unfold F64.ofInt
    apply round_fin_of_lt _ _ (by norm_num)
    rw [Nat.cast_one, div_one, abs_of_nonneg hB0]
    exact lt_trans hBq (by norm_num)
  have hv1 : (m1 : ℚ) * (2 : ℚ) ^ e1 = (B : ℤ) := by
    rw [ofInt_toRat h1]
    apply rndDouble_intCast
    rw [abs_of_nonneg hB0]
    exact lt_trans hBq (by norm_num)
  have hx : (m1 : ℚ) * (2 : ℚ) ^ e1 * ((7205759403792794 : ℤ) * (2 : ℚ) ^ (-53 : ℤ))
      = ((B : ℤ) : ℚ) * (7205759403792794 / 9007199254740992) := by
    rw [hv1]
    norm_num
  obtain ⟨m, e, h2⟩ : ∃ m e, (F64.fin m1 e1).mul (.fin 7205759403792794 (-53)) = .fin m e := by
    unfold F64.mul
    apply ofDyadic_fin_of_lt
    have : ((m1 * 7205759403792794 : ℤ) : ℚ) * (2 : ℚ) ^ (e1 + -53)
        = (m1 : ℚ) * (2 : ℚ) ^ e1 * ((7205759403792794 : ℤ) * (2 : ℚ) ^ (-53 : ℤ)) := by
      rw [zpow_add₀ (by norm_num)]
      push_cast
      ring
    rw [this, hx, abs_of_nonneg (by positivity)]
    have : ((B : ℤ) : ℚ) * (7205759403792794 / 9007199254740992) ≤ ((B : ℤ) : ℚ) := by
      nlinarith
    exact lt_of_le_of_lt this (lt_trans hBq (by norm_num))
  have hv := (mul_fin h2).2.2
  simp only [F64.toRat] at hv
  rw [hx] at hv
  have hk0 : 0 ≤ (4 * (B : ℤ)) / 5 := by omega
  have hkl : 5 * ((4 * (B : ℤ)) / 5) ≤ 4 * (B : ℤ) := by omega
  have hku : 4 * (B : ℤ) ≤ 5 * ((4 * (B : ℤ)) / 5) + 4 := by omega
  have hklq : 5 * (((4 * (B : ℤ)) / 5 : ℤ) : ℚ) ≤ 4 * ((B : ℤ) : ℚ) := by exact_mod_cast hkl
  have hkuq : 4 * ((B : ℤ) : ℚ) ≤ 5 * (((4 * (B : ℤ)) / 5 : ℤ) : ℚ) + 4 := by exact_mod_cast hku
  have hBq2 : ((B : ℤ) : ℚ) < 1125899906842624 := by
    have : (2 : ℚ) ^ (50 : ℤ) = 1125899906842624 := by norm_num
    rwa [this] at hBq
  have hx1 : (((4 * (B : ℤ)) / 5 : ℤ) : ℚ)
      ≤ ((B : ℤ) : ℚ) * (7205759403792794 / 9007199254740992) := by linarith
  have hx2 : ((B : ℤ) : ℚ) * (7205759403792794 / 9007199254740992)
      ≤ (((4 * (B : ℤ)) / 5 : ℤ) : ℚ) + 7 / 8 := by linarith
  have hx3 : ((B : ℤ) : ℚ) * (7205759403792794 / 9007199254740992) < (2 : ℚ) ^ (50 : ℤ) :=
    lt_of_le_of_lt (by linarith) hBq
  obtain ⟨b1, b2⟩ := rndDouble_between ((4 * (B : ℤ)) / 5) hk0 hx1 hx2 hx3
  rw [← hv] at b1 b2
  have ht : truncDyadic m e = (4 * (B : ℤ)) / 5 := by
    rw [truncDyadic_eq]
    unfold truncQ
    rw [if_pos (le_trans (by exact_mod_cast hk0) b1)]
    rw [Int.floor_eq_iff]
    constructor
    · exact b1
    · linarith
  unfold minBlockCount
  rw [h1, round_8_10, h2]
  simp only [F64.toInt64]
  rw [ht, if_pos]
  constructor <;> omega

theorem ceilEightyPercent_three : ceilEightyPercent 3 = 3 := by
  unfold ceilEightyPercent
  rw [Nat.ceil_eq_iff (by norm_num)]
  norm_num

/-- C14 (counterexample): window 3 on a chain with latest block 10 where only block 10
can be fetched.  The slice holds two blocks (block 10 twice), fewer than `⌈0.8·3⌉ = 3`,
and the call succeeds: the code wants at least `int(3 * 0.8) = 2` blocks. -/
theorem insufficient_blocks_ceil_fails :
    (collectedBlocks (sampleChain 10 (fun n => n != 10) id) (sampleBlock 10 10) 10 3).map
        Block.Number = [10, 10] ∧
    (collectedBlocks (sampleChain 10 (fun n => n != 10) id) (sampleBlock 10 10) 10 3).length
        < ceilEightyPercent 3 ∧
    minBlockCount (fun _ => 0) 3 = 2 ∧
    CalculateNetworkCongestionMetric (sampleChain 10 (fun n => n != 10) id) 3
        CongestionStrategy_Simple = .ok (.fin 4503599627370496 (-54)) := by
  refine ⟨by decide, ?_, by decide, by decide⟩
  rw [ceilEightyPercent_three]
  decide

/-- C14 (amended): once the latest block number and the latest block are fetched,
`CalculateNetworkCongestionMetric` fails with the insufficient-blocks error if and only
if the slice of collected blocks is shorter than `int(float64(blocksNumber) * 0.8)`,
which is the integer part of `0.8 * blocksNumber` for a window below `2 ^ 50`. -/
theorem insufficient_blocks_iff (a : WindowAnswers) (blocksNumber : ℕ) (strategy : String)
    (lastBlockNumber : ℕ) (lastBlock : Block) (hn : a.BlockNumber = .ok lastBlockNumber)
    (hb : a.getBlockData (wrapInt64 lastBlockNumber) = .ok lastBlock) :
    (CalculateNetworkCongestionMetric a blocksNumber strategy =
        .error (insufficientBlocksMessage (minBlockCount a.int64OutOfRange blocksNumber)
          (collectedBlocks a lastBlock lastBlockNumber blocksNumber).length) ↔
      ((collectedBlocks a lastBlock lastBlockNumber blocksNumber).length : ℤ)
        < minBlockCount a.int64OutOfRange blocksNumber) ∧
    (blocksNumber < 2 ^ 50 →
      minBlockCount a.int64OutOfRange blocksNumber = (4 * (blocksNumber : ℤ)) / 5) := by
  refine ⟨?_, minBlockCount_eq_floor a.int64OutOfRange blocksNumber⟩
  unfold CalculateNetworkCongestionMetric
  simp only [hn, hb]
  by_cases h : ((collectedBlocks a lastBlock lastBlockNumber blocksNumber).length : ℤ)
      < minBlockCount a.int64OutOfRange blocksNumber
  · simp [h]
  · simp only [h, if_false, iff_false]
    split_ifs
    · simp
    · simp
    · intro h2
      injection h2 with h3
      unfold insufficientBlocksMessage at h3
      simp only [String.append_assoc] at h3
      exact message_data_ne _ _ h3

/-- C14, witness: window 4 on a chain with latest block 10 where only block 10 can be
fetched: two blocks are collected, at least 3 are wanted, and the call fails. -/
theorem insufficient_blocks_iff_witness :
    (sampleChain 10 (fun n => n != 10) id).BlockNumber = .ok 10 ∧
    (sampleChain 10 (fun n => n != 10) id).getBlockData (wrapInt64 10)
      = .ok (sampleBlock 10 10) ∧
    (CalculateNetworkCongestionMetric (sampleChain 10 (fun n => n != 10) id) 4
        CongestionStrategy_Simple =
        .error (insufficientBlocksMessage (minBlockCount (fun _ => 0) 4)
          (collectedBlocks (sampleChain 10 (fun n => n != 10) id) (sampleBlock 10 10)
            10 4).length) ↔
      ((collectedBlocks (sampleChain 10 (fun n => n != 10) id) (sampleBlock 10 10)
          10 4).length : ℤ) < minBlockCount (fun _ => 0) 4) ∧
    minBlockCount (fun _ => 0) 4 = (4 * ((4 : ℕ) : ℤ)) / 5 :=
  ⟨rfl, by decide,
    (insufficient_blocks_iff (sampleChain 10 (fun n => n != 10) id) 4 CongestionStrategy_Simple
      10 (sampleBlock 10 10) rfl (by decide)).1,
    (insufficient_blocks_iff (sampleChain 10 (fun n => n != 10) id) 4 CongestionStrategy_Simple
      10 (sampleBlock 10 10) rfl (by decide)).2 (by norm_num)⟩

/-! ## Gas estimations of the client -/

/-- C15.  If estimation is disabled in the request, or the network is simulated (its
name equals Geth or Anvil once both are lower-cased), `CalculateGasEstimations` returns
the three fallback values of the request and leaves the client, its errors and its
EIP-1559 flag included, as it was. -/
theorem estimations_fallback (toLower : String → String) (m : ClientState)
    (eip1559 : FeeCall (ℤ × ℤ)) (legacy : FeeCall ℤ) (request : GasEstimationRequest)
    (h : request.GasEstimationEnabled = false ∨
      toLower m.Cfg.Network.Name = toLower "Geth" ∨
      toLower m.Cfg.Network.Name = toLower "Anvil") :
    CalculateGasEstimations toLower m eip1559 legacy request =
      .ok ({ GasPrice := some request.FallbackGasPrice,
             GasFeeCap := some request.FallbackGasFeeCap,
             GasTipCap := some request.FallbackGasTipCap }, m) := by
  have hc : (IsSimulatedNetwork toLower m.Cfg || !request.GasEstimationEnabled) = true := by
    rcases h with h | h | h
    · simp [h]
    · simp [IsSimulatedNetwork, h]
    · simp [IsSimulatedNetwork, h]
  unfold CalculateGasEstimations
  rw [if_pos hc]

/-- C15, witness: the network `GETH` with estimation enabled, and the network `Sepolia`
with estimation disabled. -/
theorem estimations_fallback_witness :
    (asciiLower "GETH" = asciiLower "Geth" ∧
      CalculateGasEstimations asciiLower (sampleClient "GETH" true false [])
        ⟨.ok (5000, 4000), []⟩ ⟨.ok 6000, []⟩ (sampleRequest true) =
      .ok ({ GasPrice := some 1000, GasFeeCap := some 3000, GasTipCap := some 2000 },
        sampleClient "GETH" true false [])) ∧
    CalculateGasEstimations asciiLower (sampleClient "Sepolia" true false [])
        ⟨.ok (5000, 4000), []⟩ ⟨.ok 6000, []⟩ (sampleRequest false) =
      .ok ({ GasPrice := some 1000, GasFeeCap := some 3000, GasTipCap := some 2000 },
        sampleClient "Sepolia" true false []) :=
  ⟨⟨by decide, estimations_fallback asciiLower (sampleClient "GETH" true false [])
      ⟨.ok (5000, 4000), []⟩ ⟨.ok 6000, []⟩ (sampleRequest true) (Or.inr (Or.inl (by decide)))⟩,
    estimations_fallback asciiLower (sampleClient "Sepolia" true false [])
      ⟨.ok (5000, 4000), []⟩ ⟨.ok 6000, []⟩ (sampleRequest false) (Or.inl rfl)⟩

theorem calulcateLegacyFees_cfg {m m' : ClientState} {est est' : GasEstimations}
    {request : GasEstimationRequest} {legacy : FeeCall ℤ}
    (h : calulcateLegacyFees m est request legacy = .ok (est', m')) : m'.Cfg = m.Cfg := by
  unfold calulcateLegacyFees at h
  split at h
  · exact absurd h (by simp)
  · simp only [Outcome.ok.injEq, Prod.mk.injEq] at h
    rw [← h.2]
  · simp only [Outcome.ok.injEq, Prod.mk.injEq] at h
    rw [← h.2]

theorem legacy_path_of_flag_false (toLower : String → String) (m : ClientState)
    (eip1559 : FeeCall (ℤ × ℤ)) (legacy : FeeCall ℤ) (request : GasEstimationRequest)
    (hen : request.GasEstimationEnabled = true) (hsim : IsSimulatedNetwork toLower m.Cfg = false)
    (hflag : m.Cfg.Network.EIP1559DynamicFees = false) :
    CalculateGasEstimations toLower m eip1559 legacy request =
      calulcateLegacyFees m { GasPrice := none, GasTipCap := none, GasFeeCap := none }
        request legacy := by
  unfold CalculateGasEstimations
  simp [hen, hsim, hflag]

/-- C16.  With estimation enabled on a network that is not simulated and in EIP-1559
mode, let the EIP-1559 suggestion fail with the error `e`.  If `e` contains one of the
four texts of an unsupported method, the call returns the fallback tip and fee caps
with the gas price of the legacy suggestion, or the fallback gas price when that fails
too, and the EIP-1559 flag of the client is false afterwards; every call on a client of
that configuration takes the legacy path, whatever the EIP-1559 suggestion would
answer, and keeps the configuration.  If `e` contains none of the texts, the call
returns the fallback caps and no gas price, whatever the legacy suggestion would
answer, and the configuration is unchanged. -/
theorem unsupported_eip1559_downgrades (toLower : String → String) (m : ClientState)
    (eip1559 : FeeCall (ℤ × ℤ)) (legacy : FeeCall ℤ) (request : GasEstimationRequest)
    (e : String) (hen : request.GasEstimationEnabled = true)
    (hsim : IsSimulatedNetwork toLower m.Cfg = false)
    (hflag : m.Cfg.Network.EIP1559DynamicFees = true) (herr : eip1559.result = .err e) :
    ((stringsContains e "method eth_maxPriorityFeePerGas" = true ∨
        stringsContains e "method eth_maxFeePerGas" = true ∨
        stringsContains e "method eth_feeHistory" = true ∨
        stringsContains e "expected input list for types.txdata" = true) →
      (∀ p, legacy.result = .ok p → ∃ m1,
        CalculateGasEstimations toLower m eip1559 legacy request =
          .ok ({ GasPrice := some p, GasFeeCap := some request.FallbackGasFeeCap,
                 GasTipCap := some request.FallbackGasTipCap }, m1) ∧
        m1.Cfg.Network.EIP1559DynamicFees = false) ∧
      (∀ e2, legacy.result = .err e2 → ∃ m1,
        CalculateGasEstimations toLower m eip1559 legacy request =
          .ok ({ GasPrice := some request.FallbackGasPrice,
                 GasFeeCap := some request.FallbackGasFeeCap,
                 GasTipCap := some request.FallbackGasTipCap }, m1) ∧
        m1.Cfg.Network.EIP1559DynamicFees = false) ∧
      (∀ est m1, CalculateGasEstimations toLower m eip1559 legacy request = .ok (est, m1) →
        ∀ (m2 : ClientState) (eip1559L : FeeCall (ℤ × ℤ)) (legacyL : FeeCall ℤ)
          (requestL : GasEstimationRequest), m2.Cfg = m1.Cfg →
          requestL.GasEstimationEnabled = true →
          CalculateGasEstimations toLower m2 eip1559L legacyL requestL =
            calulcateLegacyFees m2 { GasPrice := none, GasTipCap := none, GasFeeCap := none }
              requestL legacyL ∧
          ∀ est3 m3, CalculateGasEstimations toLower m2 eip1559L legacyL requestL
            = .ok (est3, m3) → m3.Cfg = m1.Cfg)) ∧
    (¬ (stringsContains e "method eth_maxPriorityFeePerGas" = true ∨
        stringsContains e "method eth_maxFeePerGas" = true ∨
        stringsContains e "method eth_feeHistory" = true ∨
        stringsContains e "expected input list for types.txdata" = true) →
      CalculateGasEstimations toLower m eip1559 legacy request =
        .ok ({ GasPrice := none, GasFeeCap := some request.FallbackGasFeeCap,
               GasTipCap := some request.FallbackGasTipCap },
          { m with Errors := m.Errors ++ eip1559.appended ++ [some e] })) := by
  have hcall : CalculateGasEstimations toLower m eip1559 legacy request =
      if isUnsupportedEIP1559 e then
        calulcateLegacyFees
          { m with
            Errors := m.Errors ++ eip1559.appended ++ [some e],
            Cfg := { m.Cfg with Network := { m.Cfg.Network with EIP1559DynamicFees := false } } }
          { GasPrice := none, GasTipCap := some request.FallbackGasTipCap,
            GasFeeCap := some request.FallbackGasFeeCap } request legacy
      else .ok ({ GasPrice := none, GasTipCap := some request.FallbackGasTipCap,
                  GasFeeCap := some request.FallbackGasFeeCap },
        { m with Errors := m.Errors ++ eip1559.appended ++ [some e] }) := by
    unfold CalculateGasEstimations
    simp only [hen, hsim, hflag, herr]
    rfl
  have hiff : isUnsupportedEIP1559 e = true ↔
      (stringsContains e "method eth_maxPriorityFeePerGas" = true ∨
        stringsContains e "method eth_maxFeePerGas" = true ∨
        stringsContains e "method eth_feeHistory" = true ∨
        stringsContains e "expected input list for types.txdata" = true) := by
    simp only [isUnsupportedEIP1559, Bool.or_eq_true, or_assoc]
  refine ⟨fun hu => ?_, fun hu => ?_⟩
  · rw [hcall, if_pos (hiff.2 hu)]
    refine ⟨fun p hp => ?_, fun e2 he2 => ?_, fun est m1 hm1 m2 eL lL rL hcfg henL => ?_⟩
    · exact ⟨_, by simp only [calulcateLegacyFees, hp]; rfl, rfl⟩
    · exact ⟨_, by simp only [calulcateLegacyFees, he2]; rfl, rfl⟩
    · have h1 := calulcateLegacyFees_cfg hm1
      have hsim2 : IsSimulatedNetwork toLower m2.Cfg = false := by
        rw [← hsim]
        simp only [IsSimulatedNetwork, hcfg, h1]
      have hflag2 : m2.Cfg.Network.EIP1559DynamicFees = false := by
        rw [hcfg, h1]
      have hpath := legacy_path_of_flag_false toLower m2 eL lL rL henL hsim2 hflag2
      refine ⟨hpath, fun est3 m3 h3 => ?_⟩
      rw [hpath] at h3
      rw [calulcateLegacyFees_cfg h3, hcfg]
  · rw [hcall, if_neg (fun h => hu (hiff.1 h))]

/-- C16, witness: on Sepolia the EIP-1559 suggestion fails with an error naming
`eth_maxPriorityFeePerGas` and the legacy suggestion fails too: the call returns the
fallback gas price 1000 and the flag is false afterwards. -/
theorem unsupported_eip1559_downgrades_witness :
    IsSimulatedNetwork asciiLower (sampleClient "Sepolia" true false []).Cfg = false ∧
    stringsContains "the method eth_maxPriorityFeePerGas does not exist"
      "method eth_maxPriorityFeePerGas" = true ∧
    ∃ m1, CalculateGasEstimations asciiLower (sampleClient "Sepolia" true false [])
        ⟨.err "the method eth_maxPriorityFeePerGas does not exist", []⟩
        ⟨.err "no gas price", []⟩ (sampleRequest true) =
          .ok ({ GasPrice := some 1000, GasFeeCap := some 3000, GasTipCap := some 2000 }, m1) ∧
      m1.Cfg.Network.EIP1559DynamicFees = false :=
  ⟨by decide, by decide,
    ((unsupported_eip1559_downgrades asciiLower (sampleClient "Sepolia" true false [])
      ⟨.err "the method eth_maxPriorityFeePerGas does not exist", []⟩
      ⟨.err "no gas price", []⟩ (sampleRequest true)
      "the method eth_maxPriorityFeePerGas does not exist" rfl (by decide) rfl rfl).1
        (Or.inl (by decide))).2.1 "no gas price" rfl⟩

/-! ## Pending-nonce protection -/

theorem configureTransactionOpts_eq (m : ClientState) (opts : TransactOpts) (nonce : ℕ)
    (estimations : GasEstimations) (o : List TransactOpt) :
    configureTransactionOpts m opts nonce estimations o =
      o.foldl (fun acc f => f acc) (configuredBase m opts nonce estimations) := by
  unfold configureTransactionOpts configuredBase
  by_cases h : m.Cfg.Network.EIP1559DynamicFees = true
  · simp [h]
  · simp [h]

theorem lastOverride_nil {α : Type} (sel : Override → Option α) (d : α) :
    lastOverride sel [] d = d := rfl

theorem lastOverride_cons {α : Type} (sel : Override → Option α) (x : Override)
    (os : List Override) (d : α) :
    lastOverride sel (x :: os) d = lastOverride sel os ((sel x).getD d) := by
  unfold lastOverride
  cases hx : sel x with
  | none => simp [List.filterMap_cons, hx]
  | some v =>
    simp only [List.filterMap_cons, hx, Option.getD_some]
    cases hl : (List.filterMap sel os).getLast? with
    | none =>
      rw [List.getLast?_eq_none_iff] at hl
      simp [hl]
    | some w =>
      have hne : List.filterMap sel os ≠ [] := by
        intro h0
        rw [h0] at hl
        simp at hl
      obtain ⟨y, ys, hys⟩ := List.exists_cons_of_ne_nil hne
      rw [hys] at hl ⊢
      rw [List.getLast?_cons_cons, hl]
      rfl

theorem foldl_overrides (os : List Override) (b : TransactOpts) :
    ((os.map Override.apply).foldl (fun acc f => f acc) b).Nonce
        = lastOverride Override.nonce? os b.Nonce ∧
    ((os.map Override.apply).foldl (fun acc f => f acc) b).Value
        = lastOverride Override.value? os b.Value ∧
    ((os.map Override.apply).foldl (fun acc f => f acc) b).GasLimit
        = lastOverride Override.gasLimit? os b.GasLimit ∧
    ((os.map Override.apply).foldl (fun acc f => f acc) b).GasPrice
        = lastOverride Override.gasPrice? os b.GasPrice ∧
    ((os.map Override.apply).foldl (fun acc f => f acc) b).GasFeeCap
        = lastOverride Override.gasFeeCap? os b.GasFeeCap ∧
    ((os.map Override.apply).foldl (fun acc f => f acc) b).GasTipCap
        = lastOverride Override.gasTipCap? os b.GasTipCap ∧
    ((os.map Override.apply).foldl (fun acc f => f acc) b).NoSend
        = lastOverride Override.noSend? os b.NoSend ∧
    ((os.map Override.apply).foldl (fun acc f => f acc) b).From = b.From := by
  induction os generalizing b with
  | nil => simp [lastOverride_nil]
  | cons x xs ih =>
    simp only [List.map_cons, List.foldl_cons, lastOverride_cons]
    have := ih (x.apply b)
    cases x <;> exact this

/-- C18.  `configureTransactionOpts` returns the overrides applied, in the order given,
to the options in which the nonce `int64(nonce)`, the configured gas limit and the fee
fields of the mode are set (the gas price in legacy mode; the tip and fee caps, with the
gas price nil, in EIP-1559 mode).  So when the overrides are built by the setters, each
field holds the value of the last override that names it, or the value set before when
no override names it. -/
theorem overrides_win (m : ClientState) (opts : TransactOpts) (nonce : ℕ)
    (estimations : GasEstimations) (o : List TransactOpt) (os : List Override) :
    configureTransactionOpts m opts nonce estimations o =
      o.foldl (fun acc f => f acc)
        { From := opts.From, Nonce := some (wrapInt64 nonce), Value := opts.Value,
          GasPrice := if m.Cfg.Network.EIP1559DynamicFees then none else estimations.GasPrice,
          GasFeeCap := if m.Cfg.Network.EIP1559DynamicFees then estimations.GasFeeCap
            else opts.GasFeeCap,
          GasTipCap := if m.Cfg.Network.EIP1559DynamicFees then estimations.GasTipCap
            else opts.GasTipCap,
          GasLimit := m.Cfg.Network.GasLimit, NoSend := opts.NoSend } ∧
    (configureTransactionOpts m opts nonce estimations (os.map Override.apply)).Nonce
      = lastOverride Override.nonce? os (some (wrapInt64 nonce)) ∧
    (configureTransactionOpts m opts nonce estimations (os.map Override.apply)).Value
      = lastOverride Override.value? os opts.Value ∧
    (configureTransactionOpts m opts nonce estimations (os.map Override.apply)).GasLimit
      = lastOverride Override.gasLimit? os m.Cfg.Network.GasLimit ∧
    (configureTransactionOpts m opts nonce estimations (os.map Override.apply)).GasPrice
      = lastOverride Override.gasPrice? os
          (if m.Cfg.Network.EIP1559DynamicFees then none else estimations.GasPrice) ∧
    (configureTransactionOpts m opts nonce estimations (os.map Override.apply)).GasFeeCap
      = lastOverride Override.gasFeeCap? os
          (if m.Cfg.Network.EIP1559DynamicFees then estimations.GasFeeCap
            else opts.GasFeeCap) ∧
    (configureTransactionOpts m opts nonce estimations (os.map Override.apply)).GasTipCap
      = lastOverride Override.gasTipCap? os
          (if m.Cfg.Network.EIP1559DynamicFees then estimations.GasTipCap
            else opts.GasTipCap) := by
  refine ⟨configureTransactionOpts_eq m opts nonce estimations o, ?_⟩
  rw [configureTransactionOpts_eq]
  obtain ⟨h1, h2, h3, h4, h5, h6, -, -⟩ :=
    foldl_overrides os (configuredBase m opts nonce estimations)
  exact ⟨h1, h2, h3, h4, h5, h6⟩

/-! ## Key numbers -/

/-- C19 (failing input): a client with one address and one private key, asked for key
number 1.  Both range checks pass: `NewTXKeyOpts` panics at `m.Addresses[keyNum]` with
the runtime error, not with its out-of-range error, and `TransferETHFromKey` asks the
node for the network id and panics at `m.Addresses[fromKeyNum]`; when the node fails
it returns that failure.  For key number -1 `TransferETHFromKey` panics likewise, and
for key number 2 both checks fail as described. -/
theorem key_number_equal_to_length_passes :
    NewTXKeyOpts (sampleClient "Sepolia" true false [])
        (sampleOptsAnswers 5 5 ⟨.ok (5000, 4000), []⟩ ⟨.ok 6000, []⟩) 1 [] =
      .panic (.runtime "index out of range [1] with length 1") ∧
    TransferETHFromKey (sampleClient "Sepolia" true false []) sampleTransferAnswers 1 =
      .panic (.runtime "index out of range [1] with length 1") ∧
    TransferETHFromKey (sampleClient "Sepolia" true false [])
        { sampleTransferAnswers with NetworkID := .error "no connection" } 1 =
      .ok (some "failed to get network ID: no connection") ∧
    TransferETHFromKey (sampleClient "Sepolia" true false []) sampleTransferAnswers (-1) =
      .panic (.runtime "index out of range [-1]") ∧
    NewTXKeyOpts (sampleClient "Sepolia" true false [])
        (sampleOptsAnswers 5 5 ⟨.ok (5000, 4000), []⟩ ⟨.ok 6000, []⟩) 2 [] =
      .panic (.errorf "keyNum is out of range. Expected 0-0. Got: 2") ∧
    TransferETHFromKey (sampleClient "Sepolia" true false []) sampleTransferAnswers 2 =
      .ok (some "requested key: 2: failed to load private key") := by
  decide

/-! ## Decoding with accumulated errors -/

/-- C20 (counterexample): the accumulated errors hold one entry and it is nil, as
`HistoricalFeeData` leaves them after a call with a priority it does not know.  `Decode`
returns no decoded transaction and a nil error. -/
theorem decode_nil_entry_returns_nil :
    (HistoricalFeeData ⟨"degen", 0, 0, []⟩ (.ok (flatStats F64.zero)) "degen").2.Errors
      = [none] ∧
    (sampleClient "Sepolia" true false [none]).Errors ≠ [] ∧
    Decode (sampleClient "Sepolia" true false [none]) sampleDecodeAnswers (some ⟨"0x01"⟩) none =
      .ok { decoded := none, err := none, client := sampleClient "Sepolia" true false [none],
            calls := [] } := by
  decide

theorem errorsJoin_ne_none {errs : List (Option String)} {e : String}
    (h : some e ∈ errs) : errorsJoin errs ≠ none := by
  have hm : e ∈ errs.filterMap id := by
    rw [List.mem_filterMap]
    exact ⟨some e, h, rfl⟩
  have hne : errs.filterMap id ≠ [] := List.ne_nil_of_mem hm
  unfold errorsJoin
  rw [if_neg hne]
  simp

/-- C20 (amended).  If `Errors` is non-empty when `Decode` starts, whatever the
transaction and `txErr` are, `Decode` returns no decoded transaction and the join of the
accumulated errors, calls nothing (it does not wait for a receipt) and leaves the
client as it was; the returned error is non-nil whenever `Errors` holds a non-nil
entry. -/
theorem decode_refuses_on_errors (m : ClientState) (a : DecodeAnswers)
    (tx : Option Transaction) (txErr : Option String) (h : m.Errors ≠ []) :
    Decode m a tx txErr =
      .ok { decoded := none, err := errorsJoin m.Errors, client := m, calls := [] } ∧
    ∀ e, some e ∈ m.Errors → errorsJoin m.Errors ≠ none := by
  refine ⟨?_, fun e he => errorsJoin_ne_none he⟩
  have hl : m.Errors.length > 0 := List.length_pos.2 h
  unfold Decode
  rw [if_pos hl]

/-- C20, witness: two accumulated errors, a transaction and a `txErr`: `Decode` returns
the two errors joined and not `txErr`. -/
theorem decode_refuses_on_errors_witness :
    (sampleClient "Sepolia" true false [some "first", some "second"]).Errors ≠ [] ∧
    Decode (sampleClient "Sepolia" true false [some "first", some "second"])
        sampleDecodeAnswers (some ⟨"0x01"⟩) (some "reverted") =
      .ok { decoded := none, err := errorsJoin [some "first", some "second"],
            client := sampleClient "Sepolia" true false [some "first", some "second"],
            calls := [] } ∧
    errorsJoin [some "first", some "second"] = some "first\nsecond" :=
  ⟨by decide,
    (decode_refuses_on_errors (sampleClient "Sepolia" true false [some "first", some "second"])
      sampleDecodeAnswers (some ⟨"0x01"⟩) (some "reverted") (by decide)).1, by decide⟩

/-! ## Decoding -/

theorem Decode_of_errors (m : ClientState) (a : DecodeAnswers) (tx : Option Transaction)
    (txErr : Option String) (h : m.Errors ≠ []) :
    Decode m a tx txErr =
      .ok { decoded := none, err := errorsJoin m.Errors, client := m, calls := [] } := by
  have hl : m.Errors.length > 0 := List.length_pos.2 h
  unfold Decode
  rw [if_pos hl]

theorem Decode_mined (m : ClientState) (a : DecodeAnswers) (t : Transaction) (status : ℕ)
    (hE : m.Errors = []) (hW : a.WaitMined = .ok status) :
    Decode m a (some t) none =
      if m.Cfg.TracingLevel = TracingLevel_None then
        .ok ⟨some { Transaction := t, Hash := t.Hash, Decoded := none }, revertErrOf a status, m,
          receiptCalls status⟩
      else if m.Cfg.TracingLevel = TracingLevel_All ∨
          (m.Cfg.TracingLevel = TracingLevel_Reverted ∧ revertErrOf a status ≠ none) then
        match a.decodeTransaction.1 with
        | none => .panic (.runtime "invalid memory address or nil pointer dereference")
        | some decoded1 =>
          .ok ⟨some decoded1, revertErrOf a status, m,
            receiptCalls status ++ [.decodeTransaction, .TraceGethTX]⟩
      else
        .ok ⟨some { Transaction := t, Hash := t.Hash, Decoded := none }, revertErrOf a status, m,
          receiptCalls status⟩ := by
  unfold Decode revertErrOf receiptCalls
  simp only [hE, List.length_nil, gt_iff_lt, lt_self_iff_false, if_false, hW, errorsIsNew,
    Bool.false_eq_true, and_false]
  try rfl

theorem Decode_client (m : ClientState) (a : DecodeAnswers) (tx : Option Transaction)
    (txErr : Option String) (r : DecodeResult) (h : Decode m a tx txErr = .ok r) :
    r.client = m := by
  by_cases hE : m.Errors = []
  · cases txErr with
    | some e =>
      simp only [Decode, hE, List.length_nil, gt_iff_lt, lt_self_iff_false, if_false] at h
      injection h with h; rw [← h]
    | none =>
      cases tx with
      | none =>
        simp only [Decode, hE, List.length_nil, gt_iff_lt, lt_self_iff_false, if_false] at h
        injection h with h; rw [← h]
      | some t =>
        cases hW : a.WaitMined with
        | error e =>
          simp only [Decode, hE, List.length_nil, gt_iff_lt, lt_self_iff_false, if_false, hW] at h
          injection h with h; rw [← h]
        | ok status =>
          rw [Decode_mined m a t status hE hW] at h
          split_ifs at h
          · injection h with h; rw [← h]
          · split at h
            · exact absurd h (by simp)
            · injection h with h; rw [← h]
          · injection h with h; rw [← h]
  · rw [Decode_of_errors m a tx txErr hE] at h
    injection h with h; rw [← h]

/-- C21 (counterexample): one accumulated error.  The `Decode` call that reports it
leaves it in `Errors`, and the next `Decode` call, on another transaction, refuses with
the same error. -/
theorem decode_does_not_drain :
    Decode (sampleClientAt TracingLevel_Reverted [some "boom"]) sampleDecodeAnswers
        (some ⟨"0x01"⟩) none =
      .ok { decoded := none, err := some "boom",
            client := sampleClientAt TracingLevel_Reverted [some "boom"], calls := [] } ∧
    (sampleClientAt TracingLevel_Reverted [some "boom"]).Errors ≠ [] ∧
    Decode (sampleClientAt TracingLevel_Reverted [some "boom"]) sampleDecodeAnswers
        (some ⟨"0x02"⟩) none =
      .ok { decoded := none, err := some "boom",
            client := sampleClientAt TracingLevel_Reverted [some "boom"], calls := [] } := by
  decide

/-- C21 (amended).  `Decode` does not drain the accumulated errors: a call that refuses
because `Errors` is non-empty returns a client with the same `Errors`, so every later
`Decode` call on it, whatever its transaction and `txErr`, refuses with the same joined
error; and no `Decode` call that returns changes the client. -/
theorem decode_keeps_errors (m : ClientState) (a : DecodeAnswers) (tx : Option Transaction)
    (txErr : Option String) (h : m.Errors ≠ []) :
    (∃ r, Decode m a tx txErr = .ok r ∧ r.err = errorsJoin m.Errors ∧
      r.client.Errors = m.Errors ∧
      ∀ (a2 : DecodeAnswers) (tx2 : Option Transaction) (txErr2 : Option String),
        Decode r.client a2 tx2 txErr2 =
          .ok { decoded := none, err := errorsJoin m.Errors, client := r.client, calls := [] }) ∧
    ∀ (m0 : ClientState) (a0 : DecodeAnswers) (tx0 : Option Transaction)
      (txErr0 : Option String) (r0 : DecodeResult),
      Decode m0 a0 tx0 txErr0 = .ok r0 → r0.client = m0 := by
  refine ⟨⟨_, Decode_of_errors m a tx txErr h, rfl, rfl, fun a2 tx2 txErr2 => ?_⟩,
    fun m0 a0 tx0 txErr0 r0 h0 => Decode_client m0 a0 tx0 txErr0 r0 h0⟩
  exact Decode_of_errors m a2 tx2 txErr2 h

/-- C21, witness: two accumulated errors stay after the refusing call. -/
theorem decode_keeps_errors_witness :
    (sampleClientAt TracingLevel_All [some "first", some "second"]).Errors ≠ [] ∧
    ∃ r, Decode (sampleClientAt TracingLevel_All [some "first", some "second"])
        sampleDecodeAnswers (some ⟨"0x01"⟩) none = .ok r ∧
      r.err = errorsJoin [some "first", some "second"] ∧
      r.client.Errors = [some "first", some "second"] ∧
      ∀ (a2 : DecodeAnswers) (tx2 : Option Transaction) (txErr2 : Option String),
        Decode r.client a2 tx2 txErr2 =
          .ok { decoded := none, err := errorsJoin [some "first", some "second"],
                client := r.client, calls := [] } :=
  ⟨by decide,
    (decode_keeps_errors (sampleClientAt TracingLevel_All [some "first", some "second"])
      sampleDecodeAnswers (some ⟨"0x01"⟩) none (by decide)).1⟩

/-- C27.  For a priority other than ultra, fast, standard and slow and statistics that
were fetched, `HistoricalFeeData` returns base fee 0, tip 0 and a nil error, and appends
one entry to `Errors`, the nil error: `Errors` is non-empty afterwards and holds the
same non-nil errors as before. -/
theorem HistoricalFeeData_unknown_priority (m : Client) (st : GasSuggestions)
    (priority : String)
    (h : priority ∉ [Priority_Ultra, Priority_Fast, Priority_Standard, Priority_Slow]) :
    HistoricalFeeData m (.ok st) priority =
      ((F64.zero, F64.zero, none), { m with Errors := m.Errors ++ [none] }) ∧
    (HistoricalFeeData m (.ok st) priority).2.Errors ≠ [] ∧
    (HistoricalFeeData m (.ok st) priority).2.Errors.filterMap id = m.Errors.filterMap id := by
  simp only [List.mem_cons, List.mem_singleton, List.not_mem_nil, or_false, not_or] at h
  have h1 : HistoricalFeeData m (.ok st) priority =
      ((F64.zero, F64.zero, none), { m with Errors := m.Errors ++ [none] }) := by
    unfold HistoricalFeeData
    simp only [if_neg h.1, if_neg h.2.1, if_neg h.2.2.1, if_neg h.2.2.2]
  rw [h1]
  refine ⟨rfl, by simp, by simp⟩

/-- C27, witness: the priority `degen` on a client without errors. -/
theorem HistoricalFeeData_unknown_priority_witness :
    "degen" ∉ [Priority_Ultra, Priority_Fast, Priority_Standard, Priority_Slow] ∧
    HistoricalFeeData ⟨"degen", 0, 0, []⟩ (.ok (flatStats (F64.ofInt 7))) "degen" =
      ((F64.zero, F64.zero, none), ⟨"degen", 0, 0, [none]⟩) :=
  ⟨by decide,
    (HistoricalFeeData_unknown_priority ⟨"degen", 0, 0, []⟩ (flatStats (F64.ofInt 7)) "degen"
      (by decide)).1⟩

theorem rndDouble_grid (n e : ℤ) (hn : |(n : ℚ)| < (2 : ℚ) ^ (53 : ℤ)) (he : -1074 ≤ e) :
    rndDouble ((n : ℚ) * (2 : ℚ) ^ e) = (n : ℚ) * (2 : ℚ) ^ e := by
  by_cases h0 : (n : ℚ) = 0
  · rw [h0, zero_mul, rndDouble_zero]
  · have hpos : (0 : ℚ) < (2 : ℚ) ^ e := by positivity
    have hx : (n : ℚ) * (2 : ℚ) ^ e ≠ 0 := mul_ne_zero h0 hpos.ne'
    have habs : |(n : ℚ) * (2 : ℚ) ^ e| < (2 : ℚ) ^ (53 + e) := by
      rw [abs_mul, abs_of_pos hpos, zpow_add₀ (by norm_num)]
      exact mul_lt_mul_of_pos_right hn hpos
    have hle := expOf_le_of_abs_lt hx habs
    unfold rndDouble
    have hq : max (expOf ((n : ℚ) * (2 : ℚ) ^ e) - 53) (-1074) ≤ e := by omega
    generalize max (expOf ((n : ℚ) * (2 : ℚ) ^ e) - 53) (-1074) = qe at hq
    have hg := dyadic_grid n hq
    calc rndAt qe ((n : ℚ) * (2 : ℚ) ^ e)
        = rndAt qe (((n * (2 : ℤ) ^ (e - qe).toNat : ℤ) : ℚ) * (2 : ℚ) ^ qe) := by rw [← hg]
      _ = ((n * (2 : ℤ) ^ (e - qe).toNat : ℤ) : ℚ) * (2 : ℚ) ^ qe := rndAt_grid qe _
      _ = (n : ℚ) * (2 : ℚ) ^ e := hg.symm

/-- From 3 blocks on, up to `2 ^ 63`, the threshold `int(float64(blocksNumber) * 0.8)` is
at least 2. -/
theorem minBlockCount_ge_two (oor : F64 → ℤ) (B : ℕ) (h3 : 3 ≤ B) (hB : B ≤ 2 ^ 63) :
    2 ≤ minBlockCount oor B := by
  have h3q : (3 : ℚ) ≤ ((B : ℤ) : ℚ) := by
    have : (3 : ℤ) ≤ (B : ℤ) := by exact_mod_cast h3
    exact_mod_cast this
  have hBq : ((B : ℤ) : ℚ) ≤ (2 : ℚ) ^ (63 : ℤ) := by
    have : (B : ℤ) ≤ 2 ^ 63 := by exact_mod_cast hB
    exact_mod_cast this
  have hB0 : (0 : ℚ) ≤ ((B : ℤ) : ℚ) := by linarith
  obtain ⟨m1, e1, h1⟩ : ∃ m e, F64.ofInt (B : ℤ) = .fin m e := by
    unfold F64.ofInt
    apply round_fin_of_lt _ _ (by norm_num)
    rw [Nat.cast_one, div_one, abs_of_nonneg hB0]
    exact lt_of_le_of_lt hBq (by norm_num)
  have hK := ofInt_toRat h1
  have hK3 : (3 : ℚ) ≤ (m1 : ℚ) * (2 : ℚ) ^ e1 := by
    rw [hK]
    have := rndDouble_mono_nonneg (by norm_num : (0 : ℚ) ≤ 3) h3q
    have h33 : rndDouble (3 : ℚ) = 3 := by
      have := rndDouble_intCast 3 (by norm_num)
      simpa using this
    rwa [h33] at this
  have hK63 : (m1 : ℚ) * (2 : ℚ) ^ e1 ≤ (2 : ℚ) ^ (63 : ℤ) := by
    rw [hK]
    have := rndDouble_mono_nonneg hB0 hBq
    have h63 : rndDouble ((2 : ℚ) ^ (63 : ℤ)) = (2 : ℚ) ^ (63 : ℤ) := by
      have := rndDouble_grid 1 63 (by norm_num) (by norm_num)
      simpa using this
    rwa [h63] at this
  have hx0 : (0 : ℚ) ≤ (m1 : ℚ) * (2 : ℚ) ^ e1 * ((7205759403792794 : ℤ) * (2 : ℚ) ^ (-53 : ℤ)) := by
    have : (0 : ℚ) ≤ (m1 : ℚ) * (2 : ℚ) ^ e1 := by linarith
    positivity
  have hxl : (2 : ℚ) ≤
      (m1 : ℚ) * (2 : ℚ) ^ e1 * ((7205759403792794 : ℤ) * (2 : ℚ) ^ (-53 : ℤ)) := by
    have hc : ((7205759403792794 : ℤ) : ℚ) * (2 : ℚ) ^ (-53 : ℤ)
        = 7205759403792794 / 9007199254740992 := by norm_num
    rw [hc]
    nlinarith
  have hxu : (m1 : ℚ) * (2 : ℚ) ^ e1 * ((7205759403792794 : ℤ) * (2 : ℚ) ^ (-53 : ℤ))
      ≤ ((7205759403792794 : ℤ) : ℚ) * (2 : ℚ) ^ (10 : ℤ) := by
    have hc : ((7205759403792794 : ℤ) : ℚ) * (2 : ℚ) ^ (-53 : ℤ)
        = 7205759403792794 / 9007199254740992 := by norm_num
    have h63 : (2 : ℚ) ^ (63 : ℤ) = 9223372036854775808 := by norm_num
    rw [hc]
    rw [h63] at hK63
    norm_num
    nlinarith
  obtain ⟨m, e, h2⟩ : ∃ m e, (F64.fin m1 e1).mul (.fin 7205759403792794 (-53)) = .fin m e := by
    unfold F64.mul
    apply ofDyadic_fin_of_lt
    have : ((m1 * 7205759403792794 : ℤ) : ℚ) * (2 : ℚ) ^ (e1 + -53)
        = (m1 : ℚ) * (2 : ℚ) ^ e1 * ((7205759403792794 : ℤ) * (2 : ℚ) ^ (-53 : ℤ)) := by
      rw [zpow_add₀ (by norm_num)]
      push_cast
      ring
    rw [this, abs_of_nonneg hx0]
    exact lt_of_le_of_lt hxu (by norm_num)
  have hv := (mul_fin h2).2.2
  simp only [F64.toRat] at hv
  have hvl : (2 : ℚ) ≤ (m : ℚ) * (2 : ℚ) ^ e := by
    rw [hv]
    have := rndDouble_mono_nonneg (by norm_num : (0 : ℚ) ≤ 2) hxl
    have h22 : rndDouble (2 : ℚ) = 2 := by
      have := rndDouble_intCast 2 (by norm_num)
      simpa using this
    rwa [h22] at this
  have hvu : (m : ℚ) * (2 : ℚ) ^ e ≤ ((7205759403792794 : ℤ) : ℚ) * (2 : ℚ) ^ (10 : ℤ) := by
    rw [hv]
    have := rndDouble_mono_nonneg hx0 hxu
    rwa [rndDouble_grid 7205759403792794 10 (by norm_num) (by norm_num)] at this
  have ht : truncDyadic m e = ⌊(m : ℚ) * (2 : ℚ) ^ e⌋ := by
    rw [truncDyadic_eq]
    unfold truncQ
    rw [if_pos (by linarith)]
  have hfl : (2 : ℤ) ≤ ⌊(m : ℚ) * (2 : ℚ) ^ e⌋ := by
    rw [Int.le_floor]
    exact_mod_cast hvl
  have hfu : ⌊(m : ℚ) * (2 : ℚ) ^ e⌋ < 2 ^ 63 := by
    rw [Int.floor_lt]
    refine lt_of_le_of_lt hvu ?_
    norm_num
  unfold minBlockCount
  rw [h1, round_8_10, h2]
  simp only [F64.toInt64]
  rw [ht, if_pos ⟨by omega, hfu⟩]
  exact hfl

theorem windowNumbers_of_lt (L B : ℕ) (hLB : L < B) (hB : B < 2 ^ 64) :
    windowNumbers L B = [] := by
  unfold windowNumbers
  have hm : B % 2 ^ 64 = B := Nat.mod_eq_of_lt hB
  have hw : (L + 2 ^ 64 - B) % 2 ^ 64 = L + 2 ^ 64 - B := Nat.mod_eq_of_lt (by omega)
  rw [hm, hw]
  cases L with
  | zero => rfl
  | succ n =>
    unfold fetchLoop
    rw [if_neg (by omega)]

/-- C29 (counterexample): latest block 10 and a window of `2 ^ 64 - 1` blocks on a
platform where the conversion to `int` of a double that does not fit yields the
smallest `int64`.  The window holds the latest block alone, `minBlockCount` is negative
and the call does not fail: it returns the Simple metric of one block. -/
theorem huge_window_passes :
    (10 : ℕ) < 2 ^ 64 - 1 ∧ 3 ≤ 2 ^ 64 - 1 ∧
    collectedBlocks (sampleChainMinInt 10) (sampleBlock 10 10) 10 (2 ^ 64 - 1)
      = [sampleBlock 10 10] ∧
    minBlockCount (sampleChainMinInt 10).int64OutOfRange (2 ^ 64 - 1) = -2 ^ 63 ∧
    CalculateNetworkCongestionMetric (sampleChainMinInt 10) (2 ^ 64 - 1)
      CongestionStrategy_Simple = .ok .nan := by
  decide

/-- C29 (amended).  For a latest block number `L` and a window `B` with `L < B < 2 ^ 64`
the `uint64` difference `L - B` wraps to `L + 2 ^ 64 - B`, which is above `L`: the fetch
loop starts no fetch and the slice holds the latest block alone.  For `3 ≤ B ≤ 2 ^ 63`
the threshold is at least 2 and the call fails with the not-enough-blocks error. -/
theorem short_chain_window (a : WindowAnswers) (L B : ℕ) (lastBlock : Block)
    (strategy : String) (hn : a.BlockNumber = .ok L)
    (hb : a.getBlockData (wrapInt64 L) = .ok lastBlock)
    (hperm : ∀ l, (a.arrival l).Perm l) (hLB : L < B) (hB : B < 2 ^ 64) :
    ((L + 2 ^ 64 - B % 2 ^ 64) % 2 ^ 64 = L + 2 ^ 64 - B ∧ L < L + 2 ^ 64 - B) ∧
    windowNumbers L B = [] ∧
    collectedBlocks a lastBlock L B = [lastBlock] ∧
    (3 ≤ B → B ≤ 2 ^ 63 →
      2 ≤ minBlockCount a.int64OutOfRange B ∧
      CalculateNetworkCongestionMetric a B strategy =
        .error (insufficientBlocksMessage (minBlockCount a.int64OutOfRange B) 1)) := by
  have hw := windowNumbers_of_lt L B hLB hB
  have hc : collectedBlocks a lastBlock L B = [lastBlock] := by
    unfold collectedBlocks
    rw [hw]
    have : a.arrival (fetchedBlocks a.getBlockData []) = [] := by
      have hp := hperm (fetchedBlocks a.getBlockData [])
      have : fetchedBlocks a.getBlockData [] = [] := rfl
      rw [this] at hp ⊢
      exact List.Perm.eq_nil hp
    rw [this]
  refine ⟨⟨?_, by omega⟩, hw, hc, fun h3 h63 => ?_⟩
  · rw [Nat.mod_eq_of_lt hB]
    exact Nat.mod_eq_of_lt (by omega)
  · have h2 := minBlockCount_ge_two a.int64OutOfRange B h3 h63
    refine ⟨h2, ?_⟩
    unfold CalculateNetworkCongestionMetric
    simp only [hn, hb, hc, List.length_singleton]
    rw [if_pos]
    have : ((1 : ℕ) : ℤ) = 1 := rfl
    omega

/-- C29, witness: latest block 2 and a window of 3 blocks. -/
theorem short_chain_window_witness :
    (sampleChain 2 (fun _ => false) id).BlockNumber = .ok 2 ∧
    (sampleChain 2 (fun _ => false) id).getBlockData (wrapInt64 2) = .ok (sampleBlock 2 2) ∧
    (∀ l : List Block, ((sampleChain 2 (fun _ => false) id).arrival l).Perm l) ∧
    collectedBlocks (sampleChain 2 (fun _ => false) id) (sampleBlock 2 2) 2 3
      = [sampleBlock 2 2] ∧
    CalculateNetworkCongestionMetric (sampleChain 2 (fun _ => false) id) 3
        CongestionStrategy_NewestFirst =
      .error (insufficientBlocksMessage (minBlockCount (fun _ => 0) 3) 1) :=
  ⟨rfl, by decide, fun l => List.Perm.refl l,
    (short_chain_window (sampleChain 2 (fun _ => false) id) 2 3 (sampleBlock 2 2)
      CongestionStrategy_NewestFirst rfl (by decide) (fun l => List.Perm.refl l)
      (by decide) (by norm_num)).2.2.1,
    ((short_chain_window (sampleChain 2 (fun _ => false) id) 2 3 (sampleBlock 2 2)
      CongestionStrategy_NewestFirst rfl (by decide) (fun l => List.Perm.refl l)
      (by decide) (by norm_num)).2.2.2 (by decide) (by norm_num)).2⟩

/-! ## Validation of the configuration -/

theorem asciiUpper_eq_empty (s : String) : asciiUpper s = "" ↔ s = "" := by
  unfold asciiUpper
  constructor
  · intro h
    have h2 := congrArg String.data h
    simp only [List.map_eq_nil_iff] at h2
    exact String.ext h2
  · intro h
    rw [h]
    rfl

theorem validateTracingLevel_spec (toUpper : String → String) (cfg : Config)
    (hU : ∀ s, toUpper s = "" ↔ s = "")
    (hR : toUpper TracingLevel_Reverted = TracingLevel_Reverted) :
    ((validateTracingLevel toUpper cfg).1 ≠ none ↔
      (toUpper cfg.TracingLevel ≠ "" ∧
        toUpper cfg.TracingLevel ∉ [TracingLevel_None, TracingLevel_Reverted, TracingLevel_All])) ∧
    ((validateTracingLevel toUpper cfg).1 = none →
      (validateTracingLevel toUpper cfg).2.TracingLevel ∈
        [TracingLevel_None, TracingLevel_Reverted, TracingLevel_All]) ∧
    (cfg.TracingLevel = "" →
      (validateTracingLevel toUpper cfg).2.TracingLevel = TracingLevel_Reverted) ∧
    (validateTracingLevel toUpper cfg).2.Network = cfg.Network := by
  unfold validateTracingLevel
  by_cases h0 : cfg.TracingLevel = ""
  · simp only [h0, if_true, hR, (hU "").2 rfl]
    simp
  · have hne : toUpper cfg.TracingLevel ≠ "" := fun h => h0 ((hU _).1 h)
    simp only [if_neg h0]
    by_cases hm : toUpper cfg.TracingLevel = TracingLevel_None ∨
        toUpper cfg.TracingLevel = TracingLevel_Reverted ∨
        toUpper cfg.TracingLevel = TracingLevel_All
    · simp only [if_pos hm]
      simp [hm, h0]
    · simp only [if_neg hm]
      simp [hm, h0, hne]

/-- C24.  `validateConfig` returns an error if and only if estimation is enabled with 0
blocks, or estimation is enabled and the lower-cased priority is non-empty and none of
the four priorities, or the upper-cased tracing level is non-empty and none of NONE,
REVERTED, ALL.  When it returns no error the stored tracing level is one of the three
(REVERTED for an empty one) and, estimation being enabled, the stored priority is one of
the four (standard for an empty one).  The first of the four priorities is the constant
that `client.go` calls `Priority_Degen`; `strings.ToUpper` maps the empty string, and no
other, to the empty string and leaves `REVERTED` as it is. -/
theorem validateConfig_iff (Priority_Degen : String) (toLower toUpper : String → String)
    (cfg : Config) (hU : ∀ s, toUpper s = "" ↔ s = "")
    (hR : toUpper TracingLevel_Reverted = TracingLevel_Reverted) :
    ((validateConfig Priority_Degen toLower toUpper cfg).1 ≠ none ↔
      ((cfg.Network.GasPriceEstimationEnabled = true ∧ cfg.Network.GasPriceEstimationBlocks = 0) ∨
        (cfg.Network.GasPriceEstimationEnabled = true ∧
          toLower cfg.Network.GasPriceEstimationTxPriority ≠ "" ∧
          toLower cfg.Network.GasPriceEstimationTxPriority ∉
            [Priority_Degen, Priority_Fast, Priority_Standard, Priority_Slow]) ∨
        (toUpper cfg.TracingLevel ≠ "" ∧
          toUpper cfg.TracingLevel ∉
            [TracingLevel_None, TracingLevel_Reverted, TracingLevel_All]))) ∧
    ((validateConfig Priority_Degen toLower toUpper cfg).1 = none →
      (validateConfig Priority_Degen toLower toUpper cfg).2.TracingLevel ∈
          [TracingLevel_None, TracingLevel_Reverted, TracingLevel_All] ∧
      (cfg.TracingLevel = "" →
        (validateConfig Priority_Degen toLower toUpper cfg).2.TracingLevel
          = TracingLevel_Reverted) ∧
      (cfg.Network.GasPriceEstimationEnabled = true →
        (validateConfig Priority_Degen toLower toUpper cfg).2.Network.GasPriceEstimationTxPriority
            ∈ [Priority_Degen, Priority_Fast, Priority_Standard, Priority_Slow] ∧
        (toLower cfg.Network.GasPriceEstimationTxPriority = "" →
          (validateConfig Priority_Degen toLower toUpper cfg).2.Network.GasPriceEstimationTxPriority
            = Priority_Standard))) := by
  by_cases hen : cfg.Network.GasPriceEstimationEnabled = true
  · by_cases hb : cfg.Network.GasPriceEstimationBlocks = 0
    · have hv : validateConfig Priority_Degen toLower toUpper cfg
          = (some ErrZeroEstimationBlocks, cfg) := by
        unfold validateConfig
        rw [if_pos hen, if_pos hb]
      rw [hv]
      simp [hen, hb]
    · by_cases hl : toLower cfg.Network.GasPriceEstimationTxPriority = ""
      · obtain ⟨t1, t2, t3, t4⟩ := validateTracingLevel_spec toUpper
          { cfg with Network :=
            { cfg.Network with GasPriceEstimationTxPriority := Priority_Standard } } hU hR
        have hv : validateConfig Priority_Degen toLower toUpper cfg
            = validateTracingLevel toUpper { cfg with Network :=
                { cfg.Network with GasPriceEstimationTxPriority := Priority_Standard } } := by
          unfold validateConfig
          simp only [if_pos hen, if_neg hb, hl, if_true, true_or, or_true]
        rw [hv]
        refine ⟨?_, fun hok => ⟨t2 hok, t3, fun _ => ?_⟩⟩
        · rw [t1]
          simp [hen, hb, hl]
        · rw [t4]
          simp
      · by_cases hp : toLower cfg.Network.GasPriceEstimationTxPriority = Priority_Degen ∨
            toLower cfg.Network.GasPriceEstimationTxPriority = Priority_Fast ∨
            toLower cfg.Network.GasPriceEstimationTxPriority = Priority_Standard ∨
            toLower cfg.Network.GasPriceEstimationTxPriority = Priority_Slow
        · obtain ⟨t1, t2, t3, t4⟩ := validateTracingLevel_spec toUpper
            { cfg with Network := { cfg.Network with GasPriceEstimationTxPriority :=
                (toLower cfg.Network.GasPriceEstimationTxPriority) } } hU hR
          have hv : validateConfig Priority_Degen toLower toUpper cfg
              = validateTracingLevel toUpper { cfg with Network :=
                  { cfg.Network with GasPriceEstimationTxPriority :=
                    (toLower cfg.Network.GasPriceEstimationTxPriority) } } := by
            unfold validateConfig
            simp only [if_pos hen, if_neg hb, if_neg hl, if_pos hp]
          rw [hv]
          refine ⟨?_, fun hok => ⟨t2 hok, t3, fun _ => ⟨?_, fun h => absurd h hl⟩⟩⟩
          · rw [t1]
            have hmem : toLower cfg.Network.GasPriceEstimationTxPriority ∈
                [Priority_Degen, Priority_Fast, Priority_Standard, Priority_Slow] := by
              simpa using hp
            simp [hen, hb, hmem]
          · rw [t4]
            simpa using hp
        · have hv : validateConfig Priority_Degen toLower toUpper cfg
              = (some ErrBadPriority, { cfg with Network :=
                  { cfg.Network with GasPriceEstimationTxPriority :=
                    (toLower cfg.Network.GasPriceEstimationTxPriority) } }) := by
            unfold validateConfig
            simp only [if_pos hen, if_neg hb, if_neg hl, if_neg hp]
          have hmem : toLower cfg.Network.GasPriceEstimationTxPriority ∉
              [Priority_Degen, Priority_Fast, Priority_Standard, Priority_Slow] := by
            simpa using hp
          rw [hv]
          simp [hen, hl, hmem]
  · obtain ⟨t1, t2, t3, t4⟩ := validateTracingLevel_spec toUpper cfg hU hR
    have hv : validateConfig Priority_Degen toLower toUpper cfg
        = validateTracingLevel toUpper cfg := by
      unfold validateConfig
      rw [if_neg hen]
    rw [hv]
    refine ⟨?_, fun hok => ⟨t2 hok, t3, fun h => absurd h hen⟩⟩
    rw [t1]
    simp [hen]

/-- C24, witness: with `Priority_Degen` being `ultra`, the configuration with priority
`Ultra` and tracing level `all` passes and is stored as `ultra` and `ALL`; the priority
`degen` is refused. -/
theorem validateConfig_iff_witness :
    (∀ s, asciiUpper s = "" ↔ s = "") ∧
    asciiUpper TracingLevel_Reverted = TracingLevel_Reverted ∧
    validateConfig Priority_Ultra asciiLower asciiUpper (sampleConfig true 10 "Ultra" "all")
      = (none, sampleConfig true 10 "ultra" "ALL") ∧
    (validateConfig Priority_Ultra asciiLower asciiUpper
        (sampleConfig true 10 "degen" "all")).1 ≠ none :=
  ⟨asciiUpper_eq_empty, by decide, by decide,
    (validateConfig_iff Priority_Ultra asciiLower asciiUpper (sampleConfig true 10 "degen" "all")
      asciiUpper_eq_empty (by decide)).1.2 (Or.inr (Or.inl ⟨rfl, by decide, by decide⟩))⟩

/-! ## Deployment -/

theorem retryLoop_spec (r : String → Bool) (f : ℕ → Option String) :
    ∀ (left n : ℕ) (log : List String),
      n ≤ (retryLoop r f left n log).2 ∧
      (retryLoop r f left n log).2 ≤ n + left ∧
      (0 < left → n < (retryLoop r f left n log).2) ∧
      (∀ i, n ≤ i → i + 1 < (retryLoop r f left n log).2 → ∃ e, f i = some e ∧ r e = true) ∧
      (∀ i, n ≤ i → i < (retryLoop r f left n log).2 →
        (f i = none → i + 1 = (retryLoop r f left n log).2 ∧
          (retryLoop r f left n log).1 = none) ∧
        (∀ e, f i = some e → r e = false → i + 1 = (retryLoop r f left n log).2 ∧
          (retryLoop r f left n log).1 ≠ none)) ∧
      ((retryLoop r f left n log).1 = none →
        n < (retryLoop r f left n log).2 ∧ f ((retryLoop r f left n log).2 - 1) = none)
  | 0, n, log => by
    simp only [retryLoop]
    refine ⟨le_refl _, le_refl _, fun h => absurd h (by omega), fun i h1 h2 => ?_,
      fun i h1 h2 => ?_, fun h => ?_⟩
    · omega
    · omega
    · exact absurd h (by simp)
  | left + 1, n, log => by
    cases hf : f n with
    | none =>
      simp only [retryLoop, hf]
      refine ⟨by omega, by omega, fun _ => by omega, fun i h1 h2 => by omega,
        fun i h1 h2 => ?_, fun _ => ⟨by omega, by simpa using hf⟩⟩
      have hi : i = n := by omega
      subst hi
      exact ⟨fun _ => by simp, fun e he => by rw [hf] at he; exact absurd he (by simp)⟩
    | some e =>
      by_cases hr : r e = true
      · have ih := retryLoop_spec r f left (n + 1) (log ++ [e])
        have heq : retryLoop r f (left + 1) n log = retryLoop r f left (n + 1) (log ++ [e]) := by
          simp only [retryLoop, hf, hr, if_true]
        rw [heq]
        obtain ⟨i1, i2, i3, i4, i5, i6⟩ := ih
        refine ⟨by omega, by omega, fun _ => by omega, fun i h1 h2 => ?_, fun i h1 h2 => ?_,
          fun h => ⟨by omega, (i6 h).2⟩⟩
        · by_cases hi : i = n
          · subst hi
            exact ⟨e, hf, hr⟩
          · exact i4 i (by omega) h2
        · by_cases hi : i = n
          · subst hi
            refine ⟨fun h => ?_, fun e2 he2 hr2 => ?_⟩
            · rw [hf] at h
              exact absurd h (by simp)
            · rw [hf] at he2
              injection he2 with he2
              rw [he2] at hr
              rw [hr] at hr2
              exact absurd hr2 (by simp)
          · exact i5 i (by omega) h2
      · have hr2 : r e = false := by simpa using hr
        have heq : retryLoop r f (left + 1) n log = (some (log ++ [e]), n + 1) := by
          simp only [retryLoop, hf, hr2]
          rfl
        rw [heq]
        refine ⟨by omega, by omega, fun _ => by omega, fun i h1 h2 => ?_, fun i h1 h2 => ?_,
          fun h => absurd h (by simp)⟩
        · simp only at h2
          omega
        · simp only at h2
          have hi : i = n := by omega
          subst hi
          refine ⟨fun h => ?_, fun _ _ _ => ⟨rfl, by simp⟩⟩
          rw [hf] at h
          exact absurd h (by simp)

theorem retryIfNoCode_iff (toLower : String → String) (e : String) :
    retryIfNoCode toLower e = true ↔
      (stringsContains (toLower e) "no contract code at given address" = true ∨
        stringsContains (toLower e) "no contract code after deployment" = true) := by
  simp only [retryIfNoCode, Bool.or_eq_true]

theorem DeployContract_eq (a : DeployAnswers) (name abi address tx : String)
    (hd : a.DeployContract = .ok (address, tx)) :
    (DeployContract a name abi).attempts
        = (retryDo 10 (retryIfNoCode a.toLower) a.WaitDeployed).2 ∧
    ((retryDo 10 (retryIfNoCode a.toLower) a.WaitDeployed).1 = none →
      (DeployContract a name abi).result = .ok { Address := address, Transaction := tx } ∧
      (DeployContract a name abi).effects = .AddContract address name ::
        (if a.GetABI name then [] else [.AddABI name abi])) ∧
    (∀ errs, (retryDo 10 (retryIfNoCode a.toLower) a.WaitDeployed).1 = some errs →
      (DeployContract a name abi).result = .error (.retry errs) ∧
      (DeployContract a name abi).effects = []) := by
  unfold DeployContract
  rw [hd]
  cases hr : retryDo 10 (retryIfNoCode a.toLower) a.WaitDeployed with
  | mk res n =>
    cases res with
    | none => simp
    | some errs => simp

theorem retryLoop_progress (r : String → Bool) (f : ℕ → Option String) :
    ∀ (left n : ℕ) (log : List String) (i : ℕ) (e : String),
      n ≤ i → i < (retryLoop r f left n log).2 → i + 1 < n + left →
      f i = some e → r e = true → i + 1 < (retryLoop r f left n log).2
  | 0, n, log, i, e => by
    intro h1 h2 h3 _ _
    omega
  | left + 1, n, log, i, e => by
    intro h1 h2 h3 he hr
    cases hf : f n with
    | none =>
      simp only [retryLoop, hf] at h2
      have hi : i = n := by omega
      rw [hi, hf] at he
      exact absurd he (by simp)
    | some e2 =>
      by_cases hr2 : r e2 = true
      · have heq : retryLoop r f (left + 1) n log = retryLoop r f left (n + 1) (log ++ [e2]) := by
          simp only [retryLoop, hf, hr2, if_true]
        rw [heq] at h2 ⊢
        by_cases hi : i = n
        · have h0 := (retryLoop_spec r f left (n + 1) (log ++ [e2])).2.2.1 (by omega)
          omega
        · exact retryLoop_progress r f left (n + 1) (log ++ [e2]) i e (by omega) h2 (by omega)
            he hr
      · have hr3 : r e2 = false := by simpa using hr2
        have heq : retryLoop r f (left + 1) n log = (some (log ++ [e2]), n + 1) := by
          simp only [retryLoop, hf, hr3]
          rfl
        rw [heq] at h2
        simp only at h2
        have hi : i = n := by omega
        rw [hi, hf] at he
        injection he with he
        rw [he] at hr3
        rw [hr3] at hr
        exact absurd hr (by simp)

theorem DeployContract_failed (a : DeployAnswers) (name abi e : String)
    (hd : a.DeployContract = .error e) :
    DeployContract a name abi = { result := .error (.deploy e), effects := [], attempts := 0 } := by
  unfold DeployContract
  rw [hd]

/-- C25.  When `bind.DeployContract` fails, `DeployContract` returns its error, checks
nothing and registers nothing.  Once the creation transaction is sent, it checks for the
code at least once and at most 10 times.  A check is followed by another only if it
failed with an error whose lower-cased text contains one of the two no-contract-code
texts, and after such an error another check is made as long as fewer than 10 have
been made; a check that fails with any other error is the last and the deployment
fails; a check that succeeds is the last, and the deployment succeeds exactly when one
of the checks made succeeds, failing with the error of `retry.Do` otherwise.  On success
the address is added to the contract map under the name, and the ABI is added under the
name only if `GetABI` finds none; on failure nothing is added. -/
theorem deploy_retries (a : DeployAnswers) (name abi : String) :
    (∀ e, a.DeployContract = .error e →
      (DeployContract a name abi).result = .error (.deploy e) ∧
      (DeployContract a name abi).effects = [] ∧
      (DeployContract a name abi).attempts = 0) ∧
    (∀ address tx, a.DeployContract = .ok (address, tx) →
      (1 ≤ (DeployContract a name abi).attempts ∧ (DeployContract a name abi).attempts ≤ 10) ∧
      (∀ i, i + 1 < (DeployContract a name abi).attempts →
        ∃ e, a.WaitDeployed i = some e ∧
          (stringsContains (a.toLower e) "no contract code at given address" = true ∨
            stringsContains (a.toLower e) "no contract code after deployment" = true)) ∧
      (∀ i e, i < (DeployContract a name abi).attempts → i + 1 < 10 →
        a.WaitDeployed i = some e →
        (stringsContains (a.toLower e) "no contract code at given address" = true ∨
          stringsContains (a.toLower e) "no contract code after deployment" = true) →
        i + 1 < (DeployContract a name abi).attempts) ∧
      (∀ i e, i < (DeployContract a name abi).attempts → a.WaitDeployed i = some e →
        ¬ (stringsContains (a.toLower e) "no contract code at given address" = true ∨
            stringsContains (a.toLower e) "no contract code after deployment" = true) →
        (DeployContract a name abi).attempts = i + 1 ∧
          ∃ errs, (DeployContract a name abi).result = .error (.retry errs)) ∧
      (∀ i, i < (DeployContract a name abi).attempts → a.WaitDeployed i = none →
        (DeployContract a name abi).attempts = i + 1) ∧
      ((DeployContract a name abi).result = .ok { Address := address, Transaction := tx } ↔
        ∃ i, i < (DeployContract a name abi).attempts ∧ a.WaitDeployed i = none) ∧
      ((¬ ∃ i, i < (DeployContract a name abi).attempts ∧ a.WaitDeployed i = none) →
        ∃ errs, (DeployContract a name abi).result = .error (.retry errs)) ∧
      ((DeployContract a name abi).result = .ok { Address := address, Transaction := tx } →
        (DeployContract a name abi).effects = .AddContract address name ::
          (if a.GetABI name then [] else [.AddABI name abi])) ∧
      ((∃ err, (DeployContract a name abi).result = .error err) →
        (DeployContract a name abi).effects = [])) := by
  refine ⟨fun e hd => ?_, fun address tx hd => ?_⟩
  · rw [DeployContract_failed a name abi e hd]
    exact ⟨rfl, rfl, rfl⟩
  obtain ⟨hat, hok, herr⟩ := DeployContract_eq a name abi address tx hd
  obtain ⟨s1, s2, s3, s4, s5, s6⟩ :=
    retryLoop_spec (retryIfNoCode a.toLower) a.WaitDeployed 10 0 []
  have s7 := retryLoop_progress (retryIfNoCode a.toLower) a.WaitDeployed 10 0 []
  have hdo : retryDo 10 (retryIfNoCode a.toLower) a.WaitDeployed
      = retryLoop (retryIfNoCode a.toLower) a.WaitDeployed 10 0 [] := rfl
  rw [hdo] at hat hok herr
  rw [hat]
  have hcases : (retryLoop (retryIfNoCode a.toLower) a.WaitDeployed 10 0 []).1 = none ∨
      ∃ errs, (retryLoop (retryIfNoCode a.toLower) a.WaitDeployed 10 0 []).1 = some errs := by
    cases (retryLoop (retryIfNoCode a.toLower) a.WaitDeployed 10 0 []).1 with
    | none => exact Or.inl rfl
    | some errs => exact Or.inr ⟨errs, rfl⟩
  have hiff : (DeployContract a name abi).result = .ok { Address := address, Transaction := tx } ↔
      ∃ i, i < (retryLoop (retryIfNoCode a.toLower) a.WaitDeployed 10 0 []).2 ∧
        a.WaitDeployed i = none := by
    refine ⟨fun h => ?_, fun h => ?_⟩
    · rcases hcases with hc | ⟨errs, hc⟩
      · obtain ⟨h1, h2⟩ := s6 hc
        exact ⟨_, by omega, h2⟩
      · rw [(herr errs hc).1] at h
        exact absurd h (by simp)
    · obtain ⟨i, hi, hn⟩ := h
      exact (hok ((s5 i (Nat.zero_le _) hi).1 hn).2).1
  refine ⟨⟨by have := s3 (by norm_num); omega, by omega⟩, fun i hi => ?_,
    fun i e hi h10 he hr => ?_, fun i e hi he hn => ?_, fun i hi hn => ?_, hiff, fun h => ?_,
    fun h => ?_, fun h => ?_⟩
  · obtain ⟨e, he, hr⟩ := s4 i (Nat.zero_le _) hi
    exact ⟨e, he, (retryIfNoCode_iff a.toLower e).1 hr⟩
  · exact s7 i e (Nat.zero_le _) hi (by omega) he ((retryIfNoCode_iff a.toLower e).2 hr)
  · have hr : retryIfNoCode a.toLower e = false := by
      cases hb : retryIfNoCode a.toLower e with
      | false => rfl
      | true => exact absurd ((retryIfNoCode_iff a.toLower e).1 hb) hn
    obtain ⟨h1, h2⟩ := (s5 i (Nat.zero_le _) hi).2 e he hr
    refine ⟨h1.symm, ?_⟩
    rcases hcases with hc | ⟨errs, hc⟩
    · exact absurd hc h2
    · exact ⟨errs, (herr errs hc).1⟩
  · exact ((s5 i (Nat.zero_le _) hi).1 hn).1.symm
  · rcases hcases with hc | ⟨errs, hc⟩
    · exact absurd (hiff.1 (hok hc).1) h
    · exact ⟨errs, (herr errs hc).1⟩
  · rcases hcases with hc | ⟨errs, hc⟩
    · exact (hok hc).2
    · rw [(herr errs hc).1] at h
      exact absurd h (by simp)
  · rcases hcases with hc | ⟨errs, hc⟩
    · obtain ⟨err, he⟩ := h
      rw [(hok hc).1] at he
      exact absurd he (by simp)
    · exact (herr errs hc).2

/-- C25, witness.  The check fails three times with `no contract code at given address`
and succeeds the fourth time, no ABI being registered: by the theorem the deployment
makes exactly 4 checks, succeeds and registers the address and the ABI.  The check
fails ten times with `no contract code after deployment`: by the theorem all 10 checks
are made, the deployment fails and registers nothing. -/
theorem deploy_retries_witness :
    ((DeployContract (sampleDeployAnswers 3 "no contract code at given address" false)
        "Counter" "CounterABI").attempts = 4 ∧
      (DeployContract (sampleDeployAnswers 3 "no contract code at given address" false)
        "Counter" "CounterABI").result = .ok { Address := "0xC0", Transaction := "0x7a" } ∧
      (DeployContract (sampleDeployAnswers 3 "no contract code at given address" false)
        "Counter" "CounterABI").effects
        = [.AddContract "0xC0" "Counter", .AddABI "Counter" "CounterABI"]) ∧
    ((DeployContract (sampleDeployAnswers 10 "no contract code after deployment" false)
        "Counter" "CounterABI").attempts = 10 ∧
      (∃ errs, (DeployContract (sampleDeployAnswers 10 "no contract code after deployment" false)
        "Counter" "CounterABI").result = .error (.retry errs)) ∧
      (DeployContract (sampleDeployAnswers 10 "no contract code after deployment" false)
        "Counter" "CounterABI").effects = []) := by
  obtain ⟨⟨h1, -⟩, -, hp, -, hs, hiff, -, heff, -⟩ :=
    (deploy_retries (sampleDeployAnswers 3 "no contract code at given address" false)
      "Counter" "CounterABI").2 "0xC0" "0x7a" rfl
  obtain ⟨⟨g1, g10⟩, -, gp, -, -, -, gfail, -, geff⟩ :=
    (deploy_retries (sampleDeployAnswers 10 "no contract code after deployment" false)
      "Counter" "CounterABI").2 "0xC0" "0x7a" rfl
  have a1 := hp 0 "no contract code at given address" (by omega) (by omega) (by decide)
    (Or.inl (by decide))
  have a2 := hp 1 "no contract code at given address" (by omega) (by omega) (by decide)
    (Or.inl (by decide))
  have a3 := hp 2 "no contract code at given address" (by omega) (by omega) (by decide)
    (Or.inl (by decide))
  have a4 := hs 3 a3 (by decide)
  have hok := hiff.2 ⟨3, a3, by decide⟩
  have hg : ∀ i, i < 9 → i < (DeployContract
      (sampleDeployAnswers 10 "no contract code after deployment" false)
      "Counter" "CounterABI").attempts → i + 1 < (DeployContract
      (sampleDeployAnswers 10 "no contract code after deployment" false)
      "Counter" "CounterABI").attempts := fun i h9 hi =>
    gp i "no contract code after deployment" hi (by omega)
      (by simp only [sampleDeployAnswers]; rw [if_pos (by omega)]) (Or.inr (by decide))
  have b1 := hg 0 (by omega) (by omega)
  have b2 := hg 1 (by omega) b1
  have b3 := hg 2 (by omega) b2
  have b4 := hg 3 (by omega) b3
  have b5 := hg 4 (by omega) b4
  have b6 := hg 5 (by omega) b5
  have b7 := hg 6 (by omega) b6
  have b8 := hg 7 (by omega) b7
  have b9 := hg 8 (by omega) b8
  have hfail := gfail (by
    rintro ⟨i, hi, hn⟩
    have h10 : i < 10 := by omega
    simp only [sampleDeployAnswers] at hn
    rw [if_pos h10] at hn
    exact absurd hn (by simp))
  exact ⟨⟨a4, hok, by rw [heff hok]; rfl⟩, ⟨by omega, hfail, geff (by
    obtain ⟨errs, he⟩ := hfail
    exact ⟨_, he⟩)⟩⟩

/-! ## Block statistics -/

theorem rndAt_le_add (qe : ℤ) (x : ℚ) : rndAt qe x ≤ x + (2 : ℚ) ^ qe := by
  have h2 : (0 : ℚ) < (2 : ℚ) ^ qe := by positivity
  unfold rndAt
  have h1 : ((rhe (x / (2 : ℚ) ^ qe) : ℤ) : ℚ) ≤ x / (2 : ℚ) ^ qe + 1 := by
    have ha := rhe_le_floor_add_one (x / (2 : ℚ) ^ qe)
    have hb : ((⌊x / (2 : ℚ) ^ qe⌋ : ℤ) : ℚ) ≤ x / (2 : ℚ) ^ qe := Int.floor_le _
    have hc : ((rhe (x / (2 : ℚ) ^ qe) : ℤ) : ℚ) ≤ ((⌊x / (2 : ℚ) ^ qe⌋ + 1 : ℤ) : ℚ) := by
      exact_mod_cast ha
    push_cast at hc
    linarith
  calc ((rhe (x / (2 : ℚ) ^ qe) : ℤ) : ℚ) * (2 : ℚ) ^ qe
      ≤ (x / (2 : ℚ) ^ qe + 1) * (2 : ℚ) ^ qe := mul_le_mul_of_nonneg_right h1 h2.le
    _ = x + (2 : ℚ) ^ qe := by field_simp

/-- Rounding to a double raises a value from one half on by at most the factor
`1 + 2 ^ (-52)`. -/
theorem rndDouble_le_rel {x : ℚ} (hx : 1 / 2 ≤ x) :
    rndDouble x ≤ x * (1 + (2 : ℚ) ^ (-52 : ℤ)) := by
  have hpos : 0 < x := by linarith
  have hs := (expOf_spec hpos.ne').1
  rw [abs_of_pos hpos] at hs
  have hE : 0 ≤ expOf x := by
    by_contra hneg
    have hlt : expOf x ≤ -1 := by omega
    have h3 := (expOf_spec hpos.ne').2
    rw [abs_of_pos hpos] at h3
    have h4 : (2 : ℚ) ^ expOf x ≤ (2 : ℚ) ^ (-1 : ℤ) :=
      zpow_le_zpow_right₀ (by norm_num) hlt
    have h5 : (2 : ℚ) ^ (-1 : ℤ) = 1 / 2 := by norm_num
    have h6 : x < 1 / 2 := lt_of_lt_of_le h3 (h4.trans h5.le)
    exact absurd hx (not_le.2 h6)
  unfold rndDouble
  have hq : max (expOf x - 53) (-1074) = expOf x - 53 := max_eq_left (by omega)
  rw [hq]
  have h1 := rndAt_le_add (expOf x - 53) x
  have h2 : (2 : ℚ) ^ (expOf x - 53) = (2 : ℚ) ^ (expOf x - 1) * (2 : ℚ) ^ (-52 : ℤ) := by
    rw [← zpow_add₀ (by norm_num)]
    congr 1
    ring
  have h3 : (2 : ℚ) ^ (expOf x - 1) * (2 : ℚ) ^ (-52 : ℤ) ≤ x * (2 : ℚ) ^ (-52 : ℤ) :=
    mul_le_mul_of_nonneg_right hs (by positivity)
  rw [h2] at h1
  linarith

theorem round_95_100 : F64.round 95 100 = .fin 8556839292003942 (-53) := by decide

/-- For a length from 1 on that an `int` can hold, `int(0.95 * float64(len))` is a
valid index of a slice of that length. -/
theorem index95_lt (oor : F64 → ℤ) (k : ℕ) (h1 : 1 ≤ k) (hk : k < 2 ^ 63) :
    0 ≤ index95 oor k ∧ index95 oor k < k := by
  have h1q : (1 : ℚ) ≤ ((k : ℤ) : ℚ) := by
    have : (1 : ℤ) ≤ (k : ℤ) := by exact_mod_cast h1
    exact_mod_cast this
  have hkq : ((k : ℤ) : ℚ) < 9223372036854775808 := by
    have : (k : ℤ) < 9223372036854775808 := by exact_mod_cast hk
    exact_mod_cast this
  have hu : (2 : ℚ) ^ (-52 : ℤ) = 1 / 4503599627370496 := by norm_num
  obtain ⟨m1, e1, hf1⟩ : ∃ m e, F64.ofInt (k : ℤ) = .fin m e := by
    unfold F64.ofInt
    apply round_fin_of_lt _ _ (by norm_num)
    rw [Nat.cast_one, div_one, abs_of_nonneg (by linarith)]
    exact lt_trans hkq (by norm_num)
  have hK := ofInt_toRat hf1
  have hKl : (1 : ℚ) ≤ (m1 : ℚ) * (2 : ℚ) ^ e1 := by
    rw [hK]
    have := rndDouble_mono_nonneg (by norm_num : (0 : ℚ) ≤ 1) h1q
    have h11 : rndDouble (1 : ℚ) = 1 := by
      have := rndDouble_intCast 1 (by norm_num)
      simpa using this
    rwa [h11] at this
  have hKu : (m1 : ℚ) * (2 : ℚ) ^ e1 ≤ ((k : ℤ) : ℚ) * (1 + 1 / 4503599627370496) := by
    rw [hK, ← hu]
    exact rndDouble_le_rel (by linarith)
  have hc : ((8556839292003942 : ℤ) : ℚ) * (2 : ℚ) ^ (-53 : ℤ)
      = 8556839292003942 / 9007199254740992 := by norm_num
  have hxl : (1 : ℚ) / 2 ≤
      ((8556839292003942 : ℤ) : ℚ) * (2 : ℚ) ^ (-53 : ℤ) * ((m1 : ℚ) * (2 : ℚ) ^ e1) := by
    rw [hc]
    nlinarith
  have hx0 : (0 : ℚ) ≤
      ((8556839292003942 : ℤ) : ℚ) * (2 : ℚ) ^ (-53 : ℤ) * ((m1 : ℚ) * (2 : ℚ) ^ e1) :=
    le_trans (by norm_num) hxl
  have hxu : ((8556839292003942 : ℤ) : ℚ) * (2 : ℚ) ^ (-53 : ℤ) * ((m1 : ℚ) * (2 : ℚ) ^ e1)
      ≤ (95 / 100) * (((k : ℤ) : ℚ) * (1 + 1 / 4503599627370496)) := by
    rw [hc]
    nlinarith
  obtain ⟨m, e, hf2⟩ : ∃ m e, (F64.fin 8556839292003942 (-53)).mul (.fin m1 e1) = .fin m e := by
    unfold F64.mul
    apply ofDyadic_fin_of_lt
    have : ((8556839292003942 * m1 : ℤ) : ℚ) * (2 : ℚ) ^ (-53 + e1)
        = ((8556839292003942 : ℤ) : ℚ) * (2 : ℚ) ^ (-53 : ℤ) * ((m1 : ℚ) * (2 : ℚ) ^ e1) := by
      rw [zpow_add₀ (by norm_num)]
      push_cast
      ring
    rw [this, abs_of_nonneg hx0]
    refine lt_of_le_of_lt hxu ?_
    have h1023 : (9223372036854775808 : ℚ) * 2 < (2 : ℚ) ^ (1023 : ℤ) := by norm_num
    refine lt_trans ?_ h1023
    nlinarith
  have hv := (mul_fin hf2).2.2
  simp only [F64.toRat] at hv
  have hv0 : (0 : ℚ) ≤ (m : ℚ) * (2 : ℚ) ^ e := by
    rw [hv]
    exact rndDouble_nonneg hx0
  have hvu : (m : ℚ) * (2 : ℚ) ^ e < ((k : ℤ) : ℚ) := by
    rw [hv]
    have hr := rndDouble_le_rel hxl
    rw [hu] at hr
    refine lt_of_le_of_lt hr ?_
    have hstep : ((8556839292003942 : ℤ) : ℚ) * (2 : ℚ) ^ (-53 : ℤ) * ((m1 : ℚ) * (2 : ℚ) ^ e1)
        * (1 + 1 / 4503599627370496)
        ≤ (95 / 100) * (((k : ℤ) : ℚ) * (1 + 1 / 4503599627370496))
          * (1 + 1 / 4503599627370496) :=
      mul_le_mul_of_nonneg_right hxu (by norm_num)
    refine lt_of_le_of_lt hstep ?_
    nlinarith
  have ht : truncDyadic m e = ⌊(m : ℚ) * (2 : ℚ) ^ e⌋ := by
    rw [truncDyadic_eq]
    unfold truncQ
    rw [if_pos hv0]
  have hfl : (0 : ℤ) ≤ ⌊(m : ℚ) * (2 : ℚ) ^ e⌋ := Int.floor_nonneg.2 hv0
  have hfu : ⌊(m : ℚ) * (2 : ℚ) ^ e⌋ < (k : ℤ) := by
    rw [Int.floor_lt]
    exact hvu
  have hk2 : (k : ℤ) < 2 ^ 63 := by exact_mod_cast hk
  unfold index95
  rw [round_95_100, hf1, hf2]
  simp only [F64.toInt64]
  rw [ht, if_pos ⟨by omega, by omega⟩]
  exact ⟨hfl, hfu⟩

theorem collectValues_ok (timeSub : ℕ → ℕ → ℤ) :
    ∀ (rest : List StatsBlock) (previous : StatsBlock),
      (∀ b ∈ rest, b.BaseFee ≠ none) →
      ∃ values, collectValues timeSub previous rest = .ok values ∧
        values.length = rest.length
  | [], _, _ => ⟨[], rfl, rfl⟩
  | block :: rest, previous, h => by
    obtain ⟨values, hv, hl⟩ := collectValues_ok timeSub rest block
      (fun b hb => h b (List.mem_cons_of_mem _ hb))
    cases hfee : block.BaseFee with
    | none => exact absurd hfee (h block (List.mem_cons_self _ _))
    | some fee =>
      simp only [collectValues, hfee, hv]
      exact ⟨_, rfl, by simp [hl]⟩

theorem loopValues_ok (timeSub : ℕ → ℕ → ℤ) (blocks : List StatsBlock)
    (h : ∀ b ∈ blocks, b.BaseFee ≠ none) :
    ∃ values, loopValues timeSub blocks = .ok values ∧
      values.length = blocks.length - 1 := by
  cases blocks with
  | nil => exact ⟨[], rfl, rfl⟩
  | cons first rest =>
    obtain ⟨values, hv, hl⟩ := collectValues_ok timeSub rest first
      (fun b hb => h b (List.mem_cons_of_mem _ hb))
    exact ⟨values, hv, by simp [hl]⟩

theorem indexAt_ok {α : Type} (xs : List α) (i : ℤ) (h0 : 0 ≤ i) (h1 : i < xs.length) :
    ∃ x, indexAt xs i = .ok x := by
  unfold indexAt
  rw [if_neg (by omega)]
  have hlt : i.toNat < xs.length := by omega
  rw [List.get?_eq_get hlt]
  exact ⟨_, rfl⟩

theorem summarize_nil (oor : F64 → ℤ) (totalTransactions : ℤ) :
    summarize oor [] totalTransactions = .panic (.runtime "integer divide by zero") := by
  rfl

theorem summarize_ok (oor : F64 → ℤ) (values : List (ℤ × F64 × ℕ × ℕ × ℕ))
    (totalTransactions : ℤ) (h1 : 1 ≤ values.length) (h2 : values.length < 2 ^ 63) :
    ∃ summary, summarize oor values totalTransactions = .ok summary := by
  obtain ⟨i0, i1⟩ := index95_lt oor values.length h1 h2
  have hz : ((values.length : ℕ) : ℤ) ≠ 0 := by omega
  have hz2 : values.length ≠ 0 := by omega
  obtain ⟨d, hd⟩ := indexAt_ok ((values.map (fun v => v.1)).insertionSort (fun x y => x ≤ y))
    (index95 oor values.length) i0 (by simpa using i1)
  obtain ⟨t, ht⟩ := indexAt_ok
    ((values.map (fun v => v.2.1)).insertionSort (fun x y => float64Less y x = false))
    (index95 oor values.length) i0 (by simpa using i1)
  obtain ⟨u, hu⟩ := indexAt_ok
    ((values.map (fun v => v.2.2.1)).insertionSort (fun x y => x ≤ y))
    (index95 oor values.length) i0 (by simpa using i1)
  obtain ⟨l, hl⟩ := indexAt_ok
    ((values.map (fun v => v.2.2.2.1)).insertionSort (fun x y => x ≤ y))
    (index95 oor values.length) i0 (by simpa using i1)
  obtain ⟨f, hf⟩ := indexAt_ok
    ((values.map (fun v => v.2.2.2.2)).insertionSort (fun x y => x ≤ y))
    (index95 oor values.length) i0 (by simpa using i1)
  unfold summarize
  simp only [List.length_map, divInt64, divUint64, if_neg hz, if_neg hz2, hd, ht, hu, hl, hf]
  exact ⟨_, rfl⟩

/-- C28.  For a list of blocks that all carry a base fee, short enough for its length
to be an `int`, `CalculateBlockDurations` returns if and only if the list has at least
two blocks: with fewer it panics on an integer division by zero, and with `n ≥ 2`
blocks the index `int(0.95 * float64(n - 1))` lies below `n - 1`, the length of each
sorted list. -/
theorem durations_complete_iff (a : StatsAnswers) (blocks : List StatsBlock)
    (hfee : ∀ b ∈ blocks, b.BaseFee ≠ none) (hlen : blocks.length < 2 ^ 63) :
    ((∃ r, CalculateBlockDurations a blocks = .ok r) ↔ 2 ≤ blocks.length) ∧
    (blocks.length < 2 →
      CalculateBlockDurations a blocks = .panic (.runtime "integer divide by zero")) ∧
    (2 ≤ blocks.length →
      0 ≤ index95 a.int64OutOfRange (blocks.length - 1) ∧
      index95 a.int64OutOfRange (blocks.length - 1) < ((blocks.length - 1 : ℕ) : ℤ)) := by
  obtain ⟨values, hv, hl⟩ := loopValues_ok a.timeSub blocks hfee
  have hsmall : blocks.length < 2 →
      CalculateBlockDurations a blocks = .panic (.runtime "integer divide by zero") := by
    intro h
    have h0 : values = [] := List.length_eq_zero.1 (by omega)
    unfold CalculateBlockDurations
    simp only [hv, h0, summarize_nil]
  have hbig : 2 ≤ blocks.length → ∃ r, CalculateBlockDurations a blocks = .ok r := by
    intro h
    obtain ⟨summary, hs⟩ := summarize_ok a.int64OutOfRange values
      (wrapInt64 ((blocks.tail.map (fun b => (b.Transactions : ℤ))).sum)) (by omega) (by omega)
    unfold CalculateBlockDurations
    rw [hv]
    simp only [hs]
    cases a.marshalStats with
    | none => exact ⟨_, rfl⟩
    | some e => exact ⟨_, rfl⟩
  refine ⟨⟨fun h => ?_, hbig⟩, hsmall, fun h => index95_lt _ _ (by omega) (by omega)⟩
  by_contra hlt
  obtain ⟨r, hr⟩ := h
  rw [hsmall (by omega)] at hr
  exact absurd hr (by simp)

/-- C28, witness: three blocks 12 and 6 seconds apart return a summary, one block
panics. -/
theorem durations_complete_iff_witness :
    (∀ b ∈ [sampleStatsBlock 1 5, sampleStatsBlock 2 6, { sampleStatsBlock 3 12 with Time := 30 }],
      b.BaseFee ≠ none) ∧
    (∃ r, CalculateBlockDurations (sampleStatsAnswers 3)
      [sampleStatsBlock 1 5, sampleStatsBlock 2 6, { sampleStatsBlock 3 12 with Time := 30 }]
        = .ok r) ∧
    CalculateBlockDurations (sampleStatsAnswers 3) [sampleStatsBlock 1 5]
      = .panic (.runtime "integer divide by zero") :=
  ⟨by decide,
    (durations_complete_iff (sampleStatsAnswers 3)
      [sampleStatsBlock 1 5, sampleStatsBlock 2 6, { sampleStatsBlock 3 12 with Time := 30 }]
      (by decide) (by norm_num)).1.2 (by decide),
    (durations_complete_iff (sampleStatsAnswers 3) [sampleStatsBlock 1 5]
      (by decide) (by norm_num)).2.1 (by decide)⟩

/-- C26 (failing input): with a nil `endBlock`, whatever `startBlock` is, `Stats`
returns the failure of the header fetch or panics at `endBlock.Int64()`; on a chain
with latest block 10 it panics for the range from 5 to nil.  For the range from 5 to 0
no header is fetched, `endBlock` becomes nil and `Stats` panics as well; only with a
negative `startBlock` does the end 0 stand for the latest block. -/
theorem stats_nil_end_block_panics :
    (∀ (a : StatsAnswers) (startBlock : ℤ),
      Stats a startBlock none =
          some (.panic (.runtime "invalid memory address or nil pointer dereference")) ∨
        ∃ e, Stats a startBlock none =
          some (.ok (some ("failed to get the latest block header: " ++ e)))) ∧
    Stats (sampleStatsAnswers 10) 5 none =
      some (.panic (.runtime "invalid memory address or nil pointer dereference")) ∧
    Stats (sampleStatsAnswers 10) 5 (some 0) =
      some (.panic (.runtime "invalid memory address or nil pointer dereference")) ∧
    Stats (sampleStatsAnswers 10) (-3) (some 0) = some (.ok none) := by
  refine ⟨fun a startBlock => ?_, by decide, by decide, by decide⟩
  unfold Stats
  cases hh : a.HeaderByNumber with
  | error e =>
    right
    exact ⟨e, by simp⟩
  | ok number =>
    left
    by_cases hs : startBlock < 0
    · simp [hs]
    · simp [hs]

/-! ## The command line: tracing -/

theorem traceLoop_spec (trace : ℕ → String → Option String) :
    ∀ (txs : List String) (i : ℕ),
      (traceLoop trace i txs).2 <+: txs ∧
      ((traceLoop trace i txs).1 = none ↔
        ∀ k tx, txs[k]? = some tx → trace (i + k) tx = none) ∧
      ((traceLoop trace i txs).1 = none → (traceLoop trace i txs).2 = txs) ∧
      (∀ e, (traceLoop trace i txs).1 = some e →
        ∃ k tx, txs[k]? = some tx ∧ trace (i + k) tx = some e ∧
          (traceLoop trace i txs).2 = txs.take (k + 1) ∧
          ∀ j tx2, j < k → txs[j]? = some tx2 → trace (i + j) tx2 = none)
  | [], i => by
    simp [traceLoop]
  | tx :: rest, i => by
    obtain ⟨p1, p2, p3, p4⟩ := traceLoop_spec trace rest (i + 1)
    cases ht : trace i tx with
    | some e =>
      simp only [traceLoop, ht]
      refine ⟨by simp, ⟨fun h => absurd h (by simp), fun h => ?_⟩, fun h => absurd h (by simp),
        fun e2 he2 => ?_⟩
      · have := h 0 tx (by simp)
        rw [Nat.add_zero, ht] at this
        exact absurd this (by simp)
      · injection he2 with he2
        subst he2
        exact ⟨0, tx, by simp, by simpa using ht, by simp, fun j tx2 hj => absurd hj (by omega)⟩
    | none =>
      simp only [traceLoop, ht]
      refine ⟨?_, ⟨fun h k tx2 hk => ?_, fun h => ?_⟩, fun h => ?_, fun e he => ?_⟩
      · exact (List.prefix_cons_inj tx).2 p1
      · cases k with
        | zero =>
          simp only [List.getElem?_cons_zero, Option.some.injEq] at hk
          subst hk
          simpa using ht
        | succ k =>
          simp only [List.getElem?_cons_succ] at hk
          have := (p2.1 h) k tx2 hk
          rw [show i + (k + 1) = i + 1 + k by omega]
          exact this
      · apply p2.2
        intro k tx2 hk
        have := h (k + 1) tx2 (by simpa using hk)
        rw [show i + 1 + k = i + (k + 1) by omega]
        exact this
      · rw [p3 h]
      · obtain ⟨k, tx2, hk, hf, htk, hb⟩ := p4 e he
        refine ⟨k + 1, tx2, by simpa using hk, ?_, ?_, fun j tx3 hj hj3 => ?_⟩
        · rw [show i + (k + 1) = i + 1 + k by omega]
          exact hf
        · rw [htk]
          simp
        · cases j with
          | zero =>
            simp only [List.getElem?_cons_zero, Option.some.injEq] at hj3
            subst hj3
            simpa using ht
          | succ j =>
            simp only [List.getElem?_cons_succ] at hj3
            have := hb j tx3 (by omega) hj3
            rw [show i + (j + 1) = i + 1 + j by omega]
            exact this

theorem selectNetwork_spec (snet : String) :
    ∀ (networks : List Network) (given : Option Network),
      ((networks.foldl (fun selected n => if n.Name = snet then some n else selected) given
          = none) ↔ (given = none ∧ ∀ n ∈ networks, n.Name ≠ snet)) ∧
      ((∃ n ∈ networks, n.Name = snet) →
        ∃ n ∈ networks, n.Name = snet ∧
          networks.foldl (fun selected n => if n.Name = snet then some n else selected) given
            = some n) ∧
      ((∀ n ∈ networks, n.Name ≠ snet) →
        networks.foldl (fun selected n => if n.Name = snet then some n else selected) given
          = given)
  | [], given => by simp
  | n :: rest, given => by
    obtain ⟨q1, q2, q3⟩ := selectNetwork_spec snet rest (if n.Name = snet then some n else given)
    simp only [List.foldl_cons]
    refine ⟨?_, fun h => ?_, fun h => ?_⟩
    · rw [q1]
      by_cases hn : n.Name = snet
      · simp [hn]
      · simp [hn]
    · by_cases hr : ∃ n2 ∈ rest, n2.Name = snet
      · obtain ⟨n2, hm, hn2, hf⟩ := q2 hr
        exact ⟨n2, List.mem_cons_of_mem _ hm, hn2, hf⟩
      · have hall : ∀ n2 ∈ rest, n2.Name ≠ snet := fun n2 hm hn2 => hr ⟨n2, hm, hn2⟩
        obtain ⟨n2, hm, hn2⟩ := h
        have hn : n.Name = snet := by
          rcases List.mem_cons.1 hm with h1 | h1
          · rw [← h1]; exact hn2
          · exact absurd hn2 (hall n2 h1)
        refine ⟨n, List.mem_cons_self _ _, hn, ?_⟩
        rw [q3 hall, if_pos hn]
    · rw [q3 (fun n2 hm => h n2 (List.mem_cons_of_mem _ hm)),
        if_neg (h n (List.mem_cons_self _ _))]

theorem selectNetwork_last (snet : String) :
    ∀ (networks : List Network) (given : Option Network) (network : Network),
      networks.foldl (fun selected n => if n.Name = snet then some n else selected) given
        = some network →
      (∃ n ∈ networks, n.Name = snet) →
      ∃ pre post, networks = pre ++ network :: post ∧ network.Name = snet ∧
        ∀ n ∈ post, n.Name ≠ snet
  | [], _, _, _, hex => by
    obtain ⟨n, hm, -⟩ := hex
    exact absurd hm (List.not_mem_nil n)
  | n :: rest, given, network, hf, hex => by
    simp only [List.foldl_cons] at hf
    by_cases hr : ∃ n2 ∈ rest, n2.Name = snet
    · obtain ⟨pre, post, h1, h2, h3⟩ := selectNetwork_last snet rest _ network hf hr
      exact ⟨n :: pre, post, by rw [h1]; rfl, h2, h3⟩
    · have hall : ∀ n2 ∈ rest, n2.Name ≠ snet := fun n2 hm hn2 => hr ⟨n2, hm, hn2⟩
      have hn : n.Name = snet := by
        obtain ⟨n2, hm, hn2⟩ := hex
        rcases List.mem_cons.1 hm with h1 | h1
        · rw [← h1]; exact hn2
        · exact absurd hn2 (hall n2 h1)
      rw [(selectNetwork_spec snet rest _).2.2 hall, if_pos hn] at hf
      injection hf with hf
      exact ⟨[], rest, by rw [hf]; rfl, by rw [← hf]; exact hn, hall⟩

theorem RunCLI_loaded (a : CLIAnswers) (networkName file : String) (txs : List String)
    (cfg : FileConfig) (hn : networkName ≠ "") (hc : ConfigLoaded a file txs cfg)
    (he : a.Getenv "NETWORK" = networkName) :
    RunCLI a networkName file =
      match selectNetwork cfg networkName with
      | none =>
        { err := some ("network " ++ networkName ++ " not found"), client := none, traced := [] }
      | some network =>
        match a.NewClientWithConfig network with
        | some e => { err := some e, client := none, traced := [] }
        | none =>
          { err := (traceLoop a.TraceGethTX 0 txs).1, client := some network,
            traced := (traceLoop a.TraceGethTX 0 txs).2 } := by
  obtain ⟨h1, h2, ⟨d, h3, h4⟩, h5⟩ := hc
  unfold RunCLI
  simp only [if_neg hn, h1, if_neg h2, h3, h4, h5, he]

/-- C30 (failing input): the config file has a table `network` named Mainnet and no
entry of `networks` named Sepolia.  `seth -n Sepolia trace -f hashes.json` does not fail
at finding the network: it builds the client for Mainnet, traces both hashes on it and
returns no error.  On the same file without the table `network` it fails with
`network Sepolia not found`. -/
theorem cli_traces_on_other_network :
    RunCLI (sampleCLIAnswers ["0x01", "0x02"] "Sepolia"
        ⟨some (sampleNetwork "Mainnet" true), [sampleNetwork "Holesky" true]⟩ (fun _ => false))
        "Sepolia" "hashes.json" =
      { err := none, client := some (sampleNetwork "Mainnet" true),
        traced := ["0x01", "0x02"] } ∧
    (sampleNetwork "Mainnet" true).Name ≠ "Sepolia" ∧
    RunCLI (sampleCLIAnswers ["0x01", "0x02"] "Sepolia"
        ⟨none, [sampleNetwork "Holesky" true]⟩ (fun _ => false))
        "Sepolia" "hashes.json" =
      { err := some "network Sepolia not found", client := none, traced := [] } := by
  decide

/-- The steps of `seth -n <network> trace -f <file>`.  With an empty network name `RunCLI`
returns the no-network error, whatever the surroundings answer.  Otherwise it returns the
error of the first step that fails, with nothing traced: reading the hashes from the
file, the config path, reading and parsing the config, resolving its path, selecting the
network, building the client.  The environment holding the name, the network selected is
the last entry of `networks` with that name; when no entry has the name, selecting fails
if the file has no table `network`, and that table is selected if it has one.  Once the
client is built for the selected network, the hashes are handed to the tracer one by one
in file order up to the first that fails, whose error is returned, and no error is
returned exactly when every listed hash was traced. -/
theorem cli_trace_steps (a : CLIAnswers) (networkName file : String) :
    (networkName = "" →
      RunCLI a networkName file = { err := some ErrNoNetwork, client := none, traced := [] }) ∧
    (networkName ≠ "" → ∀ e, a.OpenJsonFileAsStruct file = .error e →
      RunCLI a networkName file = { err := some e, client := none, traced := [] }) ∧
    (networkName ≠ "" → ∀ txs, a.OpenJsonFileAsStruct file = .ok txs →
      (a.Getenv "SETH_CONFIG_PATH" = "" →
        RunCLI a networkName file =
          { err := some ErrEmptyConfigPath, client := none, traced := [] }) ∧
      (a.Getenv "SETH_CONFIG_PATH" ≠ "" →
        (∀ e, a.ReadFile (a.Getenv "SETH_CONFIG_PATH") = .error e →
          RunCLI a networkName file =
            { err := some (errorsWrap e ErrReadSethConfig), client := none, traced := [] }) ∧
        (∀ d e, a.ReadFile (a.Getenv "SETH_CONFIG_PATH") = .ok d → a.Unmarshal d = .error e →
          RunCLI a networkName file =
            { err := some (errorsWrap e ErrUnmarshalSethConfig), client := none,
              traced := [] }) ∧
        (∀ d cfg e, a.ReadFile (a.Getenv "SETH_CONFIG_PATH") = .ok d →
          a.Unmarshal d = .ok cfg → a.Abs (a.Getenv "SETH_CONFIG_PATH") = some e →
          RunCLI a networkName file = { err := some e, client := none, traced := [] }))) ∧
    (networkName ≠ "" → a.Getenv "NETWORK" = networkName →
      ∀ txs cfg, ConfigLoaded a file txs cfg →
        ((cfg.Network = none ∧ ∀ n ∈ cfg.Networks, n.Name ≠ networkName) →
          RunCLI a networkName file =
            { err := some ("network " ++ networkName ++ " not found"), client := none,
              traced := [] }) ∧
        (∀ network, selectNetwork cfg networkName = some network →
          ((∃ n ∈ cfg.Networks, n.Name = networkName) →
            ∃ pre post, cfg.Networks = pre ++ network :: post ∧ network.Name = networkName ∧
              ∀ n ∈ post, n.Name ≠ networkName) ∧
          ((∀ n ∈ cfg.Networks, n.Name ≠ networkName) → cfg.Network = some network) ∧
          (∀ e, a.NewClientWithConfig network = some e →
            RunCLI a networkName file = { err := some e, client := none, traced := [] }) ∧
          (a.NewClientWithConfig network = none →
            (RunCLI a networkName file).client = some network ∧
            (RunCLI a networkName file).traced <+: txs ∧
            ((RunCLI a networkName file).err = none ↔
              ∀ k tx, txs[k]? = some tx → a.TraceGethTX k tx = none) ∧
            ((RunCLI a networkName file).err = none →
              (RunCLI a networkName file).traced = txs) ∧
            (∀ e, (RunCLI a networkName file).err = some e →
              ∃ k tx, txs[k]? = some tx ∧ a.TraceGethTX k tx = some e ∧
                (RunCLI a networkName file).traced = txs.take (k + 1) ∧
                ∀ j tx2, j < k → txs[j]? = some tx2 → a.TraceGethTX j tx2 = none)))) := by
  refine ⟨fun hn => ?_, fun hn e h1 => ?_, fun hn txs h1 => ⟨fun h2 => ?_, fun h2 =>
    ⟨fun e h3 => ?_, fun d e h3 h4 => ?_, fun d cfg e h3 h4 h5 => ?_⟩⟩,
    fun hn he txs cfg hc => ⟨fun hnone => ?_, fun network hsel => ?_⟩⟩
  · unfold RunCLI
    rw [if_pos hn]
  · unfold RunCLI
    simp only [if_neg hn, h1]
  · unfold RunCLI
    simp only [if_neg hn, h1, if_pos h2]
  · unfold RunCLI
    simp only [if_neg hn, h1, if_neg h2, h3]
  · unfold RunCLI
    simp only [if_neg hn, h1, if_neg h2, h3, h4]
  · unfold RunCLI
    simp only [if_neg hn, h1, if_neg h2, h3, h4, h5]
  · have hsel : selectNetwork cfg networkName = none :=
      ((selectNetwork_spec networkName cfg.Networks cfg.Network).1).2 hnone
    rw [RunCLI_loaded a networkName file txs cfg hn hc he, hsel]
  · have hrun := RunCLI_loaded a networkName file txs cfg hn hc he
    rw [hsel] at hrun
    obtain ⟨q1, q2, q3⟩ := selectNetwork_spec networkName cfg.Networks cfg.Network
    refine ⟨fun hex => ?_, fun hall => ?_, fun e hnew => ?_, fun hnew => ?_⟩
    · exact selectNetwork_last networkName cfg.Networks cfg.Network network hsel hex
    · rw [← q3 hall]
      exact hsel
    · rw [hrun]
      simp only [hnew]
    · simp only [hnew] at hrun
      rw [hrun]
      obtain ⟨p1, p2, p3, p4⟩ := traceLoop_spec a.TraceGethTX txs 0
      refine ⟨rfl, p1, ?_, p3, ?_⟩
      · simpa using p2
      · simpa using p4

/-! ## Newest-first metric -/

end Seth
